import Mathlib

/-!
99ML: tensor utility library and third-order cybernetics model

A shallow embedding of `src/src/neural_physics.c` (tensor operations, index
get/set, activation landscape, attention) and of
`src/src/third_order_cybernetics.c` (planes, cycles, spiral, system).

Modelling conventions.

* `float` is an arbitrary linearly ordered field `α` (exact arithmetic); a
  decimal constant such as `0.7f` is the rational number it denotes.  Where
  overflow, infinities or NaN decide a property, the functions of
  `third_order_cybernetics.c` are taken in the namespace `IEEE`, over a `float`
  type with these special values.  The libm
  function `expf` is a parameter of `neural_softmax`; elsewhere the libm
  functions and `M_PI` come as a record `libm α`.  `fabsf` is the absolute
  value and `fminf` the minimum.
* `size_t` values are natural numbers; every `size_t` multiplication, addition
  and subtraction that works on caller-supplied shapes or indices is reduced
  modulo `SIZE_MOD`, and so are the increments `cycle_count++` and
  `timestep++` of the two `size_t` counters.
* A possibly-NULL pointer argument or result is an `Option`.  A pointer field
  through which a struct owns a sub-object is the sub-object itself.
* `malloc`/`calloc` succeed.
* A heap buffer is a `List`; `data[i]` is `List.getD data i 0` and
  `data[i] = v` is `List.set data i v`.  A C loop
  `for (size_t i = 0; i < n; i++)` is a left fold over `List.range n`.
* The successive values of `(float)rand() / RAND_MAX` are a stream
  `rng : Nat → α`; a function that draws from it returns the rest of the
  stream.
-/

set_option linter.unusedSectionVars false

namespace ML99

/-- Modulus of `size_t` arithmetic (64-bit target). -/
def SIZE_MOD : Nat := 2 ^ 64

/-- The struct `neural_tensor_t` of `neural_physics.h`. -/
structure neural_tensor_t (α : Type) where
  data : List α
  shape : List Nat
  n_dims : Nat
  total_size : Nat
deriving DecidableEq

section Tensor

variable {α : Type} [LinearOrderedField α]

/-- The loop of `neural_tensor_create` that copies the shape and multiplies the
dimensions into `total_size`; the state is `(tensor->shape, tensor->total_size)`. -/
def neural_tensor_create_loop (shape : List Nat) (n_dims : Nat) : List Nat × Nat :=
  (List.range n_dims).foldl
    (fun st i => (st.1 ++ [shape.getD i 0], (st.2 * shape.getD i 0) % SIZE_MOD))
    ([], 1)

/-- The function `neural_tensor_create`: a zero-filled tensor of the given shape. -/
def neural_tensor_create (shape : List Nat) (n_dims : Nat) : Option (neural_tensor_t α) :=
  let st := neural_tensor_create_loop shape n_dims
  some { data := List.replicate st.2 0, shape := st.1, n_dims := n_dims, total_size := st.2 }

/-- The innermost loop of `neural_matmul`: the dot product of row `i` of `A`
and column `j` of `B`, accumulated from `0.0f` in index order. -/
def neural_matmul_sum (A B : neural_tensor_t α) (k n i j : Nat) : α :=
  (List.range k).foldl
    (fun sum l =>
      sum + A.data.getD ((i * k + l) % SIZE_MOD) 0 * B.data.getD ((l * n + j) % SIZE_MOD) 0)
    0

/-- The two outer loops of `neural_matmul`, writing into `result->data`. -/
def neural_matmul_loop (A B : neural_tensor_t α) (m n k : Nat) (data : List α) : List α :=
  (List.range m).foldl
    (fun d i =>
      (List.range n).foldl
        (fun d j => d.set ((i * n + j) % SIZE_MOD) (neural_matmul_sum A B k n i j))
        d)
    data

/-- The function `neural_matmul`. -/
def neural_matmul (A B : Option (neural_tensor_t α)) : Option (neural_tensor_t α) :=
  match A, B with
  | some A, some B =>
    if A.n_dims ≠ 2 ∨ B.n_dims ≠ 2 then none
    else if A.shape.getD 1 0 ≠ B.shape.getD 0 0 then none
    else
      let m := A.shape.getD 0 0
      let n := B.shape.getD 1 0
      let k := A.shape.getD 1 0
      match neural_tensor_create [m, n] 2 with
      | none => none
      | some result => some { result with data := neural_matmul_loop A B m n k result.data }
  | _, _ => none

/-- The function `neural_add`. -/
def neural_add (A B : Option (neural_tensor_t α)) : Option (neural_tensor_t α) :=
  match A, B with
  | some A, some B =>
    if A.total_size ≠ B.total_size then none
    else
      match neural_tensor_create A.shape A.n_dims with
      | none => none
      | some result =>
        some { result with
          data := (List.range A.total_size).foldl
            (fun d i => d.set i (A.data.getD i 0 + B.data.getD i 0)) result.data }
  | _, _ => none

/-- The function `neural_mul`. -/
def neural_mul (A B : Option (neural_tensor_t α)) : Option (neural_tensor_t α) :=
  match A, B with
  | some A, some B =>
    if A.total_size ≠ B.total_size then none
    else
      match neural_tensor_create A.shape A.n_dims with
      | none => none
      | some result =>
        some { result with
          data := (List.range A.total_size).foldl
            (fun d i => d.set i (A.data.getD i 0 * B.data.getD i 0)) result.data }
  | _, _ => none

/-- The function `neural_relu`. -/
def neural_relu (input : Option (neural_tensor_t α)) : Option (neural_tensor_t α) :=
  match input with
  | none => none
  | some input =>
    match neural_tensor_create input.shape input.n_dims with
    | none => none
    | some result =>
      some { result with
        data := (List.range input.total_size).foldl
          (fun d i => d.set i (if input.data.getD i 0 > 0 then input.data.getD i 0 else 0))
          result.data }

/-- First loop of `neural_softmax`: the running maximum, started at `data[0]`
and scanned over the indices `1 .. total_size - 1`. -/
def neural_softmax_max (input : neural_tensor_t α) : α :=
  (List.range' 1 (input.total_size - 1)).foldl
    (fun max_val i => if input.data.getD i 0 > max_val then input.data.getD i 0 else max_val)
    (input.data.getD 0 0)

/-- Second loop of `neural_softmax`: stores the shifted exponentials and
accumulates their sum; the state is `(result->data, sum)`. -/
def neural_softmax_exp (expf : α → α) (input : neural_tensor_t α) (max_val : α)
    (data : List α) : List α × α :=
  (List.range input.total_size).foldl
    (fun st i =>
      let d := st.1.set i (expf (input.data.getD i 0 - max_val))
      (d, st.2 + d.getD i 0))
    (data, 0)

/-- Third loop of `neural_softmax`: divides every stored element by `sum`. -/
def neural_softmax_norm (input : neural_tensor_t α) (sum : α) (data : List α) : List α :=
  (List.range input.total_size).foldl (fun d i => d.set i (d.getD i 0 / sum)) data

/-- The function `neural_softmax`, with libm's `expf` as a parameter. -/
def neural_softmax (expf : α → α) (input : Option (neural_tensor_t α)) :
    Option (neural_tensor_t α) :=
  match input with
  | none => none
  | some input =>
    match neural_tensor_create input.shape input.n_dims with
    | none => none
    | some result =>
      let max_val := neural_softmax_max input
      let st := neural_softmax_exp expf input max_val result.data
      some { result with data := neural_softmax_norm input st.2 st.1 }

/-- The index loop shared by `neural_tensor_get` and `neural_tensor_set`:
`loop i (flat_index, stride)` runs the iterations `i, i-1, .., 1` of
`for (size_t i = n_dims; i > 0; i--)` and returns the final `flat_index`. -/
def flat_index_loop (shape indices : List Nat) : Nat → Nat → Nat → Nat
  | 0, flat_index, _ => flat_index
  | i + 1, flat_index, stride =>
    flat_index_loop shape indices i
      ((flat_index + (indices.getD i 0 * stride) % SIZE_MOD) % SIZE_MOD)
      ((stride * shape.getD i 0) % SIZE_MOD)

/-- The flat offset computed by `neural_tensor_get` and `neural_tensor_set`. -/
def flat_index (tensor : neural_tensor_t α) (indices : List Nat) : Nat :=
  flat_index_loop tensor.shape indices tensor.n_dims 0 1

/-- The function `neural_tensor_get`. -/
def neural_tensor_get (tensor : Option (neural_tensor_t α)) (indices : Option (List Nat)) : α :=
  match tensor, indices with
  | some tensor, some indices =>
    if tensor.n_dims = 0 then 0
    else if flat_index tensor indices < tensor.total_size then
      tensor.data.getD (flat_index tensor indices) 0
    else 0
  | _, _ => 0

/-- The function `neural_tensor_set`; the result is the tensor after the call. -/
def neural_tensor_set (tensor : Option (neural_tensor_t α)) (indices : Option (List Nat))
    (value : α) : Option (neural_tensor_t α) :=
  match tensor, indices with
  | some tensor, some indices =>
    if tensor.n_dims = 0 then some tensor
    else if flat_index tensor indices < tensor.total_size then
      some { tensor with data := tensor.data.set (flat_index tensor indices) value }
    else some tensor
  | t, _ => t

/-- The data-model invariant of a tensor: `n_dims` is the length of `shape`,
`total_size` is the product of the shape and fits a `size_t`, and the buffer
holds `total_size` elements. -/
def WellFormed (t : neural_tensor_t α) : Prop :=
  t.n_dims = t.shape.length ∧ t.total_size = t.shape.prod ∧ t.shape.prod < SIZE_MOD ∧
    t.data.length = t.total_size

end Tensor

section Spiral

variable {α : Type} [LinearOrderedField α]

/-- The enum `spiral_phase_t` of `third_order_cybernetics.h`, a C `int`. -/
abbrev spiral_phase_t := Int

def PHASE_ENTROPIC_DRIFT : spiral_phase_t := 0
def PHASE_MORPHOGENESIS : spiral_phase_t := 1
def PHASE_COMMUNICATION : spiral_phase_t := 2
def PHASE_CYBERNETICS : spiral_phase_t := 3
def PHASE_AUTOPOIESIS : spiral_phase_t := 4
def PHASE_SELF_REFERENCE : spiral_phase_t := 5
def PHASE_AUTONOMY : spiral_phase_t := 6

/-- The struct `spiral_state_t` of `third_order_cybernetics.h`. -/
structure spiral_state_t (α : Type) where
  current_phase : spiral_phase_t
  phase_completion : α
  cycle_count : Nat
  ascending : Bool
deriving DecidableEq

/-- The function `spiral_create`. -/
def spiral_create : Option (spiral_state_t α) :=
  some
    { current_phase := PHASE_ENTROPIC_DRIFT
      phase_completion := 0
      cycle_count := 0
      ascending := true }

/-- The function `spiral_advance`; the result is the state after the call. -/
def spiral_advance (spiral : Option (spiral_state_t α)) (progress : α) :
    Option (spiral_state_t α) :=
  match spiral with
  | none => none
  | some spiral =>
    let spiral : spiral_state_t α :=
      { spiral with phase_completion := spiral.phase_completion + progress }
    if spiral.phase_completion ≥ 1 then
      let spiral : spiral_state_t α := { spiral with phase_completion := 0 }
      if spiral.ascending then
        if spiral.current_phase < PHASE_AUTONOMY then
          some { spiral with current_phase := spiral.current_phase + 1 }
        else
          some { spiral with
            cycle_count := (spiral.cycle_count + 1) % SIZE_MOD
            current_phase := PHASE_ENTROPIC_DRIFT }
      else some spiral
    else some spiral

end Spiral

section Landscape

variable {α : Type} [LinearOrderedField α]

/-- The functions of the C library `<math.h>` that the sources call, and its constant
`M_PI`; they are parameters of the embedding. -/
structure libm (α : Type) where
  expf : α → α
  tanhf : α → α
  cosf : α → α
  sqrtf : α → α
  M_PI : α

/-- The C library function `memcpy` on `float` buffers: copies the first `n` elements of
`src` into `dst`. -/
def memcpy (dst src : List α) (n : Nat) : List α :=
  (List.range n).foldl (fun d i => d.set i (src.getD i 0)) dst

/-- The struct `activation_landscape_t` of `neural_physics.h`. -/
structure activation_landscape_t (α : Type) where
  activations : neural_tensor_t α
  thresholds : List α
  n_nodes : Nat
deriving DecidableEq

/-- The function `activation_landscape_create`. -/
def activation_landscape_create (n_nodes : Nat) : Option (activation_landscape_t α) :=
  match neural_tensor_create (α := α) [n_nodes] 1 with
  | none => none
  | some activations =>
    some
      { activations := activations
        thresholds :=
          (List.range n_nodes).foldl (fun t i => t.set i 0.5) (List.replicate n_nodes 0)
        n_nodes := n_nodes }

/-- The function `activation_landscape_update`; the result is the landscape after the
call. -/
def activation_landscape_update (landscape : Option (activation_landscape_t α))
    (new_activations : Option (List α)) : Option (activation_landscape_t α) :=
  match landscape, new_activations with
  | some landscape, some new_activations =>
    some { landscape with
      activations := { landscape.activations with
        data := memcpy landscape.activations.data new_activations landscape.n_nodes } }
  | l, _ => l

/-- The function `activation_landscape_spread`; the result is the landscape after the
call. -/
def activation_landscape_spread (landscape : Option (activation_landscape_t α))
    (connectivity : Option (neural_tensor_t α)) (decay_factor : α) :
    Option (activation_landscape_t α) :=
  match landscape, connectivity with
  | some landscape, some connectivity =>
    match neural_tensor_create (α := α) [1, landscape.n_nodes] 2 with
    | none => some landscape
    | some activations_2d =>
      let activations_2d : neural_tensor_t α :=
        { activations_2d with
          data := memcpy activations_2d.data landscape.activations.data landscape.n_nodes }
      match neural_matmul (some activations_2d) (some connectivity) with
      | none => some landscape
      | some new_activations =>
        some { landscape with
          activations := { landscape.activations with
            data :=
              (List.range (min landscape.n_nodes new_activations.total_size)).foldl
                (fun d i => d.set i (new_activations.data.getD i 0 * decay_factor))
                landscape.activations.data } }
  | l, _ => l

/-- The function `activation_landscape_get_active_nodes`.  The argument `n_active` is the
cell the out-pointer refers to (absent for a NULL pointer); the result is the returned
array (absent for NULL) and the cell after the call. -/
def activation_landscape_get_active_nodes (landscape : Option (activation_landscape_t α))
    (n_active : Option Nat) : Option (List Nat) × Option Nat :=
  match landscape, n_active with
  | some landscape, some _ =>
    let count := (List.range landscape.n_nodes).foldl
      (fun c i =>
        if landscape.activations.data.getD i 0 > landscape.thresholds.getD i 0 then c + 1
        else c)
      0
    if count = 0 then (none, some 0)
    else
      let st := (List.range landscape.n_nodes).foldl
        (fun (st : List Nat × Nat) i =>
          if landscape.activations.data.getD i 0 > landscape.thresholds.getD i 0 then
            (st.1.set st.2 i, st.2 + 1)
          else st)
        (List.replicate count 0, 0)
      (some st.1, some count)
  | _, n_active => (none, n_active)

/-- The struct `attention_state_t` of `neural_physics.h`. -/
structure attention_state_t (α : Type) where
  attention_weights : neural_tensor_t α
  query : neural_tensor_t α
  key : neural_tensor_t α
  value : neural_tensor_t α
  n_heads : Nat
deriving DecidableEq

/-- The function `attention_create`. -/
def attention_create (n_heads dim_model dim_key : Nat) : Option (attention_state_t α) :=
  match neural_tensor_create (α := α) [dim_model, dim_model] 2,
      neural_tensor_create (α := α) [dim_model, dim_key] 2,
      neural_tensor_create (α := α) [dim_model, dim_key] 2,
      neural_tensor_create (α := α) [dim_model, dim_key] 2 with
  | some attention_weights, some query, some key, some value =>
    some
      { attention_weights := attention_weights
        query := query
        key := key
        value := value
        n_heads := n_heads }
  | _, _, _, _ => none

/-- The function `attention_compute`. -/
def attention_compute (m : libm α) (state : Option (attention_state_t α))
    (query key value : Option (neural_tensor_t α)) : Option (neural_tensor_t α) :=
  match state, query, key, value with
  | some _, some query, some key, some value =>
    match neural_matmul (some query) (some key) with
    | none => none
    | some scores =>
      let scale : α := 1 / m.sqrtf ((key.shape.getD 1 0 : Nat) : α)
      let scores : neural_tensor_t α :=
        { scores with
          data := (List.range scores.total_size).foldl
            (fun d i => d.set i (d.getD i 0 * scale)) scores.data }
      match neural_softmax m.expf (some scores) with
      | none => none
      | some attention_weights => neural_matmul (some attention_weights) (some value)
  | _, _, _, _ => none

/-- The function `attention_multihead`. -/
def attention_multihead (m : libm α) (state : Option (attention_state_t α))
    (input : Option (neural_tensor_t α)) : Option (neural_tensor_t α) :=
  match state, input with
  | some state, some input =>
    attention_compute m (some state) (some input) (some input) (some input)
  | _, _ => none

/-- The function `attention_self`. -/
def attention_self (m : libm α) (input : Option (neural_tensor_t α)) (n_heads : Nat) :
    Option (neural_tensor_t α) :=
  match input with
  | none => none
  | some input =>
    if input.n_dims ≠ 2 then none
    else
      match attention_create (α := α) n_heads (input.shape.getD 1 0) (input.shape.getD 1 0) with
      | none => none
      | some state => attention_multihead m (some state) (some input)

/-- The tensor `input` of Example 3 of `neural_symbolic_demo.c`: shape `{4, 8}`, filled with
`(float)(i % 10) / 10.0f`. -/
def demo_attention_input : neural_tensor_t α :=
  { data := (List.range 32).map (fun i => ((i % 10 : Nat) : α) / 10)
    shape := [4, 8]
    n_dims := 2
    total_size := 32 }

end Landscape

section Planes

variable {α : Type} [LinearOrderedField α]

/-- The struct `physical_plane_t` of `third_order_cybernetics.h`. -/
structure physical_plane_t (α : Type) where
  energy_state : neural_tensor_t α
  matter_structure : neural_tensor_t α
  entropy_level : α
  n_components : Nat
deriving DecidableEq

/-- The function `physical_plane_create`; `rng` is the stream of the values
`(float)rand() / RAND_MAX` still to come, and the second result is the stream after the
call. -/
def physical_plane_create (n_components : Nat) (rng : Nat → α) :
    Option (physical_plane_t α) × (Nat → α) :=
  match neural_tensor_create (α := α) [n_components] 1,
      neural_tensor_create (α := α) [n_components] 1 with
  | some energy_state, some matter_structure =>
    let st := (List.range n_components).foldl
      (fun (st : List α × List α × (Nat → α)) i =>
        (st.1.set i (st.2.2 0), st.2.1.set i 1, fun k => st.2.2 (k + 1)))
      (energy_state.data, matter_structure.data, rng)
    (some
      { energy_state := { energy_state with data := st.1 }
        matter_structure := { matter_structure with data := st.2.1 }
        entropy_level := 0.5
        n_components := n_components },
     st.2.2)
  | _, _ => (none, rng)

/-- The function `physical_plane_update`; the result is the plane after the call. -/
def physical_plane_update (m : libm α) (plane : Option (physical_plane_t α)) (dt : α) :
    Option (physical_plane_t α) :=
  match plane with
  | none => none
  | some plane =>
    let total_energy : α := (List.range plane.n_components).foldl
      (fun total_energy i => total_energy + plane.energy_state.data.getD i 0) 0
    let avg_energy : α := total_energy / (plane.n_components : α)
    let data : List α := (List.range plane.n_components).foldl
      (fun d i =>
        let diff := avg_energy - d.getD i 0
        d.set i (d.getD i 0 + diff * dt * 0.1))
      plane.energy_state.data
    let variance : α := (List.range plane.n_components).foldl
      (fun variance i =>
        let diff := data.getD i 0 - avg_energy
        variance + diff * diff)
      0
    some { plane with
      energy_state := { plane.energy_state with data := data }
      entropy_level := 0.5 + 0.5 * m.tanhf (variance / (plane.n_components : α) - 1) }

/-- The struct `information_plane_t` of `third_order_cybernetics.h`. -/
structure information_plane_t (α : Type) where
  connectivity : neural_tensor_t α
  information_flow : neural_tensor_t α
  complexity : α
  n_relations : Nat
deriving DecidableEq

/-- The function `information_plane_create`.  The condition
`i != j && (float)rand() / RAND_MAX > 0.7f` draws from the stream only when `i != j`, and
the value of the connection is a second draw. -/
def information_plane_create (n_relations : Nat) (rng : Nat → α) :
    Option (information_plane_t α) × (Nat → α) :=
  match neural_tensor_create (α := α) [n_relations, n_relations] 2,
      neural_tensor_create (α := α) [n_relations] 1 with
  | some connectivity, some information_flow =>
    let st := (List.range n_relations).foldl
      (fun (st : List α × List α × (Nat → α)) i =>
        let inner := (List.range n_relations).foldl
          (fun (st : List α × (Nat → α)) j =>
            let c : α × (Nat → α) :=
              if i ≠ j then
                if st.2 0 > 0.7 then (st.2 1, fun k => st.2 (k + 2))
                else (0, fun k => st.2 (k + 1))
              else (0, st.2)
            (st.1.set ((i * n_relations + j) % SIZE_MOD) c.1, c.2))
          (st.1, st.2.2)
        (inner.1, st.2.1.set i 0.5, inner.2))
      (connectivity.data, information_flow.data, rng)
    (some
      { connectivity := { connectivity with data := st.1 }
        information_flow := { information_flow with data := st.2.1 }
        complexity := (n_relations : α)
        n_relations := n_relations },
     st.2.2)
  | _, _ => (none, rng)

/-- The function `information_plane_update`; the result is the plane after the call. -/
def information_plane_update (plane : Option (information_plane_t α)) (dt : α) :
    Option (information_plane_t α) :=
  match plane with
  | none => none
  | some plane =>
    let new_flow : List α := (List.range plane.n_relations).foldl
      (fun new_flow i =>
        let incoming : α := (List.range plane.n_relations).foldl
          (fun incoming j =>
            incoming +
              plane.connectivity.data.getD ((j * plane.n_relations + i) % SIZE_MOD) 0 *
                plane.information_flow.data.getD j 0)
          0
        new_flow.set i (plane.information_flow.data.getD i 0 * (1 - dt) + incoming * dt))
      (List.replicate plane.n_relations 0)
    let flow : List α := (List.range plane.n_relations).foldl
      (fun d i =>
        let d := d.set i (new_flow.getD i 0)
        let d := if d.getD i 0 > 1 then d.set i 1 else d
        if d.getD i 0 < 0 then d.set i 0 else d)
      plane.information_flow.data
    let sum_connections : α :=
      (List.range ((plane.n_relations * plane.n_relations) % SIZE_MOD)).foldl
        (fun sum_connections i => sum_connections + |plane.connectivity.data.getD i 0|) 0
    some { plane with
      information_flow := { plane.information_flow with data := flow }
      complexity := sum_connections / (plane.n_relations : α) }

/-- The struct `existential_plane_t` of `third_order_cybernetics.h`. -/
structure existential_plane_t (α : Type) where
  self_model : neural_tensor_t α
  identity_state : neural_tensor_t α
  autonomy_level : α
  self_aware : Bool
  local_image : neural_tensor_t α
  global_image : neural_tensor_t α
  self_reference_degree : α
  image_convergence : α
  operational_closure : Bool
deriving DecidableEq

/-- The function `existential_plane_create`. -/
def existential_plane_create (model_size : Nat) (rng : Nat → α) :
    Option (existential_plane_t α) × (Nat → α) :=
  match neural_tensor_create (α := α) [model_size] 1,
      neural_tensor_create (α := α) [model_size] 1,
      neural_tensor_create (α := α) [model_size] 1,
      neural_tensor_create (α := α) [model_size] 1 with
  | some self_model, some identity_state, some local_image, some global_image =>
    let st := (List.range model_size).foldl
      (fun (st : (List α × List α × List α × List α) × (Nat → α)) i =>
        ((st.1.1.set i (st.2 0 * 0.1), st.1.2.1.set i 0, st.1.2.2.1.set i 0,
            st.1.2.2.2.set i 0),
          fun k => st.2 (k + 1)))
      ((self_model.data, identity_state.data, local_image.data, global_image.data), rng)
    (some
      { self_model := { self_model with data := st.1.1 }
        identity_state := { identity_state with data := st.1.2.1 }
        autonomy_level := 0
        self_aware := false
        local_image := { local_image with data := st.1.2.2.1 }
        global_image := { global_image with data := st.1.2.2.2 }
        self_reference_degree := 0
        image_convergence := 0
        operational_closure := false },
     st.2)
  | _, _, _, _ => (none, rng)

end Planes

section Existential

variable {α : Type} [LinearOrderedField α]

/-- The subtraction `i - j` of two `size_t` values, which wraps around when `i < j`. -/
def size_sub (i j : Nat) : Nat := (i + SIZE_MOD - j) % SIZE_MOD

/-- The function `existential_plane_update`; the result is the plane after the call. -/
def existential_plane_update (m : libm α) (plane : Option (existential_plane_t α)) (dt : α) :
    Option (existential_plane_t α) :=
  match plane with
  | none => none
  | some plane =>
    let model_size := plane.self_model.total_size
    let local_image : List α := (List.range model_size).foldl
      (fun d i =>
        let local_perception : α := (List.range model_size).foldl
          (fun local_perception j =>
            let distance : α := |((i : Nat) : α) - ((j : Nat) : α)| / (model_size : α)
            let weight : α := m.expf (-distance * distance * 2)
            local_perception + plane.identity_state.data.getD j 0 * weight)
          0
        d.set i (m.tanhf (local_perception / m.sqrtf (model_size : α))))
      plane.local_image.data
    let global_image : List α := (List.range model_size).foldl
      (fun d i =>
        let global_field : α := (List.range model_size).foldl
          (fun global_field j =>
            let phase : α := 2 * m.M_PI * ((size_sub i j : Nat) : α) / (model_size : α)
            global_field + plane.self_model.data.getD j 0 * m.cosf phase)
          0
        d.set i (m.tanhf (global_field / (model_size : α))))
      plane.global_image.data
    let convergence_sum : α := (List.range model_size).foldl
      (fun convergence_sum i =>
        let diff : α := local_image.getD i 0 - global_image.getD i 0
        convergence_sum + m.expf (-diff * diff))
      0
    let image_convergence : α := convergence_sum / (model_size : α)
    let self_reference_degree : α := image_convergence
    let operational_closure : Bool := decide (self_reference_degree > 0.7)
    let self_model : List α := (List.range model_size).foldl
      (fun d i =>
        let update : α := local_image.getD i 0 - d.getD i 0
        d.set i (d.getD i 0 + update * dt * 0.2))
      plane.self_model.data
    let identity_state : List α := (List.range model_size).foldl
      (fun d i =>
        let emergence : α := global_image.getD i 0
        let coherence : α := (List.range model_size).foldl
          (fun coherence j =>
            coherence +
              self_model.getD j 0 *
                m.cosf (2 * m.M_PI * ((size_sub i j : Nat) : α) / (model_size : α)))
          0
        d.set i (0.6 * emergence + 0.4 * m.tanhf (coherence / (model_size : α))))
      plane.identity_state.data
    let identity_strength : α := (List.range model_size).foldl
      (fun identity_strength i => identity_strength + |identity_state.getD i 0|) 0
    let autonomy_level : α := m.tanhf (identity_strength / (model_size : α))
    let autonomy_level : α :=
      if operational_closure then min 1 (autonomy_level * 1.2) else autonomy_level
    some
      { self_model := { plane.self_model with data := self_model }
        identity_state := { plane.identity_state with data := identity_state }
        autonomy_level := autonomy_level
        self_aware := decide (autonomy_level > 0.6) && decide (self_reference_degree > 0.5)
        local_image := { plane.local_image with data := local_image }
        global_image := { plane.global_image with data := global_image }
        self_reference_degree := self_reference_degree
        image_convergence := image_convergence
        operational_closure := operational_closure }

/-- An existential plane of model size 20 as `existential_plane_create(20)` returns it when
`rand()` yields `0, RAND_MAX, 0, 0, ...`: `self_model[1] = 0.1`, every other element zero. -/
def existential_plane_wrap : existential_plane_t α where
  self_model :=
    { data := [0, 0.1, 0, 0, 0, 0, 0, 0, 0, 0, 0, 0, 0, 0, 0, 0, 0, 0, 0, 0]
      shape := [20], n_dims := 1, total_size := 20 }
  identity_state := { data := List.replicate 20 0, shape := [20], n_dims := 1, total_size := 20 }
  autonomy_level := 0
  self_aware := false
  local_image := { data := List.replicate 20 0, shape := [20], n_dims := 1, total_size := 20 }
  global_image := { data := List.replicate 20 0, shape := [20], n_dims := 1, total_size := 20 }
  self_reference_degree := 0
  image_convergence := 0
  operational_closure := false

end Existential

section Cycles

variable {α : Type} [LinearOrderedField α]

/-- The enum `cycle_type_t` of `third_order_cybernetics.h`, a C `int`. -/
abbrev cycle_type_t := Int

def CYCLE_VORTICES : cycle_type_t := 1
def CYCLE_MORPHOGENESIS : cycle_type_t := 2
def CYCLE_HOMEOSTASIS : cycle_type_t := 3
def CYCLE_AUTOPOIESIS : cycle_type_t := 4
def CYCLE_SELF_REFERENCE : cycle_type_t := 5
def CYCLE_AUTOGENESIS : cycle_type_t := 6

/-- The struct `cycle_state_t` of `third_order_cybernetics.h`. -/
structure cycle_state_t (α : Type) where
  type : cycle_type_t
  activity_level : α
  stability : α
  is_active : Bool
  state : neural_tensor_t α
deriving DecidableEq

/-- The function `cycle_is_stabilizing`. -/
def cycle_is_stabilizing (type : cycle_type_t) : Bool :=
  decide (type = CYCLE_VORTICES) || decide (type = CYCLE_HOMEOSTASIS) ||
    decide (type = CYCLE_SELF_REFERENCE)

/-- The function `cycle_is_creative`. -/
def cycle_is_creative (type : cycle_type_t) : Bool :=
  !cycle_is_stabilizing type

/-- The function `cycle_create`. -/
def cycle_create (type : cycle_type_t) (state_size : Nat) (rng : Nat → α) :
    Option (cycle_state_t α) × (Nat → α) :=
  match neural_tensor_create (α := α) [state_size] 1 with
  | none => (none, rng)
  | some state =>
    let st := (List.range state_size).foldl
      (fun (st : List α × (Nat → α)) i => (st.1.set i (st.2 0 * 0.5), fun k => st.2 (k + 1)))
      (state.data, rng)
    (some
      { type := type
        activity_level := 0.5
        stability := 0.5
        is_active := true
        state := { state with data := st.1 } },
     st.2)

/-- The function `cycle_update`; the result is the cycle after the call and the stream
of random values after it. -/
def cycle_update (m : libm α) (cycle : Option (cycle_state_t α)) (dt : α) (rng : Nat → α) :
    Option (cycle_state_t α) × (Nat → α) :=
  match cycle with
  | none => (none, rng)
  | some cycle =>
    if !cycle.is_active then (some cycle, rng)
    else
      let state_size := cycle.state.total_size
      if cycle_is_stabilizing cycle.type then
        let mean : α := (List.range state_size).foldl
          (fun mean i => mean + cycle.state.data.getD i 0) 0
        let mean : α := mean / (state_size : α)
        let data : List α := (List.range state_size).foldl
          (fun d i =>
            let deviation : α := d.getD i 0 - mean
            d.set i (d.getD i 0 - deviation * dt * 0.2))
          cycle.state.data
        (some { cycle with
          state := { cycle.state with data := data }
          stability := 1 - |mean - 0.5| },
         rng)
      else
        let st := (List.range state_size).foldl
          (fun (st : List α × (Nat → α)) i =>
            let noise : α := (st.2 0 - 0.5) * 0.1
            let d := st.1.set i (st.1.getD i 0 + noise * dt)
            let d := if d.getD i 0 > 1 then d.set i 1 else d
            let d := if d.getD i 0 < 0 then d.set i 0 else d
            (d, fun k => st.2 (k + 1)))
          (cycle.state.data, rng)
        let mean : α := 0.5
        let variance : α := (List.range state_size).foldl
          (fun variance i =>
            let diff : α := st.1.getD i 0 - mean
            variance + diff * diff)
          0
        (some { cycle with
          state := { cycle.state with data := st.1 }
          activity_level := m.tanhf (variance / (state_size : α)) },
         st.2)

end Cycles

section System

variable {α : Type} [LinearOrderedField α]

/-- The enum `leverage_point_t` of `third_order_cybernetics.h`, a C `int`. -/
abbrev leverage_point_t := Int

def LEVERAGE_CONSTANTS : leverage_point_t := 1
def LEVERAGE_BUFFERS : leverage_point_t := 2
def LEVERAGE_FLOWS : leverage_point_t := 3
def LEVERAGE_NEGATIVE_FEEDBACK : leverage_point_t := 4
def LEVERAGE_POSITIVE_FEEDBACK : leverage_point_t := 5
def LEVERAGE_INFORMATION_FLOWS : leverage_point_t := 6
def LEVERAGE_RULES : leverage_point_t := 7
def LEVERAGE_SELF_ORGANIZATION : leverage_point_t := 8
def LEVERAGE_GOALS : leverage_point_t := 9
def LEVERAGE_PARADIGMS : leverage_point_t := 10
def LEVERAGE_TRANSCENDENCE : leverage_point_t := 11
def LEVERAGE_VALUES : leverage_point_t := 12

/-- The struct `cybernetic_system_t` of `third_order_cybernetics.h`.  The planes and the
spiral, which the struct owns through pointers that no function resets, are the objects
themselves; the array `cycles[6]` is a list and `cycles[i]` is its `i`-th entry, absent
when the list is shorter. -/
structure cybernetic_system_t (α : Type) where
  physical : physical_plane_t α
  information : information_plane_t α
  existential : existential_plane_t α
  cycles : List (cycle_state_t α)
  spiral : spiral_state_t α
  viability : α
  complexity_level : α
  is_self_organizing : Bool
  timestep : Nat
  evolution_rate : α
deriving DecidableEq

/-- The function `cybernetic_system_create`. -/
def cybernetic_system_create (n_nodes system_size : Nat) (rng : Nat → α) :
    Option (cybernetic_system_t α) × (Nat → α) :=
  let p := physical_plane_create n_nodes rng
  let i := information_plane_create n_nodes p.2
  let e := existential_plane_create system_size i.2
  match p.1, i.1, e.1 with
  | some physical, some information, some existential =>
    let cs := (List.range 6).foldl
      (fun (st : Option (List (cycle_state_t α)) × (Nat → α)) i =>
        match st.1 with
        | none => st
        | some cycles =>
          let c := cycle_create (((i : Nat) : Int) + 1) system_size st.2
          match c.1 with
          | none => (none, c.2)
          | some cycle => (some (cycles ++ [cycle]), c.2))
      (some [], e.2)
    match cs.1, spiral_create (α := α) with
    | some cycles, some spiral =>
      (some
        { physical := physical
          information := information
          existential := existential
          cycles := cycles
          spiral := spiral
          viability := 0.5
          complexity_level := 1
          is_self_organizing := false
          timestep := 0
          evolution_rate := 1 },
       cs.2)
    | _, _ => (none, cs.2)
  | _, _, _ => (none, e.2)

/-- The function `cybernetic_system_calculate_viability`. -/
def cybernetic_system_calculate_viability (m : libm α)
    (system : Option (cybernetic_system_t α)) : α :=
  match system with
  | none => 0
  | some system =>
    let physical_score : α := 1 - system.physical.entropy_level
    let info_score : α := m.tanhf (system.information.complexity / 5)
    let existential_score : α := system.existential.autonomy_level
    let activity := (List.range 6).foldl
      (fun (st : α × α) i =>
        match system.cycles[i]? with
        | none => st
        | some cycle =>
          if cycle_is_stabilizing cycle.type then (st.1 + cycle.activity_level, st.2)
          else (st.1, st.2 + cycle.activity_level))
      (0, 0)
    let cycle_balance : α := m.tanhf |activity.1 - activity.2|
    let cycle_score : α := 1 - cycle_balance
    physical_score * 0.2 + info_score * 0.3 + existential_score * 0.3 + cycle_score * 0.2

/-- The function `cybernetic_system_step`; the result is the system after the call and
the stream of random values after it. -/
def cybernetic_system_step (m : libm α) (system : Option (cybernetic_system_t α)) (dt : α)
    (rng : Nat → α) : Option (cybernetic_system_t α) × (Nat → α) :=
  match system with
  | none => (none, rng)
  | some system =>
    let dt : α := dt * system.evolution_rate
    let physical := (physical_plane_update m (some system.physical) dt).getD system.physical
    let information :=
      (information_plane_update (some system.information) dt).getD system.information
    let existential :=
      (existential_plane_update m (some system.existential) dt).getD system.existential
    let cs := (List.range 6).foldl
      (fun (st : List (cycle_state_t α) × (Nat → α)) i =>
        let r := cycle_update m st.1[i]? dt st.2
        match r.1 with
        | none => (st.1, r.2)
        | some cycle => (st.1.set i cycle, r.2))
      (system.cycles, rng)
    let spiral_progress : α := dt * (system.viability + 0.1)
    let spiral := (spiral_advance (some system.spiral) spiral_progress).getD system.spiral
    let system : cybernetic_system_t α :=
      { system with
        physical := physical
        information := information
        existential := existential
        cycles := cs.1
        spiral := spiral }
    let system : cybernetic_system_t α :=
      { system with viability := cybernetic_system_calculate_viability m (some system) }
    let system : cybernetic_system_t α :=
      { system with
        is_self_organizing :=
          decide (system.viability > 0.6) && decide (system.existential.autonomy_level > 0.5) }
    let system : cybernetic_system_t α :=
      { system with
        complexity_level :=
          (system.physical.entropy_level + system.information.complexity / 10 +
            system.existential.autonomy_level) / 3 }
    (some { system with timestep := (system.timestep + 1) % SIZE_MOD }, cs.2)

/-- The function `cybernetic_system_is_viable`. -/
def cybernetic_system_is_viable (system : Option (cybernetic_system_t α)) : Bool :=
  match system with
  | none => false
  | some system => decide (system.viability > 0.4)

/-- The function `cybernetic_system_self_organize`; the result is the system after the
call. -/
def cybernetic_system_self_organize (system : Option (cybernetic_system_t α)) :
    Option (cybernetic_system_t α) :=
  match system with
  | none => none
  | some system =>
    let cycles : List (cycle_state_t α) :=
      match system.cycles[1]? with
      | none => system.cycles
      | some cycle => system.cycles.set 1 { cycle with activity_level := 1, is_active := true }
    let cycles : List (cycle_state_t α) :=
      match cycles[3]? with
      | none => cycles
      | some cycle => cycles.set 3 { cycle with activity_level := 1, is_active := true }
    some { system with cycles := cycles, is_self_organizing := true }

/-- The function `cybernetic_system_intervene`; the result is the system after the
call. -/
def cybernetic_system_intervene (system : Option (cybernetic_system_t α))
    (point : leverage_point_t) (magnitude : α) : Option (cybernetic_system_t α) :=
  match system with
  | none => none
  | some system =>
    if point ≥ LEVERAGE_CONSTANTS ∧ point ≤ LEVERAGE_FLOWS then
      some { system with
        physical := { system.physical with
          energy_state := { system.physical.energy_state with
            data := (List.range system.physical.n_components).foldl
              (fun d i => d.set i (d.getD i 0 + magnitude * 0.1))
              system.physical.energy_state.data } } }
    else if point ≥ LEVERAGE_NEGATIVE_FEEDBACK ∧ point ≤ LEVERAGE_RULES then
      some { system with
        information := { system.information with
          information_flow := { system.information.information_flow with
            data := (List.range system.information.n_relations).foldl
              (fun d i => d.set i (d.getD i 0 + magnitude * 0.2))
              system.information.information_flow.data } } }
    else
      let system : cybernetic_system_t α :=
        { system with
          existential := { system.existential with
            identity_state := { system.existential.identity_state with
              data := (List.range system.existential.identity_state.total_size).foldl
                (fun d i => d.set i (d.getD i 0 + magnitude * 0.5))
                system.existential.identity_state.data } } }
      if point ≥ LEVERAGE_PARADIGMS then some { system with is_self_organizing := true }
      else some system

/-- One call of the public interface on a system: `cybernetic_system_step`,
`cybernetic_system_intervene` or `cybernetic_system_self_organize`. -/
inductive system_call (α : Type) where
  | step (dt : α)
  | intervene (point : leverage_point_t) (magnitude : α)
  | self_organize

/-- The state after one call of the public interface. -/
def system_call_apply (m : libm α) (st : Option (cybernetic_system_t α) × (Nat → α)) :
    system_call α → Option (cybernetic_system_t α) × (Nat → α)
  | .step dt => cybernetic_system_step m st.1 dt st.2
  | .intervene point magnitude => (cybernetic_system_intervene st.1 point magnitude, st.2)
  | .self_organize => (cybernetic_system_self_organize st.1, st.2)

/-- The state after a sequence of calls of the public interface, in order. -/
def system_run (m : libm α) (st : Option (cybernetic_system_t α) × (Nat → α))
    (calls : List (system_call α)) : Option (cybernetic_system_t α) × (Nat → α) :=
  calls.foldl (system_call_apply m) st

/-- The state of a spiral after a sequence of `spiral_advance` calls with the given
progress values, in order. -/
def spiral_run (spiral : Option (spiral_state_t α)) (progress : List α) :
    Option (spiral_state_t α) :=
  progress.foldl spiral_advance spiral

end System

section Instances

/-- Rational stand-ins for the libm functions, used to instantiate theorems at concrete
inputs: `1 / (1 + v * v)` for `expf` and `cosf`, `v / (1 + |v|)` for `tanhf`, the identity
for `sqrtf` and `3` for `M_PI`. -/
def libm_rat : libm ℚ where
  expf := fun v => 1 / (1 + v * v)
  tanhf := fun v => v / (1 + |v|)
  cosf := fun v => 1 / (1 + v * v)
  sqrtf := fun v => v
  M_PI := 3

/-- A physical plane with two components, used to instantiate theorems. -/
def physical_plane_rat : physical_plane_t ℚ where
  energy_state := { data := [1, 3], shape := [2], n_dims := 1, total_size := 2 }
  matter_structure := { data := [1, 1], shape := [2], n_dims := 1, total_size := 2 }
  entropy_level := 0.5
  n_components := 2

/-- An information plane with two relations, used to instantiate theorems. -/
def information_plane_rat : information_plane_t ℚ where
  connectivity := { data := [0, 0.5, 0.25, 0], shape := [2, 2], n_dims := 2, total_size := 4 }
  information_flow := { data := [0.5, 0.5], shape := [2], n_dims := 1, total_size := 2 }
  complexity := 2
  n_relations := 2

/-- An existential plane of model size two, used to instantiate theorems. -/
def existential_plane_rat : existential_plane_t ℚ where
  self_model := { data := [0.1, 0.2], shape := [2], n_dims := 1, total_size := 2 }
  identity_state := { data := [0, 0], shape := [2], n_dims := 1, total_size := 2 }
  autonomy_level := 0
  self_aware := false
  local_image := { data := [0, 0], shape := [2], n_dims := 1, total_size := 2 }
  global_image := { data := [0, 0], shape := [2], n_dims := 1, total_size := 2 }
  self_reference_degree := 0
  image_convergence := 0
  operational_closure := false

/-- A cycle of the given type with a state of two elements, used to instantiate
theorems. -/
def cycle_rat (type : cycle_type_t) : cycle_state_t ℚ where
  type := type
  activity_level := 0.5
  stability := 0.5
  is_active := true
  state := { data := [0.25, 0.5], shape := [2], n_dims := 1, total_size := 2 }

/-- A system built from the planes and cycles above, used to instantiate theorems. -/
def system_rat : cybernetic_system_t ℚ where
  physical := physical_plane_rat
  information := information_plane_rat
  existential := existential_plane_rat
  cycles := [cycle_rat 1, cycle_rat 2, cycle_rat 3, cycle_rat 4, cycle_rat 5, cycle_rat 6]
  spiral := { current_phase := 0, phase_completion := 0, cycle_count := 0, ascending := true }
  viability := 0.5
  complexity_level := 1
  is_self_organizing := false
  timestep := 0
  evolution_rate := 1

end Instances

/-! ## The cybernetics model in IEEE 754 arithmetic

The functions of `third_order_cybernetics.c` once more, word for word, over a `float` type
that has the IEEE 754 special values.  Finite arithmetic stays exact, but a result beyond
`FLT_MAX` overflows to an infinity, `inf - inf` and `0 * inf` are NaN, and every comparison
with NaN is false.  The structures, enums and `size_t` helpers of the embedding above are
shared. -/

namespace IEEE

/-- A `float` with the special values of IEEE 754: a finite value, `+inf`, `-inf` or NaN.
Finite values are elements of the ordered field `α` and finite arithmetic is exact (no
rounding), but a result beyond `FLT_MAX` becomes an infinity and the special values follow
the IEEE rules; signed zeros are not distinguished. -/
inductive float (α : Type) where
  | finite (x : α)
  | pos_inf
  | neg_inf
  | nan
deriving DecidableEq

section Arithmetic

variable {α : Type} [LinearOrderedField α]

/-- The constant `FLT_MAX` of `<float.h>`, `(2 - 2^-23) * 2^127`. -/
def FLT_MAX : α := 340282346638528859811704183484516925440

/-- The `float` holding an exactly computed value: an infinity beyond `FLT_MAX`. -/
def overflow (x : α) : float α :=
  if x > FLT_MAX then float.pos_inf
  else if x < -FLT_MAX then float.neg_inf
  else float.finite x

/-- Unary minus of `float`. -/
def float.neg : float α → float α
  | float.finite x => float.finite (-x)
  | float.pos_inf => float.neg_inf
  | float.neg_inf => float.pos_inf
  | float.nan => float.nan

/-- Addition of `float`: `inf + -inf` is NaN and NaN propagates. -/
def float.add : float α → float α → float α
  | float.nan, _ => float.nan
  | _, float.nan => float.nan
  | float.finite x, float.finite y => overflow (x + y)
  | float.finite _, float.pos_inf => float.pos_inf
  | float.finite _, float.neg_inf => float.neg_inf
  | float.pos_inf, float.finite _ => float.pos_inf
  | float.neg_inf, float.finite _ => float.neg_inf
  | float.pos_inf, float.pos_inf => float.pos_inf
  | float.neg_inf, float.neg_inf => float.neg_inf
  | float.pos_inf, float.neg_inf => float.nan
  | float.neg_inf, float.pos_inf => float.nan

/-- The infinity with the sign of `x`, NaN for `x = 0`: the product of `x` and `+inf`. -/
def signed_inf (x : α) : float α :=
  if x > 0 then float.pos_inf else if x < 0 then float.neg_inf else float.nan

/-- Multiplication of `float`: `0 * inf` is NaN and NaN propagates. -/
def float.mul : float α → float α → float α
  | float.nan, _ => float.nan
  | _, float.nan => float.nan
  | float.finite x, float.finite y => overflow (x * y)
  | float.finite x, float.pos_inf => signed_inf x
  | float.finite x, float.neg_inf => signed_inf (-x)
  | float.pos_inf, float.finite y => signed_inf y
  | float.neg_inf, float.finite y => signed_inf (-y)
  | float.pos_inf, float.pos_inf => float.pos_inf
  | float.neg_inf, float.neg_inf => float.pos_inf
  | float.pos_inf, float.neg_inf => float.neg_inf
  | float.neg_inf, float.pos_inf => float.neg_inf

/-- Division of `float`: `0 / 0` and `inf / inf` are NaN, a non-zero finite value divided by
zero is an infinity, a finite value divided by an infinity is zero. -/
def float.div : float α → float α → float α
  | float.nan, _ => float.nan
  | _, float.nan => float.nan
  | float.finite x, float.finite y => if y = 0 then signed_inf x else overflow (x / y)
  | float.finite _, float.pos_inf => float.finite 0
  | float.finite _, float.neg_inf => float.finite 0
  | float.pos_inf, float.finite y => if y < 0 then float.neg_inf else float.pos_inf
  | float.neg_inf, float.finite y => if y < 0 then float.pos_inf else float.neg_inf
  | float.pos_inf, float.pos_inf => float.nan
  | float.neg_inf, float.neg_inf => float.nan
  | float.pos_inf, float.neg_inf => float.nan
  | float.neg_inf, float.pos_inf => float.nan

/-- The comparison `a < b` of `float`: false whenever an operand is NaN. -/
def float.blt : float α → float α → Bool
  | float.nan, _ => false
  | _, float.nan => false
  | float.finite x, float.finite y => decide (x < y)
  | float.finite _, float.pos_inf => true
  | float.finite _, float.neg_inf => false
  | float.pos_inf, _ => false
  | float.neg_inf, float.finite _ => true
  | float.neg_inf, float.pos_inf => true
  | float.neg_inf, float.neg_inf => false

/-- The comparison `a <= b` of `float`: false whenever an operand is NaN. -/
def float.ble : float α → float α → Bool
  | float.nan, _ => false
  | _, float.nan => false
  | float.finite x, float.finite y => decide (x ≤ y)
  | float.finite _, float.pos_inf => true
  | float.finite _, float.neg_inf => false
  | float.pos_inf, float.pos_inf => true
  | float.pos_inf, float.finite _ => false
  | float.pos_inf, float.neg_inf => false
  | float.neg_inf, _ => true

/-- The C library function `fabsf`. -/
def fabsf : float α → float α
  | float.finite x => float.finite |x|
  | float.pos_inf => float.pos_inf
  | float.neg_inf => float.pos_inf
  | float.nan => float.nan

/-- The C library function `fminf`: when one argument is NaN the other is returned. -/
def fminf : float α → float α → float α
  | float.nan, b => b
  | a, float.nan => a
  | a, b => if float.blt a b then a else b

instance : Zero (float α) := ⟨float.finite 0⟩
instance : One (float α) := ⟨float.finite 1⟩
instance : Neg (float α) := ⟨float.neg⟩
instance : Add (float α) := ⟨float.add⟩
instance : Sub (float α) := ⟨fun a b => float.add a (float.neg b)⟩
instance : Mul (float α) := ⟨float.mul⟩
instance : Div (float α) := ⟨float.div⟩
instance : NatCast (float α) := ⟨fun n => overflow (n : α)⟩
instance : OfScientific (float α) :=
  ⟨fun m s e => overflow (OfScientific.ofScientific m s e : α)⟩
instance : LT (float α) := ⟨fun a b => float.blt a b = true⟩
instance : LE (float α) := ⟨fun a b => float.ble a b = true⟩
instance (a b : float α) : Decidable (a < b) :=
  inferInstanceAs (Decidable (float.blt a b = true))
instance (a b : float α) : Decidable (a ≤ b) :=
  inferInstanceAs (Decidable (float.ble a b = true))

end Arithmetic

section Cybernetics

variable {α : Type} [LinearOrderedField α]

/-- The libm functions on `float`, from their values on finite arguments: the special values
follow Annex F of the C standard (`tanhf(±inf) = ±1`, `expf(-inf) = 0`, `expf(+inf) = +inf`,
`cosf(±inf)` is NaN, `sqrtf` of a negative value or of `-inf` is NaN, NaN propagates), and a
finite result beyond `FLT_MAX` is an infinity. -/
def libm_ieee (m : libm α) : libm (float α) where
  expf := fun v =>
    match v with
    | float.finite x => overflow (m.expf x)
    | float.pos_inf => float.pos_inf
    | float.neg_inf => float.finite 0
    | float.nan => float.nan
  tanhf := fun v =>
    match v with
    | float.finite x => overflow (m.tanhf x)
    | float.pos_inf => float.finite 1
    | float.neg_inf => float.finite (-1)
    | float.nan => float.nan
  cosf := fun v =>
    match v with
    | float.finite x => overflow (m.cosf x)
    | float.pos_inf => float.nan
    | float.neg_inf => float.nan
    | float.nan => float.nan
  sqrtf := fun v =>
    match v with
    | float.finite x => if x < 0 then float.nan else overflow (m.sqrtf x)
    | float.pos_inf => float.pos_inf
    | float.neg_inf => float.nan
    | float.nan => float.nan
  M_PI := overflow m.M_PI

/-- The function `neural_tensor_create`: a zero-filled tensor of the given shape. -/
def neural_tensor_create (shape : List Nat) (n_dims : Nat) : Option (neural_tensor_t (float α)) :=
  let st := neural_tensor_create_loop shape n_dims
  some { data := List.replicate st.2 0, shape := st.1, n_dims := n_dims, total_size := st.2 }

/-- The function `spiral_create`. -/
def spiral_create : Option (spiral_state_t (float α)) :=
  some
    { current_phase := PHASE_ENTROPIC_DRIFT
      phase_completion := 0
      cycle_count := 0
      ascending := true }

/-- The function `spiral_advance`; the result is the state after the call. -/
def spiral_advance (spiral : Option (spiral_state_t (float α))) (progress : float α) :
    Option (spiral_state_t (float α)) :=
  match spiral with
  | none => none
  | some spiral =>
    let spiral : spiral_state_t (float α) :=
      { spiral with phase_completion := spiral.phase_completion + progress }
    if spiral.phase_completion ≥ 1 then
      let spiral : spiral_state_t (float α) := { spiral with phase_completion := 0 }
      if spiral.ascending then
        if spiral.current_phase < PHASE_AUTONOMY then
          some { spiral with current_phase := spiral.current_phase + 1 }
        else
          some { spiral with
            cycle_count := (spiral.cycle_count + 1) % SIZE_MOD
            current_phase := PHASE_ENTROPIC_DRIFT }
      else some spiral
    else some spiral

/-- The function `physical_plane_create`; `rng` is the stream of the values
`(float)rand() / RAND_MAX` still to come, and the second result is the stream after the
call. -/
def physical_plane_create (n_components : Nat) (rng : Nat → float α) :
    Option (physical_plane_t (float α)) × (Nat → float α) :=
  match neural_tensor_create (α := α) [n_components] 1,
      neural_tensor_create (α := α) [n_components] 1 with
  | some energy_state, some matter_structure =>
    let st := (List.range n_components).foldl
      (fun (st : List (float α) × List (float α) × (Nat → float α)) i =>
        (st.1.set i (st.2.2 0), st.2.1.set i 1, fun k => st.2.2 (k + 1)))
      (energy_state.data, matter_structure.data, rng)
    (some
      { energy_state := { energy_state with data := st.1 }
        matter_structure := { matter_structure with data := st.2.1 }
        entropy_level := 0.5
        n_components := n_components },
     st.2.2)
  | _, _ => (none, rng)

/-- The function `physical_plane_update`; the result is the plane after the call. -/
def physical_plane_update (m : libm (float α)) (plane : Option (physical_plane_t (float α)))
    (dt : float α) :
    Option (physical_plane_t (float α)) :=
  match plane with
  | none => none
  | some plane =>
    let total_energy : float α := (List.range plane.n_components).foldl
      (fun total_energy i => total_energy + plane.energy_state.data.getD i 0) 0
    let avg_energy : float α := total_energy / (plane.n_components : float α)
    let data : List (float α) := (List.range plane.n_components).foldl
      (fun d i =>
        let diff := avg_energy - d.getD i 0
        d.set i (d.getD i 0 + diff * dt * 0.1))
      plane.energy_state.data
    let variance : float α := (List.range plane.n_components).foldl
      (fun variance i =>
        let diff := data.getD i 0 - avg_energy
        variance + diff * diff)
      0
    some { plane with
      energy_state := { plane.energy_state with data := data }
      entropy_level := 0.5 + 0.5 * m.tanhf (variance / (plane.n_components : float α) - 1) }

/-- The function `information_plane_create`.  The condition
`i != j && (float)rand() / RAND_MAX > 0.7f` draws from the stream only when `i != j`, and
the value of the connection is a second draw. -/
def information_plane_create (n_relations : Nat) (rng : Nat → float α) :
    Option (information_plane_t (float α)) × (Nat → float α) :=
  match neural_tensor_create (α := α) [n_relations, n_relations] 2,
      neural_tensor_create (α := α) [n_relations] 1 with
  | some connectivity, some information_flow =>
    let st := (List.range n_relations).foldl
      (fun (st : List (float α) × List (float α) × (Nat → float α)) i =>
        let inner := (List.range n_relations).foldl
          (fun (st : List (float α) × (Nat → float α)) j =>
            let c : float α × (Nat → float α) :=
              if i ≠ j then
                if st.2 0 > 0.7 then (st.2 1, fun k => st.2 (k + 2))
                else (0, fun k => st.2 (k + 1))
              else (0, st.2)
            (st.1.set ((i * n_relations + j) % SIZE_MOD) c.1, c.2))
          (st.1, st.2.2)
        (inner.1, st.2.1.set i 0.5, inner.2))
      (connectivity.data, information_flow.data, rng)
    (some
      { connectivity := { connectivity with data := st.1 }
        information_flow := { information_flow with data := st.2.1 }
        complexity := (n_relations : float α)
        n_relations := n_relations },
     st.2.2)
  | _, _ => (none, rng)

/-- The function `information_plane_update`; the result is the plane after the call. -/
def information_plane_update (plane : Option (information_plane_t (float α))) (dt : float α) :
    Option (information_plane_t (float α)) :=
  match plane with
  | none => none
  | some plane =>
    let new_flow : List (float α) := (List.range plane.n_relations).foldl
      (fun new_flow i =>
        let incoming : float α := (List.range plane.n_relations).foldl
          (fun incoming j =>
            incoming +
              plane.connectivity.data.getD ((j * plane.n_relations + i) % SIZE_MOD) 0 *
                plane.information_flow.data.getD j 0)
          0
        new_flow.set i (plane.information_flow.data.getD i 0 * (1 - dt) + incoming * dt))
      (List.replicate plane.n_relations 0)
    let flow : List (float α) := (List.range plane.n_relations).foldl
      (fun d i =>
        let d := d.set i (new_flow.getD i 0)
        let d := if d.getD i 0 > 1 then d.set i 1 else d
        if d.getD i 0 < 0 then d.set i 0 else d)
      plane.information_flow.data
    let sum_connections : float α :=
      (List.range ((plane.n_relations * plane.n_relations) % SIZE_MOD)).foldl
        (fun sum_connections i => sum_connections + fabsf (plane.connectivity.data.getD i 0)) 0
    some { plane with
      information_flow := { plane.information_flow with data := flow }
      complexity := sum_connections / (plane.n_relations : float α) }

/-- The function `existential_plane_create`. -/
def existential_plane_create (model_size : Nat) (rng : Nat → float α) :
    Option (existential_plane_t (float α)) × (Nat → float α) :=
  match neural_tensor_create (α := α) [model_size] 1,
      neural_tensor_create (α := α) [model_size] 1,
      neural_tensor_create (α := α) [model_size] 1,
      neural_tensor_create (α := α) [model_size] 1 with
  | some self_model, some identity_state, some local_image, some global_image =>
    let st := (List.range model_size).foldl
      (fun (st : (List (float α) × List (float α) × List (float α) × List (float α)) ×
          (Nat → float α)) i =>
        ((st.1.1.set i (st.2 0 * 0.1), st.1.2.1.set i 0, st.1.2.2.1.set i 0,
            st.1.2.2.2.set i 0),
          fun k => st.2 (k + 1)))
      ((self_model.data, identity_state.data, local_image.data, global_image.data), rng)
    (some
      { self_model := { self_model with data := st.1.1 }
        identity_state := { identity_state with data := st.1.2.1 }
        autonomy_level := 0
        self_aware := false
        local_image := { local_image with data := st.1.2.2.1 }
        global_image := { global_image with data := st.1.2.2.2 }
        self_reference_degree := 0
        image_convergence := 0
        operational_closure := false },
     st.2)
  | _, _, _, _ => (none, rng)

/-- The function `existential_plane_update`; the result is the plane after the call. -/
def existential_plane_update (m : libm (float α))
    (plane : Option (existential_plane_t (float α))) (dt : float α) :
    Option (existential_plane_t (float α)) :=
  match plane with
  | none => none
  | some plane =>
    let model_size := plane.self_model.total_size
    let local_image : List (float α) := (List.range model_size).foldl
      (fun d i =>
        let local_perception : float α := (List.range model_size).foldl
          (fun local_perception j =>
            let distance : float α :=
              fabsf (((i : Nat) : float α) - ((j : Nat) : float α)) / (model_size : float α)
            let weight : float α := m.expf (-distance * distance * 2)
            local_perception + plane.identity_state.data.getD j 0 * weight)
          0
        d.set i (m.tanhf (local_perception / m.sqrtf (model_size : float α))))
      plane.local_image.data
    let global_image : List (float α) := (List.range model_size).foldl
      (fun d i =>
        let global_field : float α := (List.range model_size).foldl
          (fun global_field j =>
            let phase : float α :=
              2 * m.M_PI * ((size_sub i j : Nat) : float α) / (model_size : float α)
            global_field + plane.self_model.data.getD j 0 * m.cosf phase)
          0
        d.set i (m.tanhf (global_field / (model_size : float α))))
      plane.global_image.data
    let convergence_sum : float α := (List.range model_size).foldl
      (fun convergence_sum i =>
        let diff : float α := local_image.getD i 0 - global_image.getD i 0
        convergence_sum + m.expf (-diff * diff))
      0
    let image_convergence : float α := convergence_sum / (model_size : float α)
    let self_reference_degree : float α := image_convergence
    let operational_closure : Bool := decide (self_reference_degree > 0.7)
    let self_model : List (float α) := (List.range model_size).foldl
      (fun d i =>
        let update : float α := local_image.getD i 0 - d.getD i 0
        d.set i (d.getD i 0 + update * dt * 0.2))
      plane.self_model.data
    let identity_state : List (float α) := (List.range model_size).foldl
      (fun d i =>
        let emergence : float α := global_image.getD i 0
        let coherence : float α := (List.range model_size).foldl
          (fun coherence j =>
            coherence +
              self_model.getD j 0 *
                m.cosf (2 * m.M_PI * ((size_sub i j : Nat) : float α) / (model_size : float α)))
          0
        d.set i (0.6 * emergence + 0.4 * m.tanhf (coherence / (model_size : float α))))
      plane.identity_state.data
    let identity_strength : float α := (List.range model_size).foldl
      (fun identity_strength i => identity_strength + fabsf (identity_state.getD i 0)) 0
    let autonomy_level : float α := m.tanhf (identity_strength / (model_size : float α))
    let autonomy_level : float α :=
      if operational_closure then fminf 1 (autonomy_level * 1.2) else autonomy_level
    some
      { self_model := { plane.self_model with data := self_model }
        identity_state := { plane.identity_state with data := identity_state }
        autonomy_level := autonomy_level
        self_aware := decide (autonomy_level > 0.6) && decide (self_reference_degree > 0.5)
        local_image := { plane.local_image with data := local_image }
        global_image := { plane.global_image with data := global_image }
        self_reference_degree := self_reference_degree
        image_convergence := image_convergence
        operational_closure := operational_closure }

/-- The function `cycle_create`. -/
def cycle_create (type : cycle_type_t) (state_size : Nat) (rng : Nat → float α) :
    Option (cycle_state_t (float α)) × (Nat → float α) :=
  match neural_tensor_create (α := α) [state_size] 1 with
  | none => (none, rng)
  | some state =>
    let st := (List.range state_size).foldl
      (fun (st : List (float α) × (Nat → float α)) i =>
        (st.1.set i (st.2 0 * 0.5), fun k => st.2 (k + 1)))
      (state.data, rng)
    (some
      { type := type
        activity_level := 0.5
        stability := 0.5
        is_active := true
        state := { state with data := st.1 } },
     st.2)

/-- The function `cycle_update`; the result is the cycle after the call and the stream
of random values after it. -/
def cycle_update (m : libm (float α)) (cycle : Option (cycle_state_t (float α))) (dt : float α)
    (rng : Nat → float α) :
    Option (cycle_state_t (float α)) × (Nat → float α) :=
  match cycle with
  | none => (none, rng)
  | some cycle =>
    if !cycle.is_active then (some cycle, rng)
    else
      let state_size := cycle.state.total_size
      if cycle_is_stabilizing cycle.type then
        let mean : float α := (List.range state_size).foldl
          (fun mean i => mean + cycle.state.data.getD i 0) 0
        let mean : float α := mean / (state_size : float α)
        let data : List (float α) := (List.range state_size).foldl
          (fun d i =>
            let deviation : float α := d.getD i 0 - mean
            d.set i (d.getD i 0 - deviation * dt * 0.2))
          cycle.state.data
        (some { cycle with
          state := { cycle.state with data := data }
          stability := 1 - fabsf (mean - 0.5) },
         rng)
      else
        let st := (List.range state_size).foldl
          (fun (st : List (float α) × (Nat → float α)) i =>
            let noise : float α := (st.2 0 - 0.5) * 0.1
            let d := st.1.set i (st.1.getD i 0 + noise * dt)
            let d := if d.getD i 0 > 1 then d.set i 1 else d
            let d := if d.getD i 0 < 0 then d.set i 0 else d
            (d, fun k => st.2 (k + 1)))
          (cycle.state.data, rng)
        let mean : float α := 0.5
        let variance : float α := (List.range state_size).foldl
          (fun variance i =>
            let diff : float α := st.1.getD i 0 - mean
            variance + diff * diff)
          0
        (some { cycle with
          state := { cycle.state with data := st.1 }
          activity_level := m.tanhf (variance / (state_size : float α)) },
         st.2)

/-- The function `cybernetic_system_create`. -/
def cybernetic_system_create (n_nodes system_size : Nat) (rng : Nat → float α) :
    Option (cybernetic_system_t (float α)) × (Nat → float α) :=
  let p := physical_plane_create n_nodes rng
  let i := information_plane_create n_nodes p.2
  let e := existential_plane_create system_size i.2
  match p.1, i.1, e.1 with
  | some physical, some information, some existential =>
    let cs := (List.range 6).foldl
      (fun (st : Option (List (cycle_state_t (float α))) × (Nat → float α)) i =>
        match st.1 with
        | none => st
        | some cycles =>
          let c := cycle_create (((i : Nat) : Int) + 1) system_size st.2
          match c.1 with
          | none => (none, c.2)
          | some cycle => (some (cycles ++ [cycle]), c.2))
      (some [], e.2)
    match cs.1, spiral_create (α := α) with
    | some cycles, some spiral =>
      (some
        { physical := physical
          information := information
          existential := existential
          cycles := cycles
          spiral := spiral
          viability := 0.5
          complexity_level := 1
          is_self_organizing := false
          timestep := 0
          evolution_rate := 1 },
       cs.2)
    | _, _ => (none, cs.2)
  | _, _, _ => (none, e.2)

/-- The function `cybernetic_system_calculate_viability`. -/
def cybernetic_system_calculate_viability (m : libm (float α))
    (system : Option (cybernetic_system_t (float α))) : float α :=
  match system with
  | none => 0
  | some system =>
    let physical_score : float α := 1 - system.physical.entropy_level
    let info_score : float α := m.tanhf (system.information.complexity / 5)
    let existential_score : float α := system.existential.autonomy_level
    let activity := (List.range 6).foldl
      (fun (st : float α × float α) i =>
        match system.cycles[i]? with
        | none => st
        | some cycle =>
          if cycle_is_stabilizing cycle.type then (st.1 + cycle.activity_level, st.2)
          else (st.1, st.2 + cycle.activity_level))
      (0, 0)
    let cycle_balance : float α := m.tanhf (fabsf (activity.1 - activity.2))
    let cycle_score : float α := 1 - cycle_balance
    physical_score * 0.2 + info_score * 0.3 + existential_score * 0.3 + cycle_score * 0.2

/-- The function `cybernetic_system_step`; the result is the system after the call and
the stream of random values after it. -/
def cybernetic_system_step (m : libm (float α))
    (system : Option (cybernetic_system_t (float α))) (dt : float α)
    (rng : Nat → float α) : Option (cybernetic_system_t (float α)) × (Nat → float α) :=
  match system with
  | none => (none, rng)
  | some system =>
    let dt : float α := dt * system.evolution_rate
    let physical := (physical_plane_update m (some system.physical) dt).getD system.physical
    let information :=
      (information_plane_update (some system.information) dt).getD system.information
    let existential :=
      (existential_plane_update m (some system.existential) dt).getD system.existential
    let cs := (List.range 6).foldl
      (fun (st : List (cycle_state_t (float α)) × (Nat → float α)) i =>
        let r := cycle_update m st.1[i]? dt st.2
        match r.1 with
        | none => (st.1, r.2)
        | some cycle => (st.1.set i cycle, r.2))
      (system.cycles, rng)
    let spiral_progress : float α := dt * (system.viability + 0.1)
    let spiral := (spiral_advance (some system.spiral) spiral_progress).getD system.spiral
    let system : cybernetic_system_t (float α) :=
      { system with
        physical := physical
        information := information
        existential := existential
        cycles := cs.1
        spiral := spiral }
    let system : cybernetic_system_t (float α) :=
      { system with viability := cybernetic_system_calculate_viability m (some system) }
    let system : cybernetic_system_t (float α) :=
      { system with
        is_self_organizing :=
          decide (system.viability > 0.6) && decide (system.existential.autonomy_level > 0.5) }
    let system : cybernetic_system_t (float α) :=
      { system with
        complexity_level :=
          (system.physical.entropy_level + system.information.complexity / 10 +
            system.existential.autonomy_level) / 3 }
    (some { system with timestep := (system.timestep + 1) % SIZE_MOD }, cs.2)

/-- The function `cybernetic_system_is_viable`. -/
def cybernetic_system_is_viable (system : Option (cybernetic_system_t (float α))) : Bool :=
  match system with
  | none => false
  | some system => decide (system.viability > 0.4)

/-- The function `cybernetic_system_self_organize`; the result is the system after the
call. -/
def cybernetic_system_self_organize (system : Option (cybernetic_system_t (float α))) :
    Option (cybernetic_system_t (float α)) :=
  match system with
  | none => none
  | some system =>
    let cycles : List (cycle_state_t (float α)) :=
      match system.cycles[1]? with
      | none => system.cycles
      | some cycle => system.cycles.set 1 { cycle with activity_level := 1, is_active := true }
    let cycles : List (cycle_state_t (float α)) :=
      match cycles[3]? with
      | none => cycles
      | some cycle => cycles.set 3 { cycle with activity_level := 1, is_active := true }
    some { system with cycles := cycles, is_self_organizing := true }

/-- The function `cybernetic_system_intervene`; the result is the system after the
call. -/
def cybernetic_system_intervene (system : Option (cybernetic_system_t (float α)))
    (point : leverage_point_t) (magnitude : float α) : Option (cybernetic_system_t (float α)) :=
  match system with
  | none => none
  | some system =>
    if point ≥ LEVERAGE_CONSTANTS ∧ point ≤ LEVERAGE_FLOWS then
      some { system with
        physical := { system.physical with
          energy_state := { system.physical.energy_state with
            data := (List.range system.physical.n_components).foldl
              (fun d i => d.set i (d.getD i 0 + magnitude * 0.1))
              system.physical.energy_state.data } } }
    else if point ≥ LEVERAGE_NEGATIVE_FEEDBACK ∧ point ≤ LEVERAGE_RULES then
      some { system with
        information := { system.information with
          information_flow := { system.information.information_flow with
            data := (List.range system.information.n_relations).foldl
              (fun d i => d.set i (d.getD i 0 + magnitude * 0.2))
              system.information.information_flow.data } } }
    else
      let system : cybernetic_system_t (float α) :=
        { system with
          existential := { system.existential with
            identity_state := { system.existential.identity_state with
              data := (List.range system.existential.identity_state.total_size).foldl
                (fun d i => d.set i (d.getD i 0 + magnitude * 0.5))
                system.existential.identity_state.data } } }
      if point ≥ LEVERAGE_PARADIGMS then some { system with is_self_organizing := true }
      else some system

/-- The state after one call of the public interface. -/
def system_call_apply (m : libm (float α))
    (st : Option (cybernetic_system_t (float α)) × (Nat → float α)) :
    system_call (float α) → Option (cybernetic_system_t (float α)) × (Nat → float α)
  | .step dt => cybernetic_system_step m st.1 dt st.2
  | .intervene point magnitude => (cybernetic_system_intervene st.1 point magnitude, st.2)
  | .self_organize => (cybernetic_system_self_organize st.1, st.2)

/-- The state after a sequence of calls of the public interface, in order. -/
def system_run (m : libm (float α)) (st : Option (cybernetic_system_t (float α)) × (Nat → float α))
    (calls : List (system_call (float α))) :
    Option (cybernetic_system_t (float α)) × (Nat → float α) :=
  calls.foldl (system_call_apply m) st

/-- The state of a spiral after a sequence of `spiral_advance` calls with the given
progress values, in order. -/
def spiral_run (spiral : Option (spiral_state_t (float α))) (progress : List (float α)) :
    Option (spiral_state_t (float α)) :=
  progress.foldl spiral_advance spiral

/-- A finite existential plane of model size 2 with `self_model = [10, 10]` and all other
vectors zero; updating it with `dt = 3e38` overflows. -/
def existential_plane_overflow : existential_plane_t (float α) where
  self_model := { data := [10, 10], shape := [2], n_dims := 1, total_size := 2 }
  identity_state := { data := [0, 0], shape := [2], n_dims := 1, total_size := 2 }
  autonomy_level := 0
  self_aware := false
  local_image := { data := [0, 0], shape := [2], n_dims := 1, total_size := 2 }
  global_image := { data := [0, 0], shape := [2], n_dims := 1, total_size := 2 }
  self_reference_degree := 0
  image_convergence := 0
  operational_closure := false

end Cybernetics

end IEEE

/-! ## Loops that write a buffer -/

section Loops

variable {α : Type} [Zero α]

theorem getD_set_self (d : List α) (q : Nat) (a : α) (h : q < d.length) :
    (d.set q a).getD q 0 = a := by
  simp [List.getD_eq_getElem?_getD, List.getElem?_set, h]

theorem getD_set_ne (d : List α) (p q : Nat) (a : α) (h : p ≠ q) :
    (d.set p a).getD q 0 = d.getD q 0 := by
  simp [List.getD_eq_getElem?_getD, List.getElem?_set, h]

theorem set_loop_succ (p : Nat → Nat) (g : Nat → List α → α) (n : Nat) (d : List α) :
    (List.range (n + 1)).foldl (fun d j => d.set (p j) (g j d)) d =
      ((List.range n).foldl (fun d j => d.set (p j) (g j d)) d).set (p n)
        (g n ((List.range n).foldl (fun d j => d.set (p j) (g j d)) d)) := by
  rw [List.range_succ, List.foldl_append]; rfl

theorem set_loop_length (p : Nat → Nat) (g : Nat → List α → α) (n : Nat) (d : List α) :
    ((List.range n).foldl (fun d j => d.set (p j) (g j d)) d).length = d.length := by
  induction n with
  | zero => rfl
  | succ n ih => rw [set_loop_succ, List.length_set, ih]

theorem set_loop_getD_of_ne (p : Nat → Nat) (g : Nat → List α → α) (n : Nat) (d : List α)
    (q : Nat) (h : ∀ j, j < n → p j ≠ q) :
    ((List.range n).foldl (fun d j => d.set (p j) (g j d)) d).getD q 0 = d.getD q 0 := by
  induction n with
  | zero => rfl
  | succ n ih =>
    rw [set_loop_succ, getD_set_ne _ _ _ _ (h n (Nat.lt_succ_self n))]
    exact ih (fun j hj => h j (Nat.lt_succ_of_lt hj))

theorem set_loop_getD (p : Nat → Nat) (v : Nat → α) (n : Nat) (d : List α) (j0 : Nat)
    (hj0 : j0 < n) (hlen : p j0 < d.length) (hinj : ∀ j, j < n → j ≠ j0 → p j ≠ p j0) :
    ((List.range n).foldl (fun d j => d.set (p j) (v j)) d).getD (p j0) 0 = v j0 := by
  induction n with
  | zero => exact absurd hj0 (Nat.not_lt_zero _)
  | succ n ih =>
    rw [set_loop_succ p (fun j _ => v j)]
    rcases Nat.lt_succ_iff_lt_or_eq.mp hj0 with hlt | heq
    · rw [getD_set_ne _ _ _ _ (hinj n (Nat.lt_succ_self n) (Nat.ne_of_gt hlt))]
      exact ih hlt (fun j hj => hinj j (Nat.lt_succ_of_lt hj))
    · subst heq
      exact getD_set_self _ _ _ (by rw [set_loop_length p (fun j _ => v j)]; exact hlen)

theorem map_loop_getD (h : Nat → α → α) (n : Nat) (d : List α) (q : Nat)
    (hq : q < n) (hlen : q < d.length) :
    ((List.range n).foldl (fun d i => d.set i (h i (d.getD i 0))) d).getD q 0 =
      h q (d.getD q 0) := by
  induction n with
  | zero => exact absurd hq (Nat.not_lt_zero _)
  | succ n ih =>
    rw [set_loop_succ (fun j => j) (fun i d => h i (d.getD i 0))]
    rcases Nat.lt_succ_iff_lt_or_eq.mp hq with hlt | heq
    · rw [getD_set_ne _ _ _ _ (Nat.ne_of_gt hlt)]
      exact ih hlt
    · subst heq
      rw [getD_set_self _ _ _ (by rw [set_loop_length (fun j => j)]; exact hlen)]
      rw [set_loop_getD_of_ne (fun j => j) _ _ _ _ (fun j hj => Nat.ne_of_lt hj)]

theorem eq_map_range (l : List α) (f : Nat → α) (n : Nat) (hl : l.length = n)
    (h : ∀ i, i < n → l.getD i 0 = f i) : l = (List.range n).map f := by
  apply List.ext_getElem
  · simp [hl]
  · intro i h1 h2
    have := h i (hl ▸ h1)
    simp [List.getD_eq_getElem?_getD, List.getElem?_eq_getElem h1] at this
    simp [this]

end Loops

section LoopSums

variable {α : Type} [LinearOrderedField α]

theorem sum_map_range (f : Nat → α) (n : Nat) :
    ((List.range n).map f).sum = ∑ i in Finset.range n, f i := by
  induction n with
  | zero => simp
  | succ n ih => rw [List.sum_range_succ, Finset.sum_range_succ, ih]

theorem foldl_add_range (f : Nat → α) (n : Nat) :
    (List.range n).foldl (fun sum l => sum + f l) 0 = ∑ l in Finset.range n, f l := by
  induction n with
  | zero => simp
  | succ n ih => rw [List.range_succ, List.foldl_append, ih, Finset.sum_range_succ]; rfl

end LoopSums

section TensorLemmas

variable {α : Type} [LinearOrderedField α]

/-! ### `neural_tensor_create` -/

theorem create_loop_eq (shape : List Nat) (n : Nat) (hn : n ≤ shape.length) :
    neural_tensor_create_loop shape n = (shape.take n, (shape.take n).prod % SIZE_MOD) := by
  induction n with
  | zero => simp [neural_tensor_create_loop, SIZE_MOD]
  | succ n ih =>
    have hlt : n < shape.length := hn
    have ih := ih (Nat.le_of_lt hlt)
    unfold neural_tensor_create_loop at ih ⊢
    rw [List.range_succ, List.foldl_append, ih]
    simp only [List.foldl_cons, List.foldl_nil]
    have hget : shape.getD n 0 = shape[n] := by
      simp [List.getD_eq_getElem?_getD, List.getElem?_eq_getElem hlt]
    have htake : shape.take (n + 1) = shape.take n ++ [shape[n]] := by
      rw [List.take_succ, List.getElem?_eq_getElem hlt]; rfl
    rw [hget, htake, List.prod_append]
    simp [Nat.mod_mul_mod]

theorem create_eq (shape : List Nat) (h : shape.prod < SIZE_MOD) :
    neural_tensor_create (α := α) shape shape.length =
      some ⟨List.replicate shape.prod 0, shape, shape.length, shape.prod⟩ := by
  unfold neural_tensor_create
  rw [create_loop_eq shape shape.length (Nat.le_refl _)]
  simp [Nat.mod_eq_of_lt h]

theorem create_wellFormed (shape : List Nat) (h : shape.prod < SIZE_MOD) :
    ∃ t : neural_tensor_t α, neural_tensor_create shape shape.length = some t ∧ WellFormed t :=
  ⟨_, create_eq shape h, rfl, rfl, h, by simp⟩

/-! ### `neural_matmul` -/

theorem matmul_sum_eq (A B : neural_tensor_t α) (m k n i j : Nat) (hi : i < m) (hj : j < n)
    (hA : m * k < SIZE_MOD) (hB : k * n < SIZE_MOD) :
    neural_matmul_sum A B k n i j =
      ∑ l in Finset.range k, A.data.getD (i * k + l) 0 * B.data.getD (l * n + j) 0 := by
  unfold neural_matmul_sum
  rw [← foldl_add_range]
  apply List.foldl_ext
  intro s l hl
  have hl : l < k := List.mem_range.mp hl
  have h1 : i * k + l < SIZE_MOD := by
    have : i * k + l < m * k := by nlinarith
    omega
  have h2 : l * n + j < SIZE_MOD := by
    have : l * n + j < k * n := by nlinarith
    omega
  rw [Nat.mod_eq_of_lt h1, Nat.mod_eq_of_lt h2]

theorem matmul_loop_length (A B : neural_tensor_t α) (m n k : Nat) (d : List α) :
    (neural_matmul_loop A B m n k d).length = d.length := by
  unfold neural_matmul_loop
  induction m with
  | zero => rfl
  | succ m ih =>
    rw [List.range_succ, List.foldl_append]
    simp only [List.foldl_cons, List.foldl_nil]
    rw [set_loop_length (fun j => (m * n + j) % SIZE_MOD) (fun j _ => neural_matmul_sum A B k n m j), ih]

theorem matmul_loop_getD (A B : neural_tensor_t α) (m n k : Nat) (d : List α)
    (hmn : m * n < SIZE_MOD) (hlen : m * n ≤ d.length) (i j : Nat) (hi : i < m) (hj : j < n) :
    (neural_matmul_loop A B m n k d).getD (i * n + j) 0 = neural_matmul_sum A B k n i j := by
  unfold neural_matmul_loop
  induction m with
  | zero => exact absurd hi (Nat.not_lt_zero _)
  | succ m ih =>
    rw [List.range_succ, List.foldl_append]
    simp only [List.foldl_cons, List.foldl_nil]
    have hrow : ∀ j', j' < n → (m * n + j') % SIZE_MOD = m * n + j' := by
      intro j' hj'
      apply Nat.mod_eq_of_lt
      have : m * n + j' < (m + 1) * n := by nlinarith
      omega
    have hm : m * n ≤ (m + 1) * n := Nat.mul_le_mul_right n (Nat.le_succ m)
    rcases Nat.lt_succ_iff_lt_or_eq.mp hi with hlt | heq
    · rw [set_loop_getD_of_ne (fun j => (m * n + j) % SIZE_MOD)
        (fun j _ => neural_matmul_sum A B k n m j)]
      · exact ih (by omega) (by omega) hlt
      · intro j' hj'
        show (m * n + j') % SIZE_MOD ≠ i * n + j
        rw [hrow j' hj']
        have : i * n + j < m * n := by nlinarith
        omega
    · subst heq
      have := set_loop_getD (fun j => (i * n + j) % SIZE_MOD)
        (fun j => neural_matmul_sum A B k n i j) n
        ((List.range i).foldl (fun d i => (List.range n).foldl
          (fun d j => d.set ((i * n + j) % SIZE_MOD) (neural_matmul_sum A B k n i j)) d) d)
        j hj ?_ ?_
      · simp only [hrow j hj] at this
        exact this
      · show (i * n + j) % SIZE_MOD < _
        rw [hrow j hj]
        have h1 := matmul_loop_length A B i n k d
        unfold neural_matmul_loop at h1
        rw [h1]
        have : i * n + j < (i + 1) * n := by nlinarith
        omega
      · intro j' hj' hne
        show (i * n + j') % SIZE_MOD ≠ (i * n + j) % SIZE_MOD
        rw [hrow j' hj', hrow j hj]
        omega

end TensorLemmas

section Matmul

variable {α : Type} [LinearOrderedField α]

/-- Claim C2. For present `A` and `B`, `neural_matmul` is absent exactly when `A` is not 2-D, or
`B` is not 2-D, or `A.shape[1] ≠ B.shape[0]`. -/
theorem neural_matmul_none_iff (A B : neural_tensor_t α) :
    neural_matmul (some A) (some B) = none ↔
      (A.n_dims ≠ 2 ∨ B.n_dims ≠ 2 ∨ A.shape.getD 1 0 ≠ B.shape.getD 0 0) := by
  unfold neural_matmul neural_tensor_create
  by_cases h1 : A.n_dims = 2 <;> by_cases h2 : B.n_dims = 2 <;>
    by_cases h3 : A.shape.getD 1 0 = B.shape.getD 0 0 <;> simp [h1, h2, h3]

end Matmul

section Elementwise

variable {α : Type} [LinearOrderedField α]

/-! ### Elementwise loops -/

theorem elementwise_loop_length (f : Nat → α) (n : Nat) (d : List α) :
    ((List.range n).foldl (fun d i => d.set i (f i)) d).length = d.length :=
  set_loop_length (fun i => i) (fun i _ => f i) n d

theorem elementwise_loop_getD (f : Nat → α) (n : Nat) (d : List α) (i : Nat) (hi : i < n)
    (hlen : i < d.length) :
    ((List.range n).foldl (fun d i => d.set i (f i)) d).getD i 0 = f i :=
  set_loop_getD (fun i => i) f n d i hi hlen (fun _ _ h => h)

theorem create_of_wellFormed (x : neural_tensor_t α) (h : WellFormed x) :
    neural_tensor_create (α := α) x.shape x.n_dims =
      some ⟨List.replicate x.total_size 0, x.shape, x.n_dims, x.total_size⟩ := by
  obtain ⟨h1, h2, h3, -⟩ := h
  rw [h1, h2]
  exact create_eq x.shape h3

theorem neural_relu_eq (x : neural_tensor_t α) (h : WellFormed x) :
    neural_relu (some x) =
      some ⟨(List.range x.total_size).foldl
          (fun d i => d.set i (if x.data.getD i 0 > 0 then x.data.getD i 0 else 0))
          (List.replicate x.total_size 0),
        x.shape, x.n_dims, x.total_size⟩ := by
  unfold neural_relu
  simp [create_of_wellFormed x h]

theorem neural_add_eq (A B : neural_tensor_t α) (h : WellFormed A)
    (hs : A.total_size = B.total_size) :
    neural_add (some A) (some B) =
      some ⟨(List.range A.total_size).foldl
          (fun d i => d.set i (A.data.getD i 0 + B.data.getD i 0))
          (List.replicate A.total_size 0),
        A.shape, A.n_dims, A.total_size⟩ := by
  unfold neural_add
  simp [create_of_wellFormed A h, hs]

theorem neural_mul_eq (A B : neural_tensor_t α) (h : WellFormed A)
    (hs : A.total_size = B.total_size) :
    neural_mul (some A) (some B) =
      some ⟨(List.range A.total_size).foldl
          (fun d i => d.set i (A.data.getD i 0 * B.data.getD i 0))
          (List.replicate A.total_size 0),
        A.shape, A.n_dims, A.total_size⟩ := by
  unfold neural_mul
  simp [create_of_wellFormed A h, hs]

/-- Claim C5. `neural_relu` of a well-formed tensor `x` has the shape of `x`, and its element at
every flat index `i` is `max(x[i], 0)`; `[-2,-1,0,1,2]` gives `[0,0,0,1,2]`. -/
theorem neural_relu_spec :
    (∀ x : neural_tensor_t α, WellFormed x →
      ∃ r : neural_tensor_t α, neural_relu (some x) = some r ∧
        r.shape = x.shape ∧ r.n_dims = x.n_dims ∧ r.total_size = x.total_size ∧
        r.data.length = x.total_size ∧
        ∀ i, i < x.total_size → r.data.getD i 0 = max (x.data.getD i 0) 0) ∧
    neural_relu (α := α)
        (some { data := [-2, -1, 0, 1, 2], shape := [5], n_dims := 1, total_size := 5 }) =
      some { data := [0, 0, 0, 1, 2], shape := [5], n_dims := 1, total_size := 5 } := by
  constructor
  · intro x hx
    refine ⟨_, neural_relu_eq x hx, rfl, rfl, rfl, ?_, ?_⟩
    · rw [elementwise_loop_length, List.length_replicate]
    · intro i hi
      rw [elementwise_loop_getD _ _ _ i hi (by rw [List.length_replicate]; exact hi)]
      by_cases h : x.data.getD i 0 > 0
      · rw [if_pos h, max_eq_left (le_of_lt h)]
      · rw [if_neg h, max_eq_right (not_lt.mp h)]
  · simp [neural_relu, neural_tensor_create, neural_tensor_create_loop, SIZE_MOD, List.range_succ]

/-- Claim C6. For present `A` and `B`, `neural_add` and `neural_mul` are absent exactly when
`A.total_size ≠ B.total_size`; when the sizes agree (whatever the shapes) and `A` is
well-formed, the result has the shape of `A` and its element `i` is `A[i] + B[i]`
(resp. `A[i] * B[i]`); a `[2,3]` tensor plus a `[6]` tensor is a `[2,3]` tensor. -/
theorem neural_add_mul_spec :
    (∀ A B : neural_tensor_t α,
      (neural_add (some A) (some B) = none ↔ A.total_size ≠ B.total_size) ∧
      (neural_mul (some A) (some B) = none ↔ A.total_size ≠ B.total_size)) ∧
    (∀ A B : neural_tensor_t α, WellFormed A → A.total_size = B.total_size →
      ∃ r s : neural_tensor_t α,
        neural_add (some A) (some B) = some r ∧ neural_mul (some A) (some B) = some s ∧
        r.shape = A.shape ∧ r.n_dims = A.n_dims ∧ r.total_size = A.total_size ∧
        r.data.length = A.total_size ∧
        s.shape = A.shape ∧ s.n_dims = A.n_dims ∧ s.total_size = A.total_size ∧
        s.data.length = A.total_size ∧
        ∀ i, i < A.total_size →
          r.data.getD i 0 = A.data.getD i 0 + B.data.getD i 0 ∧
          s.data.getD i 0 = A.data.getD i 0 * B.data.getD i 0) ∧
    neural_add (α := α)
        (some { data := [1, 2, 3, 4, 5, 6], shape := [2, 3], n_dims := 2, total_size := 6 })
        (some { data := [10, 20, 30, 40, 50, 60], shape := [6], n_dims := 1, total_size := 6 }) =
      some { data := [11, 22, 33, 44, 55, 66], shape := [2, 3], n_dims := 2, total_size := 6 } ∧
    neural_mul (α := α)
        (some { data := [1, 2, 3, 4, 5, 6], shape := [2, 3], n_dims := 2, total_size := 6 })
        (some { data := [10, 20, 30, 40, 50, 60], shape := [6], n_dims := 1, total_size := 6 }) =
      some { data := [10, 40, 90, 160, 250, 360], shape := [2, 3], n_dims := 2, total_size := 6 } := by
  refine ⟨?_, ?_, ?_, ?_⟩
  · intro A B
    unfold neural_add neural_mul neural_tensor_create
    by_cases h : A.total_size = B.total_size <;> simp [h]
  · intro A B hA hs
    refine ⟨_, _, neural_add_eq A B hA hs, neural_mul_eq A B hA hs, rfl, rfl, rfl, ?_, rfl, rfl,
      rfl, ?_, ?_⟩
    · rw [elementwise_loop_length, List.length_replicate]
    · rw [elementwise_loop_length, List.length_replicate]
    · intro i hi
      constructor
      · rw [elementwise_loop_getD _ _ _ i hi (by rw [List.length_replicate]; exact hi)]
      · rw [elementwise_loop_getD _ _ _ i hi (by rw [List.length_replicate]; exact hi)]
  · simp [neural_add, neural_tensor_create, neural_tensor_create_loop, SIZE_MOD, List.range_succ]
    norm_num
  · simp [neural_mul, neural_tensor_create, neural_tensor_create_loop, SIZE_MOD, List.range_succ]
    norm_num

end Elementwise

section Softmax

variable {α : Type} [LinearOrderedField α]

/-! ### `neural_softmax` -/

theorem softmax_exp_loop (e : Nat → α) (m : Nat) (d : List α) (hm : m ≤ d.length) :
    (List.range m).foldl
        (fun (st : List α × α) i =>
          let d := st.1.set i (e i)
          (d, st.2 + d.getD i 0))
        (d, 0) =
      ((List.range m).foldl (fun d i => d.set i (e i)) d, ∑ i in Finset.range m, e i) := by
  induction m with
  | zero => simp
  | succ m ih =>
    rw [List.range_succ, List.foldl_append, ih (Nat.le_of_succ_le hm), List.foldl_append,
      Finset.sum_range_succ]
    simp only [List.foldl_cons, List.foldl_nil]
    rw [getD_set_self _ _ _ (by rw [elementwise_loop_length]; exact hm)]

theorem neural_softmax_eq (expf : α → α) (x : neural_tensor_t α) (hx : WellFormed x) :
    neural_softmax expf (some x) =
      some ⟨(List.range x.total_size).map (fun i =>
          expf (x.data.getD i 0 - neural_softmax_max x) /
            ∑ j in Finset.range x.total_size, expf (x.data.getD j 0 - neural_softmax_max x)),
        x.shape, x.n_dims, x.total_size⟩ := by
  unfold neural_softmax
  simp only [create_of_wellFormed x hx]
  unfold neural_softmax_exp neural_softmax_norm
  rw [softmax_exp_loop (fun i => expf (x.data.getD i 0 - neural_softmax_max x)) x.total_size _
    (by rw [List.length_replicate])]
  simp only
  congr 2
  apply eq_map_range
  · rw [set_loop_length (fun i => i), elementwise_loop_length, List.length_replicate]
  · intro i hi
    rw [map_loop_getD (fun _ v => v / _) _ _ i hi
      (by rw [elementwise_loop_length, List.length_replicate]; exact hi)]
    rw [elementwise_loop_getD _ _ _ i hi (by rw [List.length_replicate]; exact hi)]

theorem softmax_max_fold_attained (x : neural_tensor_t α) (L : List Nat) (a : α) :
    L.foldl (fun max_val i =>
        if x.data.getD i 0 > max_val then x.data.getD i 0 else max_val) a = a ∨
      ∃ i ∈ L, L.foldl (fun max_val i =>
        if x.data.getD i 0 > max_val then x.data.getD i 0 else max_val) a = x.data.getD i 0 := by
  induction L generalizing a with
  | nil => exact Or.inl rfl
  | cons j L ih =>
    simp only [List.foldl_cons]
    by_cases h : x.data.getD j 0 > a
    · rw [if_pos h]
      rcases ih (x.data.getD j 0) with h1 | ⟨i, hi, h1⟩
      · exact Or.inr ⟨j, List.mem_cons_self _ _, h1⟩
      · exact Or.inr ⟨i, List.mem_cons_of_mem _ hi, h1⟩
    · rw [if_neg h]
      rcases ih a with h1 | ⟨i, hi, h1⟩
      · exact Or.inl h1
      · exact Or.inr ⟨i, List.mem_cons_of_mem _ hi, h1⟩

theorem softmax_max_attained (x : neural_tensor_t α) (hne : 0 < x.total_size) :
    ∃ i, i < x.total_size ∧ neural_softmax_max x = x.data.getD i 0 := by
  unfold neural_softmax_max
  rcases softmax_max_fold_attained x (List.range' 1 (x.total_size - 1)) (x.data.getD 0 0) with
    h | ⟨i, hi, h⟩
  · exact ⟨0, hne, h⟩
  · refine ⟨i, ?_, h⟩
    rw [List.mem_range'] at hi
    obtain ⟨k, hk, rfl⟩ := hi
    omega

/-- Claim C3. For every `expf` that is nowhere negative and positive at `0`, and every
well-formed non-empty tensor `x`, `neural_softmax` returns a tensor of the shape of `x` whose
elements, summed over the whole flat buffer, give exactly `1`. -/
theorem neural_softmax_sum_one (expf : α → α) (hnonneg : ∀ v, 0 ≤ expf v) (hzero : 0 < expf 0)
    (x : neural_tensor_t α) (hx : WellFormed x) (hne : 0 < x.total_size) :
    ∃ r : neural_tensor_t α, neural_softmax expf (some x) = some r ∧
      r.shape = x.shape ∧ r.n_dims = x.n_dims ∧ r.total_size = x.total_size ∧
      r.data.length = x.total_size ∧ r.data.sum = 1 := by
  refine ⟨_, neural_softmax_eq expf x hx, rfl, rfl, rfl, ?_, ?_⟩
  · simp
  · show ((List.range x.total_size).map _).sum = 1
    rw [sum_map_range, ← Finset.sum_div]
    apply div_self
    apply ne_of_gt
    obtain ⟨i, hi, hmax⟩ := softmax_max_attained x hne
    apply Finset.sum_pos'
    · intro j _
      exact hnonneg _
    · refine ⟨i, Finset.mem_range.mpr hi, ?_⟩
      rw [hmax, sub_self]
      exact hzero

theorem softmax_max_shift (x : neural_tensor_t α) (c : α) (L : List Nat)
    (hL : ∀ i ∈ L, i < x.data.length) (a : α) :
    L.foldl (fun max_val i =>
        if (x.data.map (fun v => v + c)).getD i 0 > max_val
        then (x.data.map (fun v => v + c)).getD i 0 else max_val) (a + c) =
      L.foldl (fun max_val i =>
        if x.data.getD i 0 > max_val then x.data.getD i 0 else max_val) a + c := by
  induction L generalizing a with
  | nil => rfl
  | cons i L ih =>
    have hi : i < x.data.length := hL i (List.mem_cons_self _ _)
    have hget : (x.data.map (fun v => v + c)).getD i 0 = x.data.getD i 0 + c := by
      simp [List.getD_eq_getElem?_getD, List.getElem?_eq_getElem hi]
    simp only [List.foldl_cons, hget]
    by_cases h : x.data.getD i 0 > a
    · rw [if_pos h, if_pos (by simpa using h)]
      exact ih (fun j hj => hL j (List.mem_cons_of_mem _ hj)) _
    · rw [if_neg h, if_neg (by simpa using h)]
      exact ih (fun j hj => hL j (List.mem_cons_of_mem _ hj)) _

/-- Claim C4. Adding a constant `c` to every element of a non-empty tensor (whose buffer
holds `total_size` elements) does not change the result of `neural_softmax`. -/
theorem neural_softmax_shift_invariant (expf : α → α) (x : neural_tensor_t α)
    (hlen : x.data.length = x.total_size) (hne : 0 < x.total_size) (c : α) :
    neural_softmax expf (some { x with data := x.data.map (fun v => v + c) }) =
      neural_softmax expf (some x) := by
  have hget : ∀ i, i < x.total_size →
      (x.data.map (fun v => v + c)).getD i 0 = x.data.getD i 0 + c := by
    intro i hi
    have hi' : i < x.data.length := hlen ▸ hi
    simp [List.getD_eq_getElem?_getD, List.getElem?_eq_getElem hi']
  have hmax : neural_softmax_max { x with data := x.data.map (fun v => v + c) } =
      neural_softmax_max x + c := by
    unfold neural_softmax_max
    simp only
    rw [hget 0 hne]
    apply softmax_max_shift
    intro i hi
    rw [List.mem_range'] at hi
    obtain ⟨k, hk, rfl⟩ := hi
    omega
  unfold neural_softmax
  simp only [hmax]
  have hexp : ∀ d : List α,
      neural_softmax_exp expf { x with data := x.data.map (fun v => v + c) }
          (neural_softmax_max x + c) d =
        neural_softmax_exp expf x (neural_softmax_max x) d := by
    intro d
    unfold neural_softmax_exp
    apply List.foldl_ext
    intro st i hi
    have hi : i < x.total_size := List.mem_range.mp hi
    simp only [hget i hi, add_sub_add_right_eq_sub]
  simp only [hexp]
  rfl

end Softmax

section Indexing

variable {α : Type} [LinearOrderedField α]

/-! ### Index arithmetic of `neural_tensor_get` and `neural_tensor_set` -/

theorem take_prod_pos (shape : List Nat) (i : Nat) (hi : i ≤ shape.length)
    (h : ∀ d, d < i → 0 < shape.getD d 0) : 0 < (shape.take i).prod := by
  induction i with
  | zero => simp
  | succ i ih =>
    have hlt : i < shape.length := hi
    have htake : shape.take (i + 1) = shape.take i ++ [shape[i]] := by
      rw [List.take_succ, List.getElem?_eq_getElem hlt]; rfl
    have hpos : 0 < shape[i] := by
      have := h i (Nat.lt_succ_self i)
      simpa [List.getD_eq_getElem?_getD, List.getElem?_eq_getElem hlt] using this
    rw [htake, List.prod_append]
    simp only [List.prod_cons, List.prod_nil, mul_one]
    exact Nat.mul_pos (ih (Nat.le_of_lt hlt) (fun d hd => h d (Nat.lt_succ_of_lt hd))) hpos

theorem flat_index_loop_eq (shape indices : List Nat) (hp : shape.prod < SIZE_MOD) (i : Nat) :
    i ≤ shape.length → (∀ d, d < i → indices.getD d 0 < shape.getD d 0) →
    ∀ flat, flat < (shape.drop i).prod →
      flat_index_loop shape indices i flat (shape.drop i).prod =
          flat + ∑ d in Finset.range i, indices.getD d 0 * (shape.drop (d + 1)).prod ∧
        flat + ∑ d in Finset.range i, indices.getD d 0 * (shape.drop (d + 1)).prod <
          shape.prod := by
  induction i with
  | zero =>
    intro _ _ flat hflat
    simpa [flat_index_loop] using hflat
  | succ i ih =>
    intro hle hvalid flat hflat
    have hlt : i < shape.length := hle
    have hget : shape.getD i 0 = shape[i] := by
      simp [List.getD_eq_getElem?_getD, List.getElem?_eq_getElem hlt]
    have hdrop : (shape.drop i).prod = shape[i] * (shape.drop (i + 1)).prod := by
      rw [List.drop_eq_getElem_cons hlt, List.prod_cons]
    have hpos : 0 < (shape.take i).prod :=
      take_prod_pos shape i (Nat.le_of_lt hlt)
        (fun d hd => Nat.lt_of_le_of_lt (Nat.zero_le _) (hvalid d (Nat.lt_succ_of_lt hd)))
    have hsplit : (shape.take i).prod * (shape.drop i).prod = shape.prod :=
      List.prod_take_mul_prod_drop shape i
    have hdle : (shape.drop i).prod ≤ shape.prod := by
      rw [← hsplit]
      exact Nat.le_mul_of_pos_left _ hpos
    have hidx : indices.getD i 0 < shape[i] := hget ▸ hvalid i (Nat.lt_succ_self i)
    have hnew : flat + indices.getD i 0 * (shape.drop (i + 1)).prod < (shape.drop i).prod := by
      rw [hdrop]
      have : (indices.getD i 0 + 1) * (shape.drop (i + 1)).prod ≤
          shape[i] * (shape.drop (i + 1)).prod := Nat.mul_le_mul_right _ hidx
      have h2 : (indices.getD i 0 + 1) * (shape.drop (i + 1)).prod =
          indices.getD i 0 * (shape.drop (i + 1)).prod + (shape.drop (i + 1)).prod := by ring
      omega
    have hm1 : (indices.getD i 0 * (shape.drop (i + 1)).prod) % SIZE_MOD =
        indices.getD i 0 * (shape.drop (i + 1)).prod := Nat.mod_eq_of_lt (by omega)
    have hm2 : (flat + indices.getD i 0 * (shape.drop (i + 1)).prod) % SIZE_MOD =
        flat + indices.getD i 0 * (shape.drop (i + 1)).prod := Nat.mod_eq_of_lt (by omega)
    have hm3 : ((shape.drop (i + 1)).prod * shape.getD i 0) % SIZE_MOD = (shape.drop i).prod := by
      rw [hget, hdrop, Nat.mul_comm]
      apply Nat.mod_eq_of_lt
      rw [← hdrop]; omega
    have := ih (Nat.le_of_lt hlt) (fun d hd => hvalid d (Nat.lt_succ_of_lt hd)) _ hnew
    rw [flat_index_loop, hm1, hm2, hm3, Finset.sum_range_succ]
    constructor
    · rw [this.1]; ring
    · have h3 := this.2
      have h4 : flat + (∑ d in Finset.range i, indices.getD d 0 * (shape.drop (d + 1)).prod +
          indices.getD i 0 * (shape.drop (i + 1)).prod) =
          flat + indices.getD i 0 * (shape.drop (i + 1)).prod +
            ∑ d in Finset.range i, indices.getD d 0 * (shape.drop (d + 1)).prod := by ring
      rw [h4]; exact h3

theorem flat_index_eq (t : neural_tensor_t α) (indices : List Nat) (hwf : WellFormed t)
    (hvalid : ∀ d, d < t.n_dims → indices.getD d 0 < t.shape.getD d 0) :
    flat_index t indices =
        ∑ d in Finset.range t.n_dims, indices.getD d 0 * (t.shape.drop (d + 1)).prod ∧
      flat_index t indices < t.total_size := by
  obtain ⟨h1, h2, h3, -⟩ := hwf
  have hd : (t.shape.drop t.n_dims).prod = 1 := by rw [h1]; simp
  have := flat_index_loop_eq t.shape indices h3 t.n_dims (by rw [h1]) hvalid 0
    (by rw [hd]; exact Nat.one_pos)
  rw [hd, Nat.zero_add] at this
  unfold flat_index
  rw [h2]
  exact ⟨this.1, this.1 ▸ this.2⟩

/-- Claim C7. For a well-formed tensor with `n_dims ≥ 1` and a multi-index every component of
which is below its dimension, the flat offset computed by `neural_tensor_get` is
`Σ_d i_d * stride_d` with `stride_d` the product of the shape entries after `d`; it is below
`total_size`, and `neural_tensor_get` returns `data` at that offset. -/
theorem neural_tensor_get_valid (t : neural_tensor_t α) (indices : List Nat)
    (hwf : WellFormed t) (hdims : 1 ≤ t.n_dims)
    (hvalid : ∀ d, d < t.n_dims → indices.getD d 0 < t.shape.getD d 0) :
    flat_index t indices =
        ∑ d in Finset.range t.n_dims, indices.getD d 0 * (t.shape.drop (d + 1)).prod ∧
      flat_index t indices < t.total_size ∧
      neural_tensor_get (some t) (some indices) =
        t.data.getD
          (∑ d in Finset.range t.n_dims, indices.getD d 0 * (t.shape.drop (d + 1)).prod) 0 := by
  obtain ⟨h1, h2⟩ := flat_index_eq t indices hwf hvalid
  refine ⟨h1, h2, ?_⟩
  have h3 := h2
  rw [h1] at h3
  unfold neural_tensor_get
  simp only [Nat.ne_of_gt hdims, if_false, h1, if_pos h3]

/-- Claim C8. Whenever the computed flat offset is `≥ total_size`, `neural_tensor_get` returns
`0` and `neural_tensor_set` returns the tensor unchanged. -/
theorem neural_tensor_flat_out_of_range (t : neural_tensor_t α) (indices : List Nat) (value : α)
    (h : t.total_size ≤ flat_index t indices) :
    neural_tensor_get (some t) (some indices) = 0 ∧
      neural_tensor_set (some t) (some indices) value = some t := by
  unfold neural_tensor_get neural_tensor_set
  simp [Nat.not_lt.mpr h]

/-- Claim C9, as stated, is refuted. On the shape `[2,3]` the index `(0,4)` is out of bounds in
its second component, yet `neural_tensor_get` returns `data[4]` and `neural_tensor_set`
overwrites `data[4]`. -/
theorem neural_tensor_out_of_bounds_counterexample :
    ([2, 3] : List Nat).getD 1 0 ≤ ([0, 4] : List Nat).getD 1 0 ∧
    neural_tensor_get (α := ℚ)
        (some { data := [1, 2, 3, 4, 5, 6], shape := [2, 3], n_dims := 2, total_size := 6 })
        (some [0, 4]) = 5 ∧
    neural_tensor_get (α := ℚ)
        (some { data := [1, 2, 3, 4, 5, 6], shape := [2, 3], n_dims := 2, total_size := 6 })
        (some [0, 4]) ≠ 0 ∧
    neural_tensor_set (α := ℚ)
        (some { data := [1, 2, 3, 4, 5, 6], shape := [2, 3], n_dims := 2, total_size := 6 })
        (some [0, 4]) 9 =
      some { data := [1, 2, 3, 4, 9, 6], shape := [2, 3], n_dims := 2, total_size := 6 } ∧
    neural_tensor_set (α := ℚ)
        (some { data := [1, 2, 3, 4, 5, 6], shape := [2, 3], n_dims := 2, total_size := 6 })
        (some [0, 4]) 9 ≠
      some { data := [1, 2, 3, 4, 5, 6], shape := [2, 3], n_dims := 2, total_size := 6 } := by
  have hf : flat_index (α := ℚ)
      { data := [1, 2, 3, 4, 5, 6], shape := [2, 3], n_dims := 2, total_size := 6 } [0, 4] = 4 := by
    simp [flat_index, flat_index_loop, SIZE_MOD]
  refine ⟨by simp, ?_, ?_, ?_, ?_⟩
  · simp [neural_tensor_get, hf]
  · simp [neural_tensor_get, hf]
  · simp [neural_tensor_set, hf]
  · simp [neural_tensor_set, hf]

/-- Claim C9, amended. For an out-of-bounds multi-index (some component `i_d ≥ shape[d]`):
if the computed flat offset is `≥ total_size`, `neural_tensor_get` returns `0` and
`neural_tensor_set` leaves the tensor unchanged; if the offset is `< total_size`,
`neural_tensor_get` returns `data` at that offset and `neural_tensor_set` overwrites it. -/
theorem neural_tensor_out_of_bounds (t : neural_tensor_t α) (indices : List Nat) (value : α)
    (hoob : ∃ d, d < t.n_dims ∧ t.shape.getD d 0 ≤ indices.getD d 0) :
    (t.total_size ≤ flat_index t indices →
      neural_tensor_get (some t) (some indices) = 0 ∧
        neural_tensor_set (some t) (some indices) value = some t) ∧
    (flat_index t indices < t.total_size →
      neural_tensor_get (some t) (some indices) = t.data.getD (flat_index t indices) 0 ∧
        neural_tensor_set (some t) (some indices) value =
          some { t with data := t.data.set (flat_index t indices) value }) := by
  obtain ⟨d, hd, -⟩ := hoob
  have hn : t.n_dims ≠ 0 := by omega
  unfold neural_tensor_get neural_tensor_set
  constructor
  · intro h
    simp [Nat.not_lt.mpr h]
  · intro h
    simp [hn, h]

end Indexing

section SpiralAndInstances

variable {α : Type} [LinearOrderedField α]

/-! ### Spiral -/

/-- The state after `k` calls `spiral_advance(s, 1.0)` from `spiral_create`. -/
theorem spiral_iterate_state (k : Nat) :
    (fun s => spiral_advance (α := α) s 1)^[k] spiral_create =
      some
        { current_phase := ((k % 7 : Nat) : Int)
          phase_completion := 0
          cycle_count := (k / 7) % SIZE_MOD
          ascending := true } := by
  induction k with
  | zero => rfl
  | succ k ih =>
    rw [Function.iterate_succ_apply', ih]
    unfold spiral_advance PHASE_AUTONOMY PHASE_ENTROPIC_DRIFT
    simp only [zero_add, ge_iff_le, le_refl, if_true]
    by_cases h : ((k % 7 : Nat) : Int) < 6
    · rw [if_pos h]
      have h1 : ((k % 7 : Nat) : Int) + 1 = (((k + 1) % 7 : Nat) : Int) := by omega
      have h2 : k / 7 = (k + 1) / 7 := by omega
      rw [h1, h2]
    · rw [if_neg h]
      have h1 : (0 : Int) = (((k + 1) % 7 : Nat) : Int) := by omega
      have h2 : k / 7 + 1 = (k + 1) / 7 := by omega
      have hM : SIZE_MOD = 18446744073709551616 := by norm_num [SIZE_MOD]
      have h3 : (k / 7 % SIZE_MOD + 1) % SIZE_MOD = (k + 1) / 7 % SIZE_MOD := by
        rw [hM]; omega
      rw [h1, h3]

/-- Claim C10, as stated, is refuted. The counter `cycle_count` is a `size_t`: after
`k = 7 * 2^64 = 129127208515966861312` consecutive calls `spiral_advance(s, 1.0)` from
`spiral_create` it has wrapped to `0`, while `k div 7 = 2^64`. -/
theorem spiral_advance_iterate_counterexample :
    (fun s => spiral_advance (α := ℚ) s 1)^[129127208515966861312] spiral_create =
        some
          { current_phase := PHASE_ENTROPIC_DRIFT
            phase_completion := 0
            cycle_count := 0
            ascending := true } ∧
      129127208515966861312 / 7 = 18446744073709551616 ∧
      (0 : Nat) ≠ 129127208515966861312 / 7 := by
  refine ⟨?_, by norm_num, by norm_num⟩
  rw [spiral_iterate_state (α := ℚ) 129127208515966861312]
  norm_num [SIZE_MOD, PHASE_ENTROPIC_DRIFT]

/-- Claim C10, amended. After `k` consecutive calls `spiral_advance(s, 1.0)` from the state
returned by `spiral_create`, `current_phase = k mod 7`, `phase_completion = 0` and
`cycle_count` is `k div 7` reduced modulo `2^64` (the counter is a `size_t`), hence
`cycle_count = k div 7` for every `k` with `k div 7 < 2^64`; after exactly 7 calls the phase
is `PHASE_ENTROPIC_DRIFT` again and `cycle_count` is `1`. -/
theorem spiral_advance_iterate :
    (∀ k : Nat, (fun s => spiral_advance (α := α) s 1)^[k] spiral_create =
      some
        { current_phase := ((k % 7 : Nat) : Int)
          phase_completion := 0
          cycle_count := (k / 7) % SIZE_MOD
          ascending := true }) ∧
    (∀ k : Nat, k / 7 < SIZE_MOD →
      (fun s => spiral_advance (α := α) s 1)^[k] spiral_create =
        some
          { current_phase := ((k % 7 : Nat) : Int)
            phase_completion := 0
            cycle_count := k / 7
            ascending := true }) ∧
    (fun s => spiral_advance (α := α) s 1)^[7] spiral_create =
      some
        { current_phase := PHASE_ENTROPIC_DRIFT
          phase_completion := 0
          cycle_count := 1
          ascending := true } := by
  have key2 : ∀ k : Nat, k / 7 < SIZE_MOD →
      (fun s => spiral_advance (α := α) s 1)^[k] spiral_create =
        some
          { current_phase := ((k % 7 : Nat) : Int)
            phase_completion := 0
            cycle_count := k / 7
            ascending := true } := by
    intro k hk
    rw [spiral_iterate_state k, Nat.mod_eq_of_lt hk]
  exact ⟨spiral_iterate_state, key2, key2 7 (by norm_num [SIZE_MOD])⟩

theorem spiral_advance_iterate_witness :
    23 / 7 < SIZE_MOD ∧
      (fun s => spiral_advance (α := ℚ) s 1)^[23] spiral_create =
        some
          { current_phase := ((23 % 7 : Nat) : Int)
            phase_completion := 0
            cycle_count := 23 / 7
            ascending := true } :=
  ⟨by norm_num [SIZE_MOD], (spiral_advance_iterate (α := ℚ)).2.1 23 (by norm_num [SIZE_MOD])⟩

/-! ### Instances at concrete inputs -/

theorem neural_relu_spec_witness :
    WellFormed (α := ℚ)
        { data := [-2, -1, 0, 1, 2], shape := [5], n_dims := 1, total_size := 5 } ∧
    ∃ r : neural_tensor_t ℚ,
      neural_relu (α := ℚ)
          (some { data := [-2, -1, 0, 1, 2], shape := [5], n_dims := 1, total_size := 5 }) =
        some r ∧
      r.shape = [5] ∧ r.n_dims = 1 ∧ r.total_size = 5 ∧ r.data.length = 5 ∧
      ∀ i, i < 5 → r.data.getD i 0 = max (([-2, -1, 0, 1, 2] : List ℚ).getD i 0) 0 :=
  have hx : WellFormed (α := ℚ)
      { data := [-2, -1, 0, 1, 2], shape := [5], n_dims := 1, total_size := 5 } := by
    simp [WellFormed, SIZE_MOD]
  ⟨hx, (neural_relu_spec (α := ℚ)).1 _ hx⟩

theorem neural_add_mul_spec_witness :
    WellFormed (α := ℚ)
        { data := [1, 2, 3, 4, 5, 6], shape := [2, 3], n_dims := 2, total_size := 6 } ∧
    ∃ r s : neural_tensor_t ℚ,
      neural_add (α := ℚ)
          (some { data := [1, 2, 3, 4, 5, 6], shape := [2, 3], n_dims := 2, total_size := 6 })
          (some { data := [10, 20, 30, 40, 50, 60], shape := [6], n_dims := 1, total_size := 6 }) =
        some r ∧
      neural_mul (α := ℚ)
          (some { data := [1, 2, 3, 4, 5, 6], shape := [2, 3], n_dims := 2, total_size := 6 })
          (some { data := [10, 20, 30, 40, 50, 60], shape := [6], n_dims := 1, total_size := 6 }) =
        some s ∧
      r.shape = [2, 3] ∧ r.n_dims = 2 ∧ r.total_size = 6 ∧ r.data.length = 6 ∧
      s.shape = [2, 3] ∧ s.n_dims = 2 ∧ s.total_size = 6 ∧ s.data.length = 6 ∧
      ∀ i, i < 6 →
        r.data.getD i 0 =
            ([1, 2, 3, 4, 5, 6] : List ℚ).getD i 0 +
              ([10, 20, 30, 40, 50, 60] : List ℚ).getD i 0 ∧
          s.data.getD i 0 =
            ([1, 2, 3, 4, 5, 6] : List ℚ).getD i 0 *
              ([10, 20, 30, 40, 50, 60] : List ℚ).getD i 0 :=
  have hA : WellFormed (α := ℚ)
      { data := [1, 2, 3, 4, 5, 6], shape := [2, 3], n_dims := 2, total_size := 6 } := by
    simp [WellFormed, SIZE_MOD]
  ⟨hA, (neural_add_mul_spec (α := ℚ)).2.1 _ _ hA rfl⟩

/-- A stand-in for `expf` on the rationals, `2 ^ ⌊v⌋`, is positive everywhere. -/
theorem two_zpow_floor_pos : ∀ v : ℚ, 0 < (2 : ℚ) ^ ⌊v⌋ := fun _ => by positivity

theorem neural_softmax_sum_one_witness :
    (∀ v : ℚ, 0 ≤ (2 : ℚ) ^ ⌊v⌋) ∧ 0 < (2 : ℚ) ^ ⌊(0 : ℚ)⌋ ∧
    WellFormed (α := ℚ)
        { data := [1, 2, 3, 4], shape := [2, 2], n_dims := 2, total_size := 4 } ∧
    ∃ r : neural_tensor_t ℚ,
      neural_softmax (fun v => (2 : ℚ) ^ ⌊v⌋)
          (some { data := [1, 2, 3, 4], shape := [2, 2], n_dims := 2, total_size := 4 }) =
        some r ∧
      r.shape = [2, 2] ∧ r.n_dims = 2 ∧ r.total_size = 4 ∧ r.data.length = 4 ∧
      r.data.sum = 1 :=
  have hx : WellFormed (α := ℚ)
      { data := [1, 2, 3, 4], shape := [2, 2], n_dims := 2, total_size := 4 } := by
    simp [WellFormed, SIZE_MOD]
  ⟨fun v => le_of_lt (two_zpow_floor_pos v), two_zpow_floor_pos 0, hx,
    neural_softmax_sum_one (fun v => (2 : ℚ) ^ ⌊v⌋) (fun v => le_of_lt (two_zpow_floor_pos v))
      (two_zpow_floor_pos 0) _ hx (by decide)⟩

theorem neural_softmax_shift_invariant_witness :
    neural_softmax (fun v => (2 : ℚ) ^ ⌊v⌋)
        (some { data := ([1, 2, 3, 4] : List ℚ).map (fun v => v + 10), shape := [2, 2],
                n_dims := 2, total_size := 4 }) =
      neural_softmax (fun v => (2 : ℚ) ^ ⌊v⌋)
        (some { data := [1, 2, 3, 4], shape := [2, 2], n_dims := 2, total_size := 4 }) :=
  neural_softmax_shift_invariant (fun v => (2 : ℚ) ^ ⌊v⌋)
    { data := [1, 2, 3, 4], shape := [2, 2], n_dims := 2, total_size := 4 } rfl (by decide) 10

theorem neural_tensor_get_valid_witness :
    flat_index (α := ℚ)
        { data := [1, 2, 3, 4, 5, 6], shape := [2, 3], n_dims := 2, total_size := 6 } [1, 2] =
      ∑ d in Finset.range 2, ([1, 2] : List Nat).getD d 0 * (([2, 3] : List Nat).drop (d + 1)).prod ∧
    flat_index (α := ℚ)
        { data := [1, 2, 3, 4, 5, 6], shape := [2, 3], n_dims := 2, total_size := 6 } [1, 2] < 6 ∧
    neural_tensor_get (α := ℚ)
        (some { data := [1, 2, 3, 4, 5, 6], shape := [2, 3], n_dims := 2, total_size := 6 })
        (some [1, 2]) =
      ([1, 2, 3, 4, 5, 6] : List ℚ).getD
        (∑ d in Finset.range 2,
          ([1, 2] : List Nat).getD d 0 * (([2, 3] : List Nat).drop (d + 1)).prod) 0 :=
  neural_tensor_get_valid (α := ℚ)
    { data := [1, 2, 3, 4, 5, 6], shape := [2, 3], n_dims := 2, total_size := 6 } [1, 2]
    (by simp [WellFormed, SIZE_MOD]) (by decide)
    (by
      intro d hd
      have hd : d < 2 := hd
      interval_cases d <;> simp)

theorem neural_tensor_flat_out_of_range_witness :
    neural_tensor_get (α := ℚ)
        (some { data := [1, 2, 3, 4, 5, 6], shape := [2, 3], n_dims := 2, total_size := 6 })
        (some [2, 0]) = 0 ∧
    neural_tensor_set (α := ℚ)
        (some { data := [1, 2, 3, 4, 5, 6], shape := [2, 3], n_dims := 2, total_size := 6 })
        (some [2, 0]) 9 =
      some { data := [1, 2, 3, 4, 5, 6], shape := [2, 3], n_dims := 2, total_size := 6 } :=
  neural_tensor_flat_out_of_range (α := ℚ)
    { data := [1, 2, 3, 4, 5, 6], shape := [2, 3], n_dims := 2, total_size := 6 } [2, 0] 9
    (by simp [flat_index, flat_index_loop, SIZE_MOD])

theorem neural_tensor_out_of_bounds_witness :
    neural_tensor_get (α := ℚ)
        (some { data := [1, 2, 3, 4, 5, 6], shape := [2, 3], n_dims := 2, total_size := 6 })
        (some [1, 3]) = 0 ∧
    neural_tensor_set (α := ℚ)
        (some { data := [1, 2, 3, 4, 5, 6], shape := [2, 3], n_dims := 2, total_size := 6 })
        (some [1, 3]) 9 =
      some { data := [1, 2, 3, 4, 5, 6], shape := [2, 3], n_dims := 2, total_size := 6 } :=
  (neural_tensor_out_of_bounds (α := ℚ)
    { data := [1, 2, 3, 4, 5, 6], shape := [2, 3], n_dims := 2, total_size := 6 } [1, 3] 9
    ⟨1, by decide, by simp⟩).1 (by simp [flat_index, flat_index_loop, SIZE_MOD])

end SpiralAndInstances

section SpiralInvariants

variable {α : Type} [LinearOrderedField α]

end SpiralInvariants

section ActiveNodes

variable {α : Type} [LinearOrderedField α]

/-! ### `activation_landscape_get_active_nodes` -/

theorem count_loop_eq (P : Nat → Prop) [DecidablePred P] (n : Nat) :
    (List.range n).foldl (fun c i => if P i then c + 1 else c) 0 =
      ((List.range n).filter (fun i => decide (P i))).length := by
  induction n with
  | zero => rfl
  | succ n ih =>
    rw [List.range_succ, List.foldl_append, ih, List.filter_append]
    by_cases h : P n
    · simp [h]
    · simp [h]

theorem fill_loop_eq (P : Nat → Prop) [DecidablePred P] (c : Nat) (n : Nat)
    (hc : ((List.range n).filter (fun i => decide (P i))).length ≤ c) :
    (List.range n).foldl
        (fun (st : List Nat × Nat) i => if P i then (st.1.set st.2 i, st.2 + 1) else st)
        (List.replicate c 0, 0) =
      ((List.range n).filter (fun i => decide (P i)) ++
          List.replicate (c - ((List.range n).filter (fun i => decide (P i))).length) 0,
        ((List.range n).filter (fun i => decide (P i))).length) := by
  induction n with
  | zero => simp
  | succ n ih =>
    have hsplit : (List.range (n + 1)).filter (fun i => decide (P i)) =
        (List.range n).filter (fun i => decide (P i)) ++
          [n].filter (fun i => decide (P i)) := by
      rw [List.range_succ, List.filter_append]
    rw [hsplit] at hc ⊢
    have hc' : ((List.range n).filter (fun i => decide (P i))).length ≤ c := by
      rw [List.length_append] at hc
      omega
    rw [List.range_succ, List.foldl_append, ih hc']
    by_cases h : P n
    · have hf : [n].filter (fun i => decide (P i)) = [n] := by simp [h]
      rw [hf] at hc ⊢
      rw [List.length_append, List.length_singleton] at hc
      simp only [List.foldl_cons, List.foldl_nil, if_pos h]
      obtain ⟨k, hk⟩ : ∃ k, c - ((List.range n).filter (fun i => decide (P i))).length = k + 1 :=
        ⟨c - ((List.range n).filter (fun i => decide (P i))).length - 1, by omega⟩
      have hk' : c - ((List.range n).filter (fun i => decide (P i)) ++ [n]).length = k := by
        rw [List.length_append, List.length_singleton]; omega
      rw [hk, hk', List.set_append_right _ _ (le_refl _), Nat.sub_self, List.replicate_succ,
        List.length_append, List.length_singleton]
      simp
    · have hf : [n].filter (fun i => decide (P i)) = [] := by simp [h]
      rw [hf]
      simp only [List.foldl_cons, List.foldl_nil, if_neg h, List.append_nil]

theorem get_active_nodes_eq (landscape : activation_landscape_t α) (c : Nat) :
    activation_landscape_get_active_nodes (some landscape) (some c) =
      (if (List.range landscape.n_nodes).filter
            (fun i => decide (landscape.activations.data.getD i 0 >
              landscape.thresholds.getD i 0)) = [] then none
        else some ((List.range landscape.n_nodes).filter
            (fun i => decide (landscape.activations.data.getD i 0 >
              landscape.thresholds.getD i 0))),
       some ((List.range landscape.n_nodes).filter
            (fun i => decide (landscape.activations.data.getD i 0 >
              landscape.thresholds.getD i 0))).length) := by
  unfold activation_landscape_get_active_nodes
  simp only
  rw [count_loop_eq (fun i => landscape.activations.data.getD i 0 >
      landscape.thresholds.getD i 0) landscape.n_nodes]
  rw [fill_loop_eq (fun i => landscape.activations.data.getD i 0 >
      landscape.thresholds.getD i 0) _ landscape.n_nodes (le_refl _)]
  by_cases h : (List.range landscape.n_nodes).filter
      (fun i => decide (landscape.activations.data.getD i 0 >
        landscape.thresholds.getD i 0)) = []
  · rw [h]; simp
  · have hl : ((List.range landscape.n_nodes).filter
        (fun i => decide (landscape.activations.data.getD i 0 >
          landscape.thresholds.getD i 0))).length ≠ 0 := by
      intro h0
      exact h (List.length_eq_zero.mp h0)
    rw [if_neg hl, if_neg h]
    simp

/-- Claim C17. For every landscape, `activation_landscape_get_active_nodes` stores in
`n_active` the number of indices `i < n_nodes` with `activations[i] > thresholds[i]` and
returns the array of exactly these indices in strictly increasing order (a NULL array when
there is none); with thresholds `0.5` the activations
`[0.8,0.6,0.3,0.9,0.2,0.7,0.4,0.1,0.5,0.85]` give `[0,1,3,5,9]`. -/
theorem get_active_nodes_spec :
    (∀ (landscape : activation_landscape_t α) (c : Nat),
      ∃ active : List Nat,
        activation_landscape_get_active_nodes (some landscape) (some c) =
          (if active = [] then none else some active, some active.length) ∧
        (∀ i, i ∈ active ↔
          i < landscape.n_nodes ∧
            landscape.activations.data.getD i 0 > landscape.thresholds.getD i 0) ∧
        active.Pairwise (fun i j => i < j)) ∧
    activation_landscape_get_active_nodes (α := α)
        (some
          { activations :=
              { data := [0.8, 0.6, 0.3, 0.9, 0.2, 0.7, 0.4, 0.1, 0.5, 0.85]
                shape := [10], n_dims := 1, total_size := 10 }
            thresholds := [0.5, 0.5, 0.5, 0.5, 0.5, 0.5, 0.5, 0.5, 0.5, 0.5]
            n_nodes := 10 })
        (some 0) =
      (some [0, 1, 3, 5, 9], some 5) := by
  constructor
  · intro landscape c
    refine ⟨_, get_active_nodes_eq landscape c, ?_, ?_⟩
    · intro i
      rw [List.mem_filter, List.mem_range, decide_eq_true_iff]
    · exact List.Pairwise.filter _ (List.pairwise_lt_range _)
  · rw [get_active_nodes_eq]
    simp [List.range_succ, List.filter_cons]
    norm_num
    exact List.cons_ne_nil _ _

/-- Claim C18, as stated, is refuted. With the caller's `n_active` cell holding `0` (as in
both callers of the repository), a landscape without any node above its threshold and an
absent landscape produce the same result: a NULL array and `n_active = 0`. -/
theorem get_active_nodes_empty_counterexample :
    activation_landscape_get_active_nodes (α := ℚ)
        (some
          { activations := { data := [0.1, 0.2], shape := [2], n_dims := 1, total_size := 2 }
            thresholds := [0.5, 0.5]
            n_nodes := 2 })
        (some 0) =
      activation_landscape_get_active_nodes (α := ℚ) none (some 0) := by
  rw [get_active_nodes_eq]
  simp [activation_landscape_get_active_nodes, List.range_succ, List.filter_cons]
  norm_num

/-- Claim C18, amended. When no node is above its threshold,
`activation_landscape_get_active_nodes` returns a NULL array and sets `n_active` to `0`; for
an absent landscape it returns a NULL array too and leaves `n_active` as it was; so the two
results differ exactly when the caller had stored a non-zero value in `n_active`. -/
theorem get_active_nodes_empty (landscape : activation_landscape_t α) (c : Nat)
    (h : ∀ i, i < landscape.n_nodes →
      ¬ landscape.activations.data.getD i 0 > landscape.thresholds.getD i 0) :
    activation_landscape_get_active_nodes (some landscape) (some c) = (none, some 0) ∧
    activation_landscape_get_active_nodes (α := α) none (some c) = (none, some c) ∧
    (activation_landscape_get_active_nodes (some landscape) (some c) =
        activation_landscape_get_active_nodes (α := α) none (some c) ↔ c = 0) := by
  have hf : (List.range landscape.n_nodes).filter
      (fun i => decide (landscape.activations.data.getD i 0 >
        landscape.thresholds.getD i 0)) = [] := by
    rw [List.filter_eq_nil_iff]
    intro i hi
    rw [decide_eq_true_iff]
    exact h i (List.mem_range.mp hi)
  have h1 : activation_landscape_get_active_nodes (some landscape) (some c) =
      (none, some 0) := by
    rw [get_active_nodes_eq, hf]
    simp
  have h2 : activation_landscape_get_active_nodes (α := α) none (some c) = (none, some c) :=
    rfl
  refine ⟨h1, h2, ?_⟩
  rw [h1, h2]
  constructor
  · intro e
    have := congrArg Prod.snd e
    simp only [Option.some.injEq] at this
    exact this.symm
  · intro e
    rw [e]

theorem get_active_nodes_empty_witness :
    activation_landscape_get_active_nodes (α := ℚ)
        (some
          { activations := { data := [0.1, 0.2], shape := [2], n_dims := 1, total_size := 2 }
            thresholds := [0.5, 0.5]
            n_nodes := 2 })
        (some 7) = (none, some 0) ∧
    activation_landscape_get_active_nodes (α := ℚ) none (some 7) = (none, some 7) :=
  have h := get_active_nodes_empty (α := ℚ)
    { activations := { data := [0.1, 0.2], shape := [2], n_dims := 1, total_size := 2 }
      thresholds := [0.5, 0.5]
      n_nodes := 2 }
    7
    (by
      intro i hi
      have hi : i < 2 := hi
      interval_cases i <;> norm_num)
  ⟨h.1, h.2.1⟩

end ActiveNodes

section SpreadAndAttention

variable {α : Type} [LinearOrderedField α]

/-! ### `activation_landscape_spread` -/

theorem neural_matmul_eq (A B : neural_tensor_t α) (m k n : Nat)
    (hAd : A.n_dims = 2) (hBd : B.n_dims = 2) (hA : A.shape = [m, k]) (hB : B.shape = [k, n])
    (hmn : m * n < SIZE_MOD) :
    neural_matmul (some A) (some B) =
      some ⟨neural_matmul_loop A B m n k (List.replicate (m * n) 0), [m, n], 2, m * n⟩ := by
  have hc : neural_tensor_create (α := α) [m, n] 2 =
      some ⟨List.replicate (m * n) 0, [m, n], 2, m * n⟩ := by
    simpa using create_eq (α := α) [m, n] (by simpa using hmn)
  unfold neural_matmul
  simp [hAd, hBd, hA, hB, hc]

theorem memcpy_getD (dst src : List α) (n i : Nat) (hi : i < n) (hlen : i < dst.length) :
    (memcpy dst src n).getD i 0 = src.getD i 0 :=
  elementwise_loop_getD (fun i => src.getD i 0) n dst i hi hlen

theorem memcpy_length (dst src : List α) (n : Nat) : (memcpy dst src n).length = dst.length :=
  elementwise_loop_length (fun i => src.getD i 0) n dst

theorem create_row_eq (N : Nat) (hN : N < SIZE_MOD) :
    neural_tensor_create (α := α) [1, N] 2 = some ⟨List.replicate N 0, [1, N], 2, N⟩ := by
  simpa using create_eq (α := α) [1, N] (by simpa using hN)

theorem spread_eq (landscape : activation_landscape_t α) (connectivity : neural_tensor_t α)
    (decay_factor : α) (hc : WellFormed connectivity)
    (hcs : connectivity.shape = [landscape.n_nodes, landscape.n_nodes]) :
    activation_landscape_spread (some landscape) (some connectivity) decay_factor =
      some { landscape with
        activations := { landscape.activations with
          data := (List.range landscape.n_nodes).foldl
            (fun d i =>
              d.set i
                ((neural_matmul_loop
                    ⟨memcpy (List.replicate landscape.n_nodes 0) landscape.activations.data
                      landscape.n_nodes, [1, landscape.n_nodes], 2, landscape.n_nodes⟩
                    connectivity 1 landscape.n_nodes landscape.n_nodes
                    (List.replicate landscape.n_nodes 0)).getD i 0 * decay_factor))
            landscape.activations.data } } := by
  obtain ⟨hd, -, hp, -⟩ := hc
  rw [hcs] at hd hp
  have hd2 : connectivity.n_dims = 2 := hd
  have hNN : landscape.n_nodes * landscape.n_nodes < SIZE_MOD := by simpa using hp
  have hN : landscape.n_nodes < SIZE_MOD := by
    rcases Nat.eq_zero_or_pos landscape.n_nodes with h0 | hpos
    · rw [h0]; decide
    · exact Nat.lt_of_le_of_lt (Nat.le_mul_of_pos_left _ hpos) hNN
  have hm := neural_matmul_eq
    (⟨memcpy (List.replicate landscape.n_nodes 0) landscape.activations.data
      landscape.n_nodes, [1, landscape.n_nodes], 2, landscape.n_nodes⟩ : neural_tensor_t α)
    connectivity 1 landscape.n_nodes landscape.n_nodes rfl hd2 rfl hcs (by simpa using hN)
  simp only [Nat.one_mul] at hm
  unfold activation_landscape_spread
  simp only [create_row_eq landscape.n_nodes hN, hm, min_self]

/-- Claim C19. For a landscape with `N` nodes whose activation tensor is well-formed of
shape `[N]`, a well-formed connectivity tensor of shape `[N,N]` and any decay, after
`activation_landscape_spread` every activation `i < N` is
`decay * Σ_{j<N} old_activation[j] * connectivity[j,i]`, and thresholds, `n_nodes` and the
shape of the activation tensor are unchanged; if the connectivity is not 2-D or its first
dimension is not `N`, the landscape is unchanged. -/
theorem activation_landscape_spread_spec :
    (∀ (landscape : activation_landscape_t α) (connectivity : neural_tensor_t α)
        (decay_factor : α),
      WellFormed landscape.activations → landscape.activations.shape = [landscape.n_nodes] →
      WellFormed connectivity →
      connectivity.shape = [landscape.n_nodes, landscape.n_nodes] →
      ∃ l : activation_landscape_t α,
        activation_landscape_spread (some landscape) (some connectivity) decay_factor =
          some l ∧
        l.thresholds = landscape.thresholds ∧ l.n_nodes = landscape.n_nodes ∧
        l.activations.shape = landscape.activations.shape ∧
        l.activations.total_size = landscape.activations.total_size ∧
        l.activations.data.length = landscape.n_nodes ∧
        ∀ i, i < landscape.n_nodes →
          l.activations.data.getD i 0 =
            decay_factor *
              ∑ j in Finset.range landscape.n_nodes,
                landscape.activations.data.getD j 0 *
                  connectivity.data.getD (j * landscape.n_nodes + i) 0) ∧
    (∀ (landscape : activation_landscape_t α) (connectivity : neural_tensor_t α)
        (decay_factor : α),
      connectivity.n_dims ≠ 2 ∨ connectivity.shape.getD 0 0 ≠ landscape.n_nodes →
      activation_landscape_spread (some landscape) (some connectivity) decay_factor =
        some landscape) := by
  constructor
  · intro landscape connectivity decay_factor ha has hc hcs
    have hlen : landscape.activations.data.length = landscape.n_nodes := by
      obtain ⟨-, h2, -, h4⟩ := ha
      rw [h4, h2, has]
      simp
    have hNN : landscape.n_nodes * landscape.n_nodes < SIZE_MOD := by
      have := hc.2.2.1
      rw [hcs] at this
      simpa using this
    have hN : 1 * landscape.n_nodes < SIZE_MOD := by
      rw [Nat.one_mul]
      rcases Nat.eq_zero_or_pos landscape.n_nodes with h0 | hpos
      · rw [h0]; decide
      · exact Nat.lt_of_le_of_lt (Nat.le_mul_of_pos_left _ hpos) hNN
    refine ⟨_, spread_eq landscape connectivity decay_factor hc hcs, rfl, rfl, rfl, rfl, ?_, ?_⟩
    · show ((List.range landscape.n_nodes).foldl _ landscape.activations.data).length = _
      rw [elementwise_loop_length, hlen]
    · intro i hi
      show ((List.range landscape.n_nodes).foldl _ landscape.activations.data).getD i 0 = _
      rw [elementwise_loop_getD _ _ _ i hi (by rw [hlen]; exact hi)]
      have hg := matmul_loop_getD
        (⟨memcpy (List.replicate landscape.n_nodes 0) landscape.activations.data
          landscape.n_nodes, [1, landscape.n_nodes], 2, landscape.n_nodes⟩ : neural_tensor_t α)
        connectivity 1 landscape.n_nodes landscape.n_nodes
        (List.replicate landscape.n_nodes 0) hN (by simp) 0 i Nat.zero_lt_one hi
      rw [Nat.zero_mul, Nat.zero_add] at hg
      rw [hg, matmul_sum_eq _ _ 1 landscape.n_nodes landscape.n_nodes 0 i Nat.zero_lt_one hi
        hN hNN, mul_comm]
      congr 1
      apply Finset.sum_congr rfl
      intro j hj
      have hj : j < landscape.n_nodes := Finset.mem_range.mp hj
      rw [Nat.zero_mul, Nat.zero_add]
      show (memcpy _ _ _).getD j 0 * _ = _
      rw [memcpy_getD _ _ _ j hj (by simp [hj])]
  · intro landscape connectivity decay_factor h
    unfold activation_landscape_spread neural_matmul
    rcases h with h | h
    · simp [neural_tensor_create, neural_tensor_create_loop, List.range_succ, h]
    · rw [List.getD_eq_getElem?_getD] at h
      have h' : ¬ (landscape.n_nodes = connectivity.shape[0]?.getD 0) := fun e => h e.symm
      by_cases hd : connectivity.n_dims = 2
      · simp [neural_tensor_create, neural_tensor_create_loop, List.range_succ, hd, h']
      · simp [neural_tensor_create, neural_tensor_create_loop, List.range_succ, hd]

theorem activation_landscape_spread_spec_witness :
    ∃ l : activation_landscape_t ℚ,
      activation_landscape_spread (α := ℚ)
          (some
            { activations := { data := [1, 2], shape := [2], n_dims := 1, total_size := 2 }
              thresholds := [0.5, 0.5]
              n_nodes := 2 })
          (some { data := [1, 2, 3, 4], shape := [2, 2], n_dims := 2, total_size := 4 })
          (1 / 2) =
        some l ∧
      l.thresholds = ([0.5, 0.5] : List ℚ) ∧ l.n_nodes = 2 ∧ l.activations.shape = [2] ∧
      l.activations.total_size = 2 ∧ l.activations.data.length = 2 ∧
      ∀ i, i < 2 →
        l.activations.data.getD i 0 =
          1 / 2 *
            ∑ j in Finset.range 2,
              ([1, 2] : List ℚ).getD j 0 * ([1, 2, 3, 4] : List ℚ).getD (j * 2 + i) 0 :=
  (activation_landscape_spread_spec (α := ℚ)).1
    { activations := { data := [1, 2], shape := [2], n_dims := 1, total_size := 2 }
      thresholds := [0.5, 0.5]
      n_nodes := 2 }
    { data := [1, 2, 3, 4], shape := [2, 2], n_dims := 2, total_size := 4 }
    (1 / 2)
    (by simp [WellFormed, SIZE_MOD]) rfl (by simp [WellFormed, SIZE_MOD]) rfl

/-! ### `attention_compute` -/

/-- Claim C20, evaluated at a failing input. For `Q = K = V` of shape `[2,3]`, whatever the
libm functions and the attention state, `attention_compute` returns no tensor: the scores
are formed as `neural_matmul(Q, K)` without transposing `K`, and `Q.shape[1] = 3` differs
from `K.shape[0] = 2`. -/
theorem attention_compute_rectangular (m : libm α) (state : attention_state_t α) :
    attention_compute m (some state)
        (some { data := [1, 2, 3, 4, 5, 6], shape := [2, 3], n_dims := 2, total_size := 6 })
        (some { data := [1, 2, 3, 4, 5, 6], shape := [2, 3], n_dims := 2, total_size := 6 })
        (some { data := [1, 2, 3, 4, 5, 6], shape := [2, 3], n_dims := 2, total_size := 6 }) =
      none := by
  simp [attention_compute, neural_matmul]

end SpreadAndAttention

section ExistentialLemmas

variable {α : Type} [LinearOrderedField α]

/-! ### `existential_plane_update` -/

theorem foldl_add_nonneg (f : Nat → α) (n : Nat) (h : ∀ i, 0 ≤ f i) :
    0 ≤ (List.range n).foldl (fun sum l => sum + f l) 0 := by
  rw [foldl_add_range]
  exact Finset.sum_nonneg (fun i _ => h i)

theorem foldl_add_le (f : Nat → α) (n : Nat) (h : ∀ i, f i ≤ 1) :
    (List.range n).foldl (fun sum l => sum + f l) 0 ≤ (n : α) := by
  rw [foldl_add_range]
  calc ∑ l in Finset.range n, f l ≤ ∑ _l in Finset.range n, (1 : α) :=
        Finset.sum_le_sum (fun i _ => h i)
    _ = (n : α) := by simp

theorem convergence_sum_bounds (m : libm α)
    (hexp : ∀ x, x ≤ 0 → 0 ≤ m.expf x ∧ m.expf x ≤ 1) (l g : List α) (n : Nat) :
    0 ≤ (List.range n).foldl
        (fun convergence_sum i =>
          let diff : α := l.getD i 0 - g.getD i 0
          convergence_sum + m.expf (-diff * diff))
        0 ∧
      (List.range n).foldl
        (fun convergence_sum i =>
          let diff : α := l.getD i 0 - g.getD i 0
          convergence_sum + m.expf (-diff * diff))
        0 ≤ (n : α) := by
  have hneg : ∀ i, -(l.getD i 0 - g.getD i 0) * (l.getD i 0 - g.getD i 0) ≤ 0 := by
    intro i
    rw [neg_mul]
    exact neg_nonpos.mpr (mul_self_nonneg _)
  exact ⟨foldl_add_nonneg
      (fun i => m.expf (-(l.getD i 0 - g.getD i 0) * (l.getD i 0 - g.getD i 0))) n
      (fun i => (hexp _ (hneg i)).1),
    foldl_add_le
      (fun i => m.expf (-(l.getD i 0 - g.getD i 0) * (l.getD i 0 - g.getD i 0))) n
      (fun i => (hexp _ (hneg i)).2)⟩

/-- Claim C16. Both in the plane returned by `existential_plane_create` and in the plane
returned by `existential_plane_update`, `operational_closure` is true exactly when
`self_reference_degree > 0.7`, and `self_reference_degree` equals `image_convergence`. -/
theorem existential_closure_spec :
    (∀ (model_size : Nat) (rng : Nat → α),
      ∃ p : existential_plane_t α, (existential_plane_create model_size rng).1 = some p ∧
        (p.operational_closure = true ↔ p.self_reference_degree > 0.7) ∧
        p.self_reference_degree = p.image_convergence) ∧
    (∀ (m : libm α) (plane : existential_plane_t α) (dt : α),
      ∃ p : existential_plane_t α, existential_plane_update m (some plane) dt = some p ∧
        (p.operational_closure = true ↔ p.self_reference_degree > 0.7) ∧
        p.self_reference_degree = p.image_convergence) := by
  constructor
  · intro model_size rng
    refine ⟨_, rfl, ?_, rfl⟩
    show (false = true ↔ (0 : α) > 0.7)
    norm_num
  · intro m plane dt
    refine ⟨_, rfl, ?_, rfl⟩
    exact decide_eq_true_iff

end ExistentialLemmas

section SystemInvariants

variable {α : Type} [LinearOrderedField α]

/-! ### `cybernetic_system_create` -/

theorem cycle_create_fst (type : cycle_type_t) (state_size : Nat) (rng : Nat → α) :
    ∃ c : cycle_state_t α, (cycle_create type state_size rng).1 = some c ∧ c.type = type ∧
      c.activity_level = 0.5 ∧ c.is_active = true :=
  ⟨_, rfl, rfl, rfl, rfl⟩

theorem create_cycles_loop (system_size : Nat) (k : Nat) (rng : Nat → α) :
    ∃ cycles : List (cycle_state_t α),
      ((List.range k).foldl
        (fun (st : Option (List (cycle_state_t α)) × (Nat → α)) i =>
          match st.1 with
          | none => st
          | some cycles =>
            let c := cycle_create (((i : Nat) : Int) + 1) system_size st.2
            match c.1 with
            | none => (none, c.2)
            | some cycle => (some (cycles ++ [cycle]), c.2))
        (some [], rng)).1 = some cycles := by
  induction k with
  | zero => exact ⟨[], rfl⟩
  | succ k ih =>
    obtain ⟨cycles, h⟩ := ih
    rw [List.range_succ, List.foldl_append]
    simp only [List.foldl_cons, List.foldl_nil, h]
    exact ⟨_, rfl⟩

theorem system_create_fst (n_nodes system_size : Nat) (rng : Nat → α) :
    ∃ sys : cybernetic_system_t α,
      (cybernetic_system_create n_nodes system_size rng).1 = some sys ∧
      sys.viability = 0.5 ∧ sys.timestep = 0 ∧ sys.evolution_rate = 1 ∧
      sys.is_self_organizing = false := by
  obtain ⟨p, hp⟩ : ∃ p, (physical_plane_create n_nodes rng).1 = some p := ⟨_, rfl⟩
  obtain ⟨i, hi⟩ : ∃ i, (information_plane_create n_nodes
      (physical_plane_create n_nodes rng).2).1 = some i := ⟨_, rfl⟩
  obtain ⟨e, he⟩ : ∃ e, (existential_plane_create system_size
      (information_plane_create n_nodes (physical_plane_create n_nodes rng).2).2).1 =
        some e := ⟨_, rfl⟩
  obtain ⟨cycles, h⟩ := create_cycles_loop (α := α) system_size 6
    (existential_plane_create system_size
      (information_plane_create n_nodes (physical_plane_create n_nodes rng).2).2).2
  unfold cybernetic_system_create
  simp only [hp, hi, he, h, spiral_create]
  exact ⟨_, rfl, rfl, rfl, rfl, rfl⟩

/-! ### `cybernetic_system_step` -/

theorem system_step_timestep (m : libm α) (sys : cybernetic_system_t α) (dt : α)
    (rng : Nat → α) :
    ∃ sys' : cybernetic_system_t α,
      (cybernetic_system_step m (some sys) dt rng).1 = some sys' ∧
      sys'.timestep = (sys.timestep + 1) % SIZE_MOD :=
  ⟨_, rfl, rfl⟩

theorem system_intervene_frame (sys : cybernetic_system_t α) (point : leverage_point_t)
    (magnitude : α) :
    ∃ sys' : cybernetic_system_t α,
      cybernetic_system_intervene (some sys) point magnitude = some sys' ∧
      sys'.viability = sys.viability ∧ sys'.timestep = sys.timestep := by
  unfold cybernetic_system_intervene
  simp only
  split_ifs <;> exact ⟨_, rfl, rfl, rfl⟩

theorem system_self_organize_frame (sys : cybernetic_system_t α) :
    ∃ sys' : cybernetic_system_t α,
      cybernetic_system_self_organize (some sys) = some sys' ∧
      sys'.viability = sys.viability ∧ sys'.timestep = sys.timestep :=
  ⟨_, rfl, rfl, rfl⟩

/-! ### Reachable system states -/

theorem pair_eq_of_fst {β γ : Type} (x : Option β × γ) (b : β) (h : x.1 = some b) :
    x = (some b, x.2) := by
  cases x with
  | mk x1 x2 => simp only at h; rw [h]

theorem system_call_apply_step (m : libm α) (st : Option (cybernetic_system_t α) × (Nat → α))
    (dt : α) :
    system_call_apply m st (system_call.step dt) = cybernetic_system_step m st.1 dt st.2 :=
  rfl

theorem system_call_apply_intervene (m : libm α)
    (st : Option (cybernetic_system_t α) × (Nat → α)) (point : leverage_point_t)
    (magnitude : α) :
    system_call_apply m st (system_call.intervene point magnitude) =
      (cybernetic_system_intervene st.1 point magnitude, st.2) :=
  rfl

theorem system_call_apply_self_organize (m : libm α)
    (st : Option (cybernetic_system_t α) × (Nat → α)) :
    system_call_apply m st system_call.self_organize =
      (cybernetic_system_self_organize st.1, st.2) :=
  rfl

theorem system_run_timestep (m : libm α) (dts : List α) :
    ∀ (sys : cybernetic_system_t α) (rng : Nat → α), sys.timestep < SIZE_MOD →
      ∃ sys' : cybernetic_system_t α,
        (system_run m (some sys, rng) (dts.map system_call.step)).1 = some sys' ∧
        sys'.timestep = (sys.timestep + dts.length) % SIZE_MOD := by
  induction dts with
  | nil =>
    intro sys rng hlt
    exact ⟨sys, rfl, (Nat.mod_eq_of_lt hlt).symm⟩
  | cons dt dts ih =>
    intro sys rng _
    unfold system_run at ih ⊢
    rw [List.map_cons, List.foldl_cons]
    obtain ⟨sys', e, a⟩ := system_step_timestep m sys dt rng
    rw [system_call_apply_step, pair_eq_of_fst _ _ e]
    have hlt' : sys'.timestep < SIZE_MOD := by
      rw [a]
      exact Nat.mod_lt _ (by norm_num [SIZE_MOD])
    obtain ⟨sys'', e2, a2⟩ := ih sys' (cybernetic_system_step m (some sys) dt rng).2 hlt'
    refine ⟨sys'', e2, ?_⟩
    rw [a2, a, List.length_cons, Nat.add_mod, Nat.mod_mod, ← Nat.add_mod]
    congr 1
    omega

/-- Claim C14, amended. Every call of `cybernetic_system_step` on a present system increments
`timestep`, whatever `dt` and `evolution_rate`: the new value is `timestep + 1` reduced
modulo `2^64` (the counter is a `size_t`), which is `timestep + 1` unless the counter was at
its maximum. A system returned by `cybernetic_system_create` has `timestep = k mod 2^64`
after `k` steps, hence `timestep = k` for every `k < 2^64`, and `20` after 20 calls of
`step(0.1)` on a system created with `n_nodes = 10` and `system_size = 20`. -/
theorem system_timestep_spec (m : libm α) :
    (∀ (sys : cybernetic_system_t α) (dt : α) (rng : Nat → α),
      ∃ sys' : cybernetic_system_t α,
        (cybernetic_system_step m (some sys) dt rng).1 = some sys' ∧
        sys'.timestep = (sys.timestep + 1) % SIZE_MOD ∧
        (sys.timestep + 1 < SIZE_MOD → sys'.timestep = sys.timestep + 1)) ∧
    (∀ (n_nodes system_size : Nat) (rng : Nat → α) (dts : List α),
      ∃ sys : cybernetic_system_t α,
        (system_run m (cybernetic_system_create n_nodes system_size rng)
          (dts.map system_call.step)).1 = some sys ∧
        sys.timestep = dts.length % SIZE_MOD ∧
        (dts.length < SIZE_MOD → sys.timestep = dts.length)) ∧
    (∀ rng : Nat → α,
      ∃ sys : cybernetic_system_t α,
        (system_run m (cybernetic_system_create 10 20 rng)
          ((List.replicate 20 (0.1 : α)).map system_call.step)).1 = some sys ∧
        sys.timestep = 20) := by
  have key : ∀ (n_nodes system_size : Nat) (rng : Nat → α) (dts : List α),
      ∃ sys : cybernetic_system_t α,
        (system_run m (cybernetic_system_create n_nodes system_size rng)
          (dts.map system_call.step)).1 = some sys ∧
        sys.timestep = dts.length % SIZE_MOD ∧
        (dts.length < SIZE_MOD → sys.timestep = dts.length) := by
    intro n_nodes system_size rng dts
    obtain ⟨sys0, e, -, ht, -⟩ := system_create_fst (α := α) n_nodes system_size rng
    rw [pair_eq_of_fst _ _ e]
    obtain ⟨sys, e2, a⟩ := system_run_timestep m dts sys0
      (cybernetic_system_create n_nodes system_size rng).2
      (by rw [ht]; norm_num [SIZE_MOD])
    rw [ht, Nat.zero_add] at a
    exact ⟨sys, e2, a, fun hlt => by rw [a, Nat.mod_eq_of_lt hlt]⟩
  refine ⟨?_, key, ?_⟩
  · intro sys dt rng
    obtain ⟨sys', e, a⟩ := system_step_timestep m sys dt rng
    exact ⟨sys', e, a, fun hlt => by rw [a, Nat.mod_eq_of_lt hlt]⟩
  · intro rng
    obtain ⟨sys, e, -, a⟩ := key 10 20 rng (List.replicate 20 (0.1 : α))
    refine ⟨sys, e, ?_⟩
    rw [a (by rw [List.length_replicate]; norm_num [SIZE_MOD]), List.length_replicate]

end SystemInvariants

section SystemInstances

variable {α : Type} [LinearOrderedField α]

/-! ### Instances at concrete inputs, second part -/

/-- Claim C14, as stated, is refuted. For a system whose `size_t` counter is at its
maximum, `timestep = 2^64 - 1`, one call `cybernetic_system_step(system, 0.1)` leaves
`timestep = 0`, not `timestep + 1 = 2^64`. -/
theorem system_timestep_counterexample :
    ∃ sys : cybernetic_system_t ℚ,
      (cybernetic_system_step libm_rat
        (some { system_rat with timestep := 18446744073709551615 }) 0.1 (fun _ => 0)).1 =
          some sys ∧
      sys.timestep = 0 ∧ sys.timestep ≠ 18446744073709551615 + 1 := by
  obtain ⟨sys, e, a⟩ := system_step_timestep libm_rat
    { system_rat with timestep := 18446744073709551615 } 0.1 (fun _ => 0)
  have h0 : sys.timestep = 0 := by
    rw [a]
    norm_num [SIZE_MOD]
  refine ⟨sys, e, h0, ?_⟩
  rw [h0]
  norm_num

theorem system_timestep_spec_witness :
    ([0.1, 0.2, 0.3] : List ℚ).length < SIZE_MOD ∧
      ∃ sys : cybernetic_system_t ℚ,
        (system_run libm_rat (cybernetic_system_create 10 20 (fun _ => 1 / 2))
          (([0.1, 0.2, 0.3] : List ℚ).map system_call.step)).1 = some sys ∧
        sys.timestep = ([0.1, 0.2, 0.3] : List ℚ).length :=
  have h : ([0.1, 0.2, 0.3] : List ℚ).length < SIZE_MOD := by norm_num [SIZE_MOD]
  ⟨h, by
    obtain ⟨sys, e, -, a⟩ :=
      (system_timestep_spec libm_rat).2.1 10 20 (fun _ => 1 / 2) [0.1, 0.2, 0.3]
    exact ⟨sys, e, a h⟩⟩

theorem libm_rat_expf_bounds : ∀ x : ℚ, x ≤ 0 → 0 ≤ libm_rat.expf x ∧ libm_rat.expf x ≤ 1 := by
  intro x _
  show 0 ≤ 1 / (1 + x * x) ∧ 1 / (1 + x * x) ≤ 1
  have h : 0 < 1 + x * x := by nlinarith [mul_self_nonneg x]
  exact ⟨le_of_lt (div_pos one_pos h), (div_le_one h).mpr (by nlinarith [mul_self_nonneg x])⟩

theorem libm_rat_tanhf_bounds : ∀ x : ℚ, -1 ≤ libm_rat.tanhf x ∧ libm_rat.tanhf x ≤ 1 := by
  intro x
  show -1 ≤ x / (1 + |x|) ∧ x / (1 + |x|) ≤ 1
  have h : 0 < 1 + |x| := by linarith [abs_nonneg x]
  constructor
  · rw [le_div_iff₀ h]
    linarith [neg_abs_le x]
  · rw [div_le_one h]
    linarith [le_abs_self x]

theorem libm_rat_tanhf_nonneg : ∀ x : ℚ, 0 ≤ x → 0 ≤ libm_rat.tanhf x := by
  intro x hx
  show 0 ≤ x / (1 + |x|)
  exact div_nonneg hx (by linarith [abs_nonneg x])

end SystemInstances

section Intervene

variable {α : Type} [LinearOrderedField α]

/-! ### `cybernetic_system_intervene` -/

theorem add_loop_eq_map (d : List α) (c : α) :
    (List.range d.length).foldl (fun d i => d.set i (d.getD i 0 + c)) d =
      d.map (fun e => e + c) := by
  apply List.ext_getElem
  · rw [set_loop_length (fun i => i) (fun i d => d.getD i 0 + c), List.length_map]
  · intro i h1 h2
    have hi : i < d.length := by simpa using h2
    have h := map_loop_getD (fun _ v => v + c) d.length d i hi hi
    rw [List.getD_eq_getElem?_getD, List.getElem?_eq_getElem h1, Option.getD_some,
      List.getD_eq_getElem?_getD, List.getElem?_eq_getElem hi, Option.getD_some] at h
    rw [h, List.getElem_map]

/-- Claim C21. On a system whose state vectors hold as many elements as their planes
count, `cybernetic_system_intervene` with a leverage point `1..3` adds `0.1 * magnitude` to
every element of `physical.energy_state`, with a point `4..7` adds `0.2 * magnitude` to every
element of `information.information_flow`, and with a point `8..12` adds `0.5 * magnitude`
to every element of `existential.identity_state`; all other fields of the touched plane, the
other two planes, the cycles, the spiral, `viability` and `timestep` are unchanged. -/
theorem system_intervene_spec (sys : cybernetic_system_t α) (point : Int) (magnitude : α) :
    (1 ≤ point ∧ point ≤ 3 →
      sys.physical.energy_state.data.length = sys.physical.n_components →
      cybernetic_system_intervene (some sys) point magnitude =
        some { sys with
          physical := { sys.physical with
            energy_state := { sys.physical.energy_state with
              data := sys.physical.energy_state.data.map (fun e => e + 0.1 * magnitude) } } }) ∧
    (4 ≤ point ∧ point ≤ 7 →
      sys.information.information_flow.data.length = sys.information.n_relations →
      cybernetic_system_intervene (some sys) point magnitude =
        some { sys with
          information := { sys.information with
            information_flow := { sys.information.information_flow with
              data :=
                sys.information.information_flow.data.map (fun e => e + 0.2 * magnitude) } } }) ∧
    (8 ≤ point ∧ point ≤ 12 →
      sys.existential.identity_state.data.length = sys.existential.identity_state.total_size →
      ∃ sys' : cybernetic_system_t α,
        cybernetic_system_intervene (some sys) point magnitude = some sys' ∧
        sys'.existential =
          { sys.existential with
            identity_state := { sys.existential.identity_state with
              data :=
                sys.existential.identity_state.data.map (fun e => e + 0.5 * magnitude) } } ∧
        sys'.physical = sys.physical ∧ sys'.information = sys.information ∧
        sys'.cycles = sys.cycles ∧ sys'.spiral = sys.spiral ∧
        sys'.viability = sys.viability ∧ sys'.complexity_level = sys.complexity_level ∧
        sys'.timestep = sys.timestep ∧ sys'.evolution_rate = sys.evolution_rate) := by
  refine ⟨?_, ?_, ?_⟩
  · rintro ⟨h1, h2⟩ hlen
    have hc : LEVERAGE_CONSTANTS ≤ point ∧ point ≤ LEVERAGE_FLOWS := ⟨h1, h2⟩
    unfold cybernetic_system_intervene
    simp only [ge_iff_le, hc, and_self, if_true]
    rw [← hlen, add_loop_eq_map, mul_comm]
  · rintro ⟨h1, h2⟩ hlen
    have hc : ¬ (LEVERAGE_CONSTANTS ≤ point ∧ point ≤ LEVERAGE_FLOWS) := by
      rintro ⟨-, h3⟩
      have h3 : point ≤ 3 := h3
      omega
    have hc2 : LEVERAGE_NEGATIVE_FEEDBACK ≤ point ∧ point ≤ LEVERAGE_RULES := ⟨h1, h2⟩
    unfold cybernetic_system_intervene
    simp only [ge_iff_le, hc, hc2, and_self, if_true, if_false]
    rw [← hlen, add_loop_eq_map, mul_comm]
  · rintro ⟨h1, h2⟩ hlen
    have hc : ¬ (LEVERAGE_CONSTANTS ≤ point ∧ point ≤ LEVERAGE_FLOWS) := by
      rintro ⟨-, h3⟩
      have h3 : point ≤ 3 := h3
      omega
    have hc2 : ¬ (LEVERAGE_NEGATIVE_FEEDBACK ≤ point ∧ point ≤ LEVERAGE_RULES) := by
      rintro ⟨-, h3⟩
      have h3 : point ≤ 7 := h3
      omega
    unfold cybernetic_system_intervene
    simp only [ge_iff_le, hc, hc2, if_false]
    rw [← hlen, add_loop_eq_map, mul_comm]
    split_ifs <;> exact ⟨_, rfl, rfl, rfl, rfl, rfl, rfl, rfl, rfl, rfl, rfl⟩

/-- Claim C22. `cybernetic_system_intervene` with a leverage point at or above
`LEVERAGE_PARADIGMS` (10) returns a system with `is_self_organizing = true`, whatever the
previous flag and the magnitude; with a leverage point `1..9` it leaves the flag as it
was. -/
theorem system_intervene_flag (sys : cybernetic_system_t α) (point : Int) (magnitude : α) :
    (LEVERAGE_PARADIGMS ≤ point →
      ∃ sys' : cybernetic_system_t α,
        cybernetic_system_intervene (some sys) point magnitude = some sys' ∧
        sys'.is_self_organizing = true) ∧
    (1 ≤ point ∧ point ≤ 9 →
      ∃ sys' : cybernetic_system_t α,
        cybernetic_system_intervene (some sys) point magnitude = some sys' ∧
        sys'.is_self_organizing = sys.is_self_organizing) := by
  refine ⟨?_, ?_⟩
  · intro h
    have h : (10 : Int) ≤ point := h
    have hc : ¬ (LEVERAGE_CONSTANTS ≤ point ∧ point ≤ LEVERAGE_FLOWS) := by
      rintro ⟨-, h3⟩
      have h3 : point ≤ 3 := h3
      omega
    have hc2 : ¬ (LEVERAGE_NEGATIVE_FEEDBACK ≤ point ∧ point ≤ LEVERAGE_RULES) := by
      rintro ⟨-, h3⟩
      have h3 : point ≤ 7 := h3
      omega
    have hc3 : LEVERAGE_PARADIGMS ≤ point := h
    unfold cybernetic_system_intervene
    simp only [ge_iff_le, hc, hc2, hc3, if_false, if_true]
    exact ⟨_, rfl, rfl⟩
  · rintro ⟨h1, h2⟩
    have hc3 : ¬ (LEVERAGE_PARADIGMS ≤ point) := by
      intro h3
      have h3 : (10 : Int) ≤ point := h3
      omega
    unfold cybernetic_system_intervene
    simp only [ge_iff_le, hc3, if_false]
    split_ifs <;> exact ⟨_, rfl, rfl⟩

end Intervene

section CycleTypes

variable {α : Type} [LinearOrderedField α]

/-! ### Cycles -/

/-- Claim C23. For a cycle with `is_active = false` and every `dt`, `cycle_update` returns the
cycle unchanged (state tensor, `activity_level`, `stability`, `type`, `is_active`) and draws
no random value. -/
theorem cycle_update_inactive (m : libm α) (cycle : cycle_state_t α) (dt : α) (rng : Nat → α)
    (h : cycle.is_active = false) :
    cycle_update m (some cycle) dt rng = (some cycle, rng) := by
  unfold cycle_update
  simp [h]

theorem create_cycles_loop_types (system_size : Nat) (k : Nat) (rng : Nat → α) :
    ∃ cycles : List (cycle_state_t α),
      ((List.range k).foldl
        (fun (st : Option (List (cycle_state_t α)) × (Nat → α)) i =>
          match st.1 with
          | none => st
          | some cycles =>
            let c := cycle_create (((i : Nat) : Int) + 1) system_size st.2
            match c.1 with
            | none => (none, c.2)
            | some cycle => (some (cycles ++ [cycle]), c.2))
        (some [], rng)).1 = some cycles ∧
      cycles.map (fun c => c.type) = (List.range k).map (fun i => ((i : Nat) : Int) + 1) := by
  induction k with
  | zero => exact ⟨[], rfl, rfl⟩
  | succ k ih =>
    obtain ⟨cycles, h, ht⟩ := ih
    rw [List.range_succ, List.foldl_append]
    simp only [List.foldl_cons, List.foldl_nil, h]
    refine ⟨_, rfl, ?_⟩
    rw [List.map_append, List.map_append, ht]
    rfl

theorem system_create_spec (n_nodes system_size : Nat) (rng : Nat → α) :
    ∃ sys : cybernetic_system_t α,
      (cybernetic_system_create n_nodes system_size rng).1 = some sys ∧
      sys.cycles.map (fun c => c.type) = [1, 2, 3, 4, 5, 6] ∧
      sys.spiral =
        { current_phase := PHASE_ENTROPIC_DRIFT, phase_completion := 0, cycle_count := 0,
          ascending := true } ∧
      sys.viability = 0.5 ∧ sys.evolution_rate = 1 := by
  obtain ⟨p, hp⟩ : ∃ p, (physical_plane_create n_nodes rng).1 = some p := ⟨_, rfl⟩
  obtain ⟨i, hi⟩ : ∃ i, (information_plane_create n_nodes
      (physical_plane_create n_nodes rng).2).1 = some i := ⟨_, rfl⟩
  obtain ⟨e, he⟩ : ∃ e, (existential_plane_create system_size
      (information_plane_create n_nodes (physical_plane_create n_nodes rng).2).2).1 =
        some e := ⟨_, rfl⟩
  obtain ⟨cycles, h, ht⟩ := create_cycles_loop_types (α := α) system_size 6
    (existential_plane_create system_size
      (information_plane_create n_nodes (physical_plane_create n_nodes rng).2).2).2
  unfold cybernetic_system_create
  simp only [hp, hi, he, spiral_create]
  split
  · rename_i cycles' spiral' h1 h2
    have hc : some cycles' = some cycles := h1.symm.trans h
    have hc' : cycles' = cycles := Option.some.inj hc
    have hs : spiral' = _ := (Option.some.inj h2).symm
    subst hc' hs
    exact ⟨_, rfl, ht, rfl, rfl, rfl⟩
  · rename_i h1
    exact absurd rfl (h1 cycles _ h)

/-- Claim C24. Among the cycle types `1..6`, `cycle_is_stabilizing` holds exactly for `1`, `3`
and `5` and `cycle_is_creative` exactly for `2`, `4` and `6`, and `cycle_is_creative` is
always the negation of `cycle_is_stabilizing`; a system returned by
`cybernetic_system_create` has six cycles of the types `1, 2, 3, 4, 5, 6` in this order,
three of them stabilizing and three creative. -/
theorem cycle_types_spec :
    (cycle_is_stabilizing CYCLE_VORTICES = true ∧
      cycle_is_stabilizing CYCLE_MORPHOGENESIS = false ∧
      cycle_is_stabilizing CYCLE_HOMEOSTASIS = true ∧
      cycle_is_stabilizing CYCLE_AUTOPOIESIS = false ∧
      cycle_is_stabilizing CYCLE_SELF_REFERENCE = true ∧
      cycle_is_stabilizing CYCLE_AUTOGENESIS = false) ∧
    (cycle_is_creative CYCLE_VORTICES = false ∧
      cycle_is_creative CYCLE_MORPHOGENESIS = true ∧
      cycle_is_creative CYCLE_HOMEOSTASIS = false ∧
      cycle_is_creative CYCLE_AUTOPOIESIS = true ∧
      cycle_is_creative CYCLE_SELF_REFERENCE = false ∧
      cycle_is_creative CYCLE_AUTOGENESIS = true) ∧
    (∀ type : cycle_type_t, cycle_is_creative type = !cycle_is_stabilizing type) ∧
    (∀ (n_nodes system_size : Nat) (rng : Nat → α),
      ∃ sys : cybernetic_system_t α,
        (cybernetic_system_create n_nodes system_size rng).1 = some sys ∧
        sys.cycles.map (fun c => c.type) =
          [CYCLE_VORTICES, CYCLE_MORPHOGENESIS, CYCLE_HOMEOSTASIS, CYCLE_AUTOPOIESIS,
            CYCLE_SELF_REFERENCE, CYCLE_AUTOGENESIS] ∧
        (∀ i, i < 6 → (sys.cycles[i]?).map (fun c => c.type) = some (((i : Nat) : Int) + 1)) ∧
        (sys.cycles.filter (fun c => cycle_is_stabilizing c.type)).length = 3 ∧
        (sys.cycles.filter (fun c => cycle_is_creative c.type)).length = 3) := by
  refine ⟨by decide, by decide, fun _ => rfl, ?_⟩
  intro n_nodes system_size rng
  obtain ⟨sys, e, ht, -⟩ := system_create_spec (α := α) n_nodes system_size rng
  refine ⟨sys, e, ht, ?_, ?_, ?_⟩
  · intro i hi
    have h := congrArg (fun l => l[i]?) ht
    simp only [List.getElem?_map] at h
    rw [h]
    interval_cases i <;> rfl
  · rw [← List.countP_eq_length_filter]
    have h := List.countP_map (fun t => cycle_is_stabilizing t) (fun c : cycle_state_t α => c.type)
      sys.cycles
    rw [ht] at h
    rw [show (fun c : cycle_state_t α => cycle_is_stabilizing c.type) =
      (fun t => cycle_is_stabilizing t) ∘ (fun c : cycle_state_t α => c.type) from rfl, ← h]
    decide
  · rw [← List.countP_eq_length_filter]
    have h := List.countP_map (fun t => cycle_is_creative t) (fun c : cycle_state_t α => c.type)
      sys.cycles
    rw [ht] at h
    rw [show (fun c : cycle_state_t α => cycle_is_creative c.type) =
      (fun t => cycle_is_creative t) ∘ (fun c : cycle_state_t α => c.type) from rfl, ← h]
    decide

end CycleTypes

section Viability

variable {α : Type} [LinearOrderedField α]

/-! ### `cybernetic_system_calculate_viability` -/

theorem range_fold_take {β σ : Type} (l : List β) (g : σ → Nat → σ) (f : σ → β → σ)
    (hg : ∀ st i c, l[i]? = some c → g st i = f st c) (init : σ) (k : Nat)
    (hk : k ≤ l.length) :
    (List.range k).foldl g init = (l.take k).foldl f init := by
  induction k with
  | zero => simp
  | succ k ih =>
    have hlt : k < l.length := hk
    rw [List.range_succ, List.foldl_append, ih (Nat.le_of_lt hlt), List.take_succ,
      List.foldl_append, List.getElem?_eq_getElem hlt]
    simp only [List.foldl_cons, List.foldl_nil, Option.toList]
    exact hg _ k _ (List.getElem?_eq_getElem hlt)

theorem range_fold_eq_list_fold {β σ : Type} (l : List β) (g : σ → Nat → σ) (f : σ → β → σ)
    (hg : ∀ st i c, l[i]? = some c → g st i = f st c) (init : σ) :
    (List.range l.length).foldl g init = l.foldl f init := by
  rw [range_fold_take l g f hg init l.length (Nat.le_refl _), List.take_length]

theorem activity_fold (l : List (cycle_state_t α)) (s c : α) :
    l.foldl
        (fun (st : α × α) cycle =>
          if cycle_is_stabilizing cycle.type then (st.1 + cycle.activity_level, st.2)
          else (st.1, st.2 + cycle.activity_level))
        (s, c) =
      (s + ((l.filter (fun cy => cycle_is_stabilizing cy.type)).map
              (fun cy => cy.activity_level)).sum,
        c + ((l.filter (fun cy => cycle_is_creative cy.type)).map
              (fun cy => cy.activity_level)).sum) := by
  induction l generalizing s c with
  | nil => simp
  | cons a l ih =>
    rw [List.foldl_cons]
    by_cases h : cycle_is_stabilizing a.type = true
    · have h2 : cycle_is_creative a.type = false := by simp [cycle_is_creative, h]
      rw [if_pos h, ih]
      simp [List.filter_cons, h, h2, add_assoc]
    · have h1 : cycle_is_stabilizing a.type = false := by simpa using h
      have h2 : cycle_is_creative a.type = true := by simp [cycle_is_creative, h1]
      rw [if_neg h, ih]
      simp [List.filter_cons, h1, h2, add_assoc]

/-- Claim C25. For a system with its six cycles, `cybernetic_system_calculate_viability`
returns `0.2*(1 - entropy_level) + 0.3*tanhf(complexity/5) + 0.3*autonomy_level +
0.2*(1 - tanhf(|S - C|))`, where `S` is the sum of `activity_level` over the cycles of
stabilizing type and `C` the sum over the cycles of creative type. -/
theorem calculate_viability_spec (m : libm α) (sys : cybernetic_system_t α)
    (h6 : sys.cycles.length = 6) :
    cybernetic_system_calculate_viability m (some sys) =
      0.2 * (1 - sys.physical.entropy_level) +
        0.3 * m.tanhf (sys.information.complexity / 5) +
        0.3 * sys.existential.autonomy_level +
        0.2 * (1 - m.tanhf
          |((sys.cycles.filter (fun cy => cycle_is_stabilizing cy.type)).map
              (fun cy => cy.activity_level)).sum -
            ((sys.cycles.filter (fun cy => cycle_is_creative cy.type)).map
              (fun cy => cy.activity_level)).sum|) := by
  have hX : ∀ g : α × α → Nat → α × α,
      (∀ st i c, sys.cycles[i]? = some c →
        g st i =
          if cycle_is_stabilizing c.type then (st.1 + c.activity_level, st.2)
          else (st.1, st.2 + c.activity_level)) →
      (List.range 6).foldl g (0, 0) =
        (((sys.cycles.filter (fun cy => cycle_is_stabilizing cy.type)).map
              (fun cy => cy.activity_level)).sum,
          ((sys.cycles.filter (fun cy => cycle_is_creative cy.type)).map
              (fun cy => cy.activity_level)).sum) := by
    intro g hg
    rw [← h6, range_fold_eq_list_fold sys.cycles g _ hg, activity_fold, zero_add, zero_add]
  unfold cybernetic_system_calculate_viability
  simp only
  rw [hX]
  · ring
  · intro st i c h
    simp only [h]

end Viability

section StepFlags

variable {α : Type} [LinearOrderedField α]

/-! ### Flags and spiral progress in `cybernetic_system_step` -/

theorem system_step_shape (m : libm α) (sys : cybernetic_system_t α) (dt : α)
    (rng : Nat → α) :
    ∃ (CS : List (cycle_state_t α)) (V : α) (rng' : Nat → α),
      cybernetic_system_step m (some sys) dt rng =
        (some
          { physical :=
              (physical_plane_update m (some sys.physical) (dt * sys.evolution_rate)).getD
                sys.physical
            information :=
              (information_plane_update (some sys.information) (dt * sys.evolution_rate)).getD
                sys.information
            existential :=
              (existential_plane_update m (some sys.existential)
                (dt * sys.evolution_rate)).getD sys.existential
            cycles := CS
            spiral :=
              (spiral_advance (some sys.spiral)
                (dt * sys.evolution_rate * (sys.viability + 0.1))).getD sys.spiral
            viability := V
            complexity_level :=
              (((physical_plane_update m (some sys.physical) (dt * sys.evolution_rate)).getD
                    sys.physical).entropy_level +
                  ((information_plane_update (some sys.information)
                    (dt * sys.evolution_rate)).getD sys.information).complexity / 10 +
                ((existential_plane_update m (some sys.existential)
                  (dt * sys.evolution_rate)).getD sys.existential).autonomy_level) / 3
            is_self_organizing :=
              decide (V > 0.6) &&
                decide (((existential_plane_update m (some sys.existential)
                  (dt * sys.evolution_rate)).getD sys.existential).autonomy_level > 0.5)
            timestep := (sys.timestep + 1) % SIZE_MOD
            evolution_rate := sys.evolution_rate },
         rng') ∧
      V = cybernetic_system_calculate_viability m
        (some
          { sys with
            physical :=
              (physical_plane_update m (some sys.physical) (dt * sys.evolution_rate)).getD
                sys.physical
            information :=
              (information_plane_update (some sys.information) (dt * sys.evolution_rate)).getD
                sys.information
            existential :=
              (existential_plane_update m (some sys.existential)
                (dt * sys.evolution_rate)).getD sys.existential
            cycles := CS
            spiral :=
              (spiral_advance (some sys.spiral)
                (dt * sys.evolution_rate * (sys.viability + 0.1))).getD sys.spiral }) := by
  unfold cybernetic_system_step
  dsimp only
  exact ⟨_, _, _, rfl, rfl⟩

theorem calculate_viability_congr (m : libm α) (s t : cybernetic_system_t α)
    (h1 : s.physical = t.physical) (h2 : s.information = t.information)
    (h3 : s.existential = t.existential) (h4 : s.cycles = t.cycles) :
    cybernetic_system_calculate_viability m (some s) =
      cybernetic_system_calculate_viability m (some t) := by
  unfold cybernetic_system_calculate_viability
  simp only [h1, h2, h3, h4]

theorem system_step_flag_indep (m : libm α) (sys : cybernetic_system_t α) (dt : α)
    (rng : Nat → α) (flag : Bool) :
      cybernetic_system_step m (some { sys with is_self_organizing := flag }) dt rng =
        cybernetic_system_step m (some sys) dt rng := by
  unfold cybernetic_system_step cybernetic_system_calculate_viability
  dsimp only

theorem some_getD_of_eq {β : Type} (x : Option β) (d b : β) (h : x = some b) :
    some (x.getD d) = x := by
  rw [h]; rfl

theorem existential_update_some (m : libm α) (p : existential_plane_t α) (dt : α) :
    ∃ p' : existential_plane_t α, existential_plane_update m (some p) dt = some p' :=
  ⟨_, rfl⟩

theorem spiral_advance_some (s : spiral_state_t α) (progress : α) :
    ∃ s' : spiral_state_t α, spiral_advance (some s) progress = some s' := by
  unfold spiral_advance
  simp only
  split_ifs <;> exact ⟨_, rfl⟩

/-- Claim C26. The system returned by `cybernetic_system_step` has `is_self_organizing` true
exactly when its stored `viability` (the value of `cybernetic_system_calculate_viability`
on the updated planes and cycles) is `> 0.6` and the `autonomy_level` of its updated
existential plane is `> 0.5`; the whole result is the same whatever the flag was before the
step. -/
theorem system_step_flag (m : libm α) (sys : cybernetic_system_t α) (dt : α)
    (rng : Nat → α) :
    (∃ sys' : cybernetic_system_t α,
      (cybernetic_system_step m (some sys) dt rng).1 = some sys' ∧
      (sys'.is_self_organizing = true ↔
        sys'.viability > 0.6 ∧ sys'.existential.autonomy_level > 0.5) ∧
      sys'.viability = cybernetic_system_calculate_viability m (some sys') ∧
      some sys'.existential =
        existential_plane_update m (some sys.existential) (dt * sys.evolution_rate)) ∧
    (∀ flag : Bool,
      cybernetic_system_step m (some { sys with is_self_organizing := flag }) dt rng =
        cybernetic_system_step m (some sys) dt rng) := by
  refine ⟨?_, system_step_flag_indep m sys dt rng⟩
  obtain ⟨CS, V, rng', e, hV⟩ := system_step_shape m sys dt rng
  obtain ⟨p', hp'⟩ := existential_update_some m sys.existential (dt * sys.evolution_rate)
  rw [e]
  refine ⟨_, rfl, ?_, ?_, ?_⟩
  · dsimp only
    rw [Bool.and_eq_true, decide_eq_true_iff, decide_eq_true_iff]
  · dsimp only
    rw [hV]
    exact calculate_viability_congr m _ _ rfl rfl rfl rfl
  · dsimp only
    exact some_getD_of_eq _ _ _ hp'

/-- Claim C27. In `cybernetic_system_step(system, dt)` the spiral of the result is the spiral
of the argument after the single call
`spiral_advance(spiral, dt * evolution_rate * (viability + 0.1))` with the `viability` stored
before the step; on a system returned by `cybernetic_system_create` the first step with
`dt * 0.6 < 1` leaves `phase_completion = 0.6 * dt` in phase `0` with `cycle_count = 0`. -/
theorem system_step_spiral (m : libm α) :
    (∀ (sys : cybernetic_system_t α) (dt : α) (rng : Nat → α),
      ∃ sys' : cybernetic_system_t α,
        (cybernetic_system_step m (some sys) dt rng).1 = some sys' ∧
        some sys'.spiral =
          spiral_advance (some sys.spiral) (dt * sys.evolution_rate * (sys.viability + 0.1))) ∧
    (∀ (n_nodes system_size : Nat) (rng : Nat → α) (dt : α), dt * 0.6 < 1 →
      ∃ sys' : cybernetic_system_t α,
        (cybernetic_system_step m (cybernetic_system_create n_nodes system_size rng).1 dt
          (cybernetic_system_create n_nodes system_size rng).2).1 = some sys' ∧
        sys'.spiral =
          { current_phase := PHASE_ENTROPIC_DRIFT, phase_completion := 0.6 * dt,
            cycle_count := 0, ascending := true }) := by
  have key : ∀ (sys : cybernetic_system_t α) (dt : α) (rng : Nat → α),
      ∃ sys' : cybernetic_system_t α,
        (cybernetic_system_step m (some sys) dt rng).1 = some sys' ∧
        some sys'.spiral =
          spiral_advance (some sys.spiral)
            (dt * sys.evolution_rate * (sys.viability + 0.1)) := by
    intro sys dt rng
    obtain ⟨CS, V, rng', e, -⟩ := system_step_shape m sys dt rng
    obtain ⟨s', hs⟩ := spiral_advance_some sys.spiral
      (dt * sys.evolution_rate * (sys.viability + 0.1))
    rw [e]
    refine ⟨_, rfl, ?_⟩
    dsimp only
    exact some_getD_of_eq _ _ _ hs
  refine ⟨key, ?_⟩
  intro n_nodes system_size rng dt hdt
  obtain ⟨sys0, e, -, hsp, hv, hr⟩ := system_create_spec (α := α) n_nodes system_size rng
  obtain ⟨sys', e', hs'⟩ := key sys0 dt (cybernetic_system_create n_nodes system_size rng).2
  rw [e]
  refine ⟨sys', e', ?_⟩
  have hprog : dt * sys0.evolution_rate * (sys0.viability + 0.1) = 0.6 * dt := by
    rw [hv, hr]; norm_num; ring
  rw [hprog, hsp] at hs'
  have hlt : ¬ ((0.6 : α) * dt ≥ 1) := by
    rw [mul_comm]
    exact not_le.mpr hdt
  unfold spiral_advance at hs'
  simp only [hlt, if_false, zero_add] at hs'
  exact Option.some.inj hs'

end StepFlags

section PlaneUpdates

variable {α : Type} [LinearOrderedField α]

/-! ### `physical_plane_update` -/

/-- Claim C28. For a physical plane with `n ≥ 1` components whose energy buffer holds `n`
elements, `physical_plane_update` sets each `energy[i]` to `e_i + (mean - e_i) * dt * 0.1`,
with `mean` the average of the energies before the update, sets `entropy_level` to
`0.5 + 0.5 * tanhf(V / n - 1)` with `V` the sum of the squares `(energy[i] - mean)²` of the
new energies, and leaves `matter_structure`, `n_components` and the shape of the energy
tensor unchanged. -/
theorem physical_plane_update_spec (m : libm α) (plane : physical_plane_t α) (dt : α)
    (_hn : 1 ≤ plane.n_components)
    (hlen : plane.energy_state.data.length = plane.n_components) :
    ∃ p : physical_plane_t α, physical_plane_update m (some plane) dt = some p ∧
      p.matter_structure = plane.matter_structure ∧ p.n_components = plane.n_components ∧
      p.energy_state.shape = plane.energy_state.shape ∧
      p.energy_state.total_size = plane.energy_state.total_size ∧
      p.energy_state.data.length = plane.n_components ∧
      (∀ i, i < plane.n_components →
        p.energy_state.data.getD i 0 =
          plane.energy_state.data.getD i 0 +
            ((∑ j in Finset.range plane.n_components, plane.energy_state.data.getD j 0) /
                (plane.n_components : α) - plane.energy_state.data.getD i 0) * dt * 0.1) ∧
      p.entropy_level =
        0.5 + 0.5 * m.tanhf
          ((∑ i in Finset.range plane.n_components,
              (p.energy_state.data.getD i 0 -
                (∑ j in Finset.range plane.n_components, plane.energy_state.data.getD j 0) /
                  (plane.n_components : α)) ^ 2) /
            (plane.n_components : α) - 1) := by
  unfold physical_plane_update
  dsimp only
  refine ⟨_, rfl, rfl, rfl, rfl, rfl, ?_, ?_, ?_⟩
  · dsimp only
    rw [set_loop_length (fun i => i), hlen]
  · intro i hi
    dsimp only
    rw [map_loop_getD (fun _ v => v + (_ - v) * dt * 0.1) _ _ i hi (by rw [hlen]; exact hi),
      foldl_add_range]
  · dsimp only
    rw [foldl_add_range, foldl_add_range]
    simp only [sq]

/-! ### `information_plane_update` -/

theorem clamp_step (d : List α) (i : Nat) (x : α) :
    (if (if (d.set i x).getD i 0 > 1 then (d.set i x).set i 1 else d.set i x).getD i 0 < 0 then
        (if (d.set i x).getD i 0 > 1 then (d.set i x).set i 1 else d.set i x).set i 0
      else (if (d.set i x).getD i 0 > 1 then (d.set i x).set i 1 else d.set i x)) =
      d.set i (max 0 (min 1 x)) := by
  by_cases hi : i < d.length
  · rw [getD_set_self d i x hi]
    by_cases h1 : x > 1
    · rw [if_pos h1, List.set_set, getD_set_self d i 1 hi, if_neg (by norm_num),
        min_eq_left (le_of_lt h1), max_eq_right zero_le_one]
    · rw [if_neg h1, getD_set_self d i x hi, min_eq_right (not_lt.mp h1)]
      by_cases h0 : x < 0
      · rw [if_pos h0, List.set_set, max_eq_left (le_of_lt h0)]
      · rw [if_neg h0, max_eq_right (not_lt.mp h0)]
  · have hle : d.length ≤ i := not_lt.mp hi
    have hs : ∀ y : α, d.set i y = d := fun y => List.set_eq_of_length_le hle
    have hg : d.getD i 0 = 0 := by
      rw [List.getD_eq_getElem?_getD, List.getElem?_eq_none hle]; rfl
    simp only [hs, hg, gt_iff_lt, if_neg (not_lt.mpr (zero_le_one (α := α))), lt_irrefl,
      if_false]

theorem information_plane_update_eq (plane : information_plane_t α) (dt : α)
    (hnn : plane.n_relations * plane.n_relations < SIZE_MOD) :
    information_plane_update (some plane) dt =
      some { plane with
        information_flow := { plane.information_flow with
          data := (List.range plane.n_relations).foldl
            (fun d i =>
              d.set i
                (max 0 (min 1
                  (((List.range plane.n_relations).foldl
                    (fun nf i =>
                      nf.set i
                        (plane.information_flow.data.getD i 0 * (1 - dt) +
                          (∑ j in Finset.range plane.n_relations,
                            plane.connectivity.data.getD
                                ((j * plane.n_relations + i) % SIZE_MOD) 0 *
                              plane.information_flow.data.getD j 0) * dt))
                    (List.replicate plane.n_relations 0)).getD i 0))))
            plane.information_flow.data }
        complexity :=
          (∑ i in Finset.range (plane.n_relations * plane.n_relations),
            |plane.connectivity.data.getD i 0|) / (plane.n_relations : α) } := by
  unfold information_plane_update
  dsimp only
  simp only [clamp_step, foldl_add_range, Nat.mod_eq_of_lt hnn]

/-- Claim C30, as stated, is refuted. For the plane with `n = 2` relations and all four
connectivity entries equal to `1`, `information_plane_update` stores `complexity = 2`,
whereas the mean of `|connectivity[i,j]|` over the `n * n = 4` entries is `1`. -/
theorem information_complexity_counterexample :
    ∃ p : information_plane_t ℚ,
      information_plane_update (α := ℚ)
          (some
            { connectivity := { data := [1, 1, 1, 1], shape := [2, 2], n_dims := 2, total_size := 4 }
              information_flow := { data := [0.5, 0.5], shape := [2], n_dims := 1, total_size := 2 }
              complexity := 0
              n_relations := 2 })
          0.1 = some p ∧
      p.complexity = 2 ∧
      (∑ i in Finset.range (2 * 2), |([1, 1, 1, 1] : List ℚ).getD i 0|) / ((2 * 2 : Nat) : ℚ) = 1 ∧
      p.complexity ≠
        (∑ i in Finset.range (2 * 2), |([1, 1, 1, 1] : List ℚ).getD i 0|) / ((2 * 2 : Nat) : ℚ) := by
  have hsum : (∑ i in Finset.range (2 * 2), |([1, 1, 1, 1] : List ℚ).getD i 0|) = 4 := by
    simp [Finset.sum_range_succ]
    norm_num
  refine ⟨_, information_plane_update_eq (α := ℚ)
    { connectivity := { data := [1, 1, 1, 1], shape := [2, 2], n_dims := 2, total_size := 4 }
      information_flow := { data := [0.5, 0.5], shape := [2], n_dims := 1, total_size := 2 }
      complexity := 0
      n_relations := 2 } 0.1 (by norm_num [SIZE_MOD]), ?_, ?_, ?_⟩
  · dsimp only
    rw [hsum]; norm_num
  · rw [hsum]; norm_num
  · dsimp only
    rw [hsum]; norm_num

/-- Claim C30, amended. For an information plane with `n ≥ 1` relations whose `n * n` fits a
`size_t`, after `information_plane_update` the field `complexity` is the sum of
`|connectivity[i,j]|` over all `n * n` entries divided by `n`, that is `n` times the mean of
these entries. -/
theorem information_complexity_spec (plane : information_plane_t α) (dt : α)
    (hn : 1 ≤ plane.n_relations)
    (hnn : plane.n_relations * plane.n_relations < SIZE_MOD) :
    ∃ p : information_plane_t α, information_plane_update (some plane) dt = some p ∧
      p.complexity =
        (∑ i in Finset.range (plane.n_relations * plane.n_relations),
          |plane.connectivity.data.getD i 0|) / (plane.n_relations : α) ∧
      p.complexity =
        (plane.n_relations : α) *
          ((∑ i in Finset.range (plane.n_relations * plane.n_relations),
            |plane.connectivity.data.getD i 0|) /
              ((plane.n_relations * plane.n_relations : Nat) : α)) := by
  refine ⟨_, information_plane_update_eq plane dt hnn, rfl, ?_⟩
  dsimp only
  have hpos : (0 : α) < (plane.n_relations : α) := by exact_mod_cast hn
  rw [Nat.cast_mul]
  field_simp
  ring

end PlaneUpdates

section InstancesThird

variable {α : Type} [LinearOrderedField α]

/-! ### Instances at concrete inputs, third part -/

theorem system_intervene_spec_witness :
    cybernetic_system_intervene (some system_rat) 2 1 =
        some { system_rat with
          physical := { system_rat.physical with
            energy_state := { system_rat.physical.energy_state with
              data := system_rat.physical.energy_state.data.map (fun e => e + 0.1 * 1) } } } ∧
    cybernetic_system_intervene (some system_rat) 5 1 =
        some { system_rat with
          information := { system_rat.information with
            information_flow := { system_rat.information.information_flow with
              data :=
                system_rat.information.information_flow.data.map (fun e => e + 0.2 * 1) } } } ∧
    ∃ sys' : cybernetic_system_t ℚ,
      cybernetic_system_intervene (some system_rat) 10 1 = some sys' ∧
      sys'.existential =
        { system_rat.existential with
          identity_state := { system_rat.existential.identity_state with
            data :=
              system_rat.existential.identity_state.data.map (fun e => e + 0.5 * 1) } } ∧
      sys'.physical = system_rat.physical ∧ sys'.information = system_rat.information ∧
      sys'.cycles = system_rat.cycles ∧ sys'.spiral = system_rat.spiral ∧
      sys'.viability = system_rat.viability ∧
      sys'.complexity_level = system_rat.complexity_level ∧
      sys'.timestep = system_rat.timestep ∧ sys'.evolution_rate = system_rat.evolution_rate :=
  ⟨(system_intervene_spec system_rat 2 1).1 ⟨by decide, by decide⟩ rfl,
    (system_intervene_spec system_rat 5 1).2.1 ⟨by decide, by decide⟩ rfl,
    (system_intervene_spec system_rat 10 1).2.2 ⟨by decide, by decide⟩ rfl⟩

theorem system_intervene_flag_witness :
    (∃ sys' : cybernetic_system_t ℚ,
      cybernetic_system_intervene (some system_rat) 10 1 = some sys' ∧
      sys'.is_self_organizing = true) ∧
    ∃ sys' : cybernetic_system_t ℚ,
      cybernetic_system_intervene (some system_rat) 5 1 = some sys' ∧
      sys'.is_self_organizing = system_rat.is_self_organizing :=
  ⟨(system_intervene_flag system_rat 10 1).1 (by decide),
    (system_intervene_flag system_rat 5 1).2 ⟨by decide, by decide⟩⟩

theorem cycle_update_inactive_witness :
    cycle_update libm_rat (some { cycle_rat 2 with is_active := false }) 0.1 (fun _ => 1 / 2) =
      (some { cycle_rat 2 with is_active := false }, fun _ => 1 / 2) :=
  cycle_update_inactive libm_rat { cycle_rat 2 with is_active := false } 0.1 (fun _ => 1 / 2) rfl

theorem calculate_viability_spec_witness :
    cybernetic_system_calculate_viability libm_rat (some system_rat) =
      0.2 * (1 - system_rat.physical.entropy_level) +
        0.3 * libm_rat.tanhf (system_rat.information.complexity / 5) +
        0.3 * system_rat.existential.autonomy_level +
        0.2 * (1 - libm_rat.tanhf
          |((system_rat.cycles.filter (fun cy => cycle_is_stabilizing cy.type)).map
              (fun cy => cy.activity_level)).sum -
            ((system_rat.cycles.filter (fun cy => cycle_is_creative cy.type)).map
              (fun cy => cy.activity_level)).sum|) :=
  calculate_viability_spec libm_rat system_rat rfl

theorem system_step_spiral_witness :
    ∃ sys' : cybernetic_system_t ℚ,
      (cybernetic_system_step libm_rat (cybernetic_system_create 10 20 (fun _ => 1 / 2)).1 0.1
        (cybernetic_system_create 10 20 (fun _ => (1 / 2 : ℚ))).2).1 = some sys' ∧
      sys'.spiral =
        { current_phase := PHASE_ENTROPIC_DRIFT, phase_completion := 0.6 * 0.1,
          cycle_count := 0, ascending := true } :=
  (system_step_spiral libm_rat).2 10 20 (fun _ => 1 / 2) 0.1 (by norm_num)

theorem physical_plane_update_spec_witness :
    ∃ p : physical_plane_t ℚ, physical_plane_update libm_rat (some physical_plane_rat) 0.1 = some p ∧
      p.matter_structure = physical_plane_rat.matter_structure ∧
      p.n_components = physical_plane_rat.n_components ∧
      p.energy_state.shape = physical_plane_rat.energy_state.shape ∧
      p.energy_state.total_size = physical_plane_rat.energy_state.total_size ∧
      p.energy_state.data.length = physical_plane_rat.n_components ∧
      (∀ i, i < physical_plane_rat.n_components →
        p.energy_state.data.getD i 0 =
          physical_plane_rat.energy_state.data.getD i 0 +
            ((∑ j in Finset.range physical_plane_rat.n_components,
                  physical_plane_rat.energy_state.data.getD j 0) /
                (physical_plane_rat.n_components : ℚ) -
              physical_plane_rat.energy_state.data.getD i 0) * 0.1 * 0.1) ∧
      p.entropy_level =
        0.5 + 0.5 * libm_rat.tanhf
          ((∑ i in Finset.range physical_plane_rat.n_components,
              (p.energy_state.data.getD i 0 -
                (∑ j in Finset.range physical_plane_rat.n_components,
                    physical_plane_rat.energy_state.data.getD j 0) /
                  (physical_plane_rat.n_components : ℚ)) ^ 2) /
            (physical_plane_rat.n_components : ℚ) - 1) :=
  physical_plane_update_spec libm_rat physical_plane_rat 0.1 (by decide) rfl

theorem information_complexity_spec_witness :
    ∃ p : information_plane_t ℚ,
      information_plane_update (some information_plane_rat) 0.1 = some p ∧
      p.complexity =
        (∑ i in Finset.range
            (information_plane_rat.n_relations * information_plane_rat.n_relations),
          |information_plane_rat.connectivity.data.getD i 0|) /
            (information_plane_rat.n_relations : ℚ) ∧
      p.complexity =
        (information_plane_rat.n_relations : ℚ) *
          ((∑ i in Finset.range
              (information_plane_rat.n_relations * information_plane_rat.n_relations),
            |information_plane_rat.connectivity.data.getD i 0|) /
              ((information_plane_rat.n_relations * information_plane_rat.n_relations : Nat) : ℚ)) :=
  information_complexity_spec information_plane_rat 0.1 (by decide) (by decide)

end InstancesThird

section ExistentialAndCycles

variable {α : Type} [LinearOrderedField α]

/-! ### Autonomy and self-awareness in `existential_plane_update` -/

theorem existential_update_shape (m : libm α) (plane : existential_plane_t α) (dt : α) :
    ∃ p : existential_plane_t α, existential_plane_update m (some plane) dt = some p ∧
      p.autonomy_level =
        (if p.operational_closure = true then
          min 1
            (m.tanhf
              ((List.range plane.self_model.total_size).foldl
                (fun identity_strength i => identity_strength + |p.identity_state.data.getD i 0|)
                0 / (plane.self_model.total_size : α)) * 1.2)
        else
          m.tanhf
            ((List.range plane.self_model.total_size).foldl
              (fun identity_strength i => identity_strength + |p.identity_state.data.getD i 0|)
              0 / (plane.self_model.total_size : α))) ∧
      p.self_aware = (decide (p.autonomy_level > 0.6) && decide (p.self_reference_degree > 0.5)) := by
  unfold existential_plane_update
  dsimp only
  exact ⟨_, rfl, rfl, rfl⟩

/-- Claim C33. In the plane returned by `existential_plane_update`, `self_aware` is true
if and only if the stored `autonomy_level` (after the closure boost, if any) exceeds `0.6`
and the stored `self_reference_degree` exceeds `0.5`. -/
theorem existential_self_aware_spec (m : libm α) (plane : existential_plane_t α) (dt : α) :
    ∃ p : existential_plane_t α, existential_plane_update m (some plane) dt = some p ∧
      (p.self_aware = true ↔ p.autonomy_level > 0.6 ∧ p.self_reference_degree > 0.5) := by
  obtain ⟨p, hp, -, hs⟩ := existential_update_shape m plane dt
  refine ⟨p, hp, ?_⟩
  rw [hs, Bool.and_eq_true, decide_eq_true_iff, decide_eq_true_iff]

/-! ### Stabilizing cycles -/

/-- Claim C34. For an active cycle of stabilizing type whose state holds `n ≥ 1` elements,
`cycle_update` sets each `state[i]` to `s_i - (s_i - mean) * dt * 0.2` and `stability` to
`1 - |mean - 0.5|`, with `mean` the average of the state before the update; `activity_level`,
`type`, `is_active` and the shape of the state are unchanged, and no random number is
consumed. -/
theorem cycle_update_stabilizing (m : libm α) (cycle : cycle_state_t α) (dt : α)
    (rng : Nat → α) (hact : cycle.is_active = true)
    (hst : cycle_is_stabilizing cycle.type = true) (_hn : 1 ≤ cycle.state.total_size)
    (hlen : cycle.state.data.length = cycle.state.total_size) :
    ∃ c : cycle_state_t α, cycle_update m (some cycle) dt rng = (some c, rng) ∧
      c.type = cycle.type ∧ c.activity_level = cycle.activity_level ∧
      c.is_active = cycle.is_active ∧ c.state.shape = cycle.state.shape ∧
      c.state.total_size = cycle.state.total_size ∧
      c.state.data.length = cycle.state.total_size ∧
      (∀ i, i < cycle.state.total_size →
        c.state.data.getD i 0 =
          cycle.state.data.getD i 0 -
            (cycle.state.data.getD i 0 -
              (∑ j in Finset.range cycle.state.total_size, cycle.state.data.getD j 0) /
                (cycle.state.total_size : α)) * dt * 0.2) ∧
      c.stability =
        1 - |(∑ j in Finset.range cycle.state.total_size, cycle.state.data.getD j 0) /
              (cycle.state.total_size : α) - 0.5| := by
  unfold cycle_update
  simp only [hact, hst, Bool.not_true, if_true, Bool.false_eq_true, if_false]
  refine ⟨_, rfl, rfl, rfl, rfl, rfl, rfl, ?_, ?_, ?_⟩
  · dsimp only
    rw [set_loop_length (fun i => i), hlen]
  · intro i hi
    dsimp only
    rw [map_loop_getD (fun _ v => v - (v - _) * dt * 0.2) _ _ i hi (by rw [hlen]; exact hi),
      foldl_add_range]
  · dsimp only
    rw [foldl_add_range]

/-! ### Conservation in `physical_plane_update` -/

theorem physical_update_energy (m : libm α) (plane : physical_plane_t α) (dt : α)
    (hlen : plane.energy_state.data.length = plane.n_components) :
    ∃ p : physical_plane_t α, physical_plane_update m (some plane) dt = some p ∧
      ∀ i, i < plane.n_components →
        p.energy_state.data.getD i 0 =
          plane.energy_state.data.getD i 0 +
            ((∑ j in Finset.range plane.n_components, plane.energy_state.data.getD j 0) /
                (plane.n_components : α) - plane.energy_state.data.getD i 0) * dt * 0.1 := by
  unfold physical_plane_update
  dsimp only
  refine ⟨_, rfl, ?_⟩
  intro i hi
  dsimp only
  rw [map_loop_getD (fun _ v => v + (_ - v) * dt * 0.1) _ _ i hi (by rw [hlen]; exact hi),
    foldl_add_range]

/-- Claim C38. For a physical plane with `n ≥ 1` components whose energy buffer holds `n`
elements, in exact arithmetic `physical_plane_update` preserves the total and the mean of
`energy_state` and multiplies every deviation from the mean by `1 - 0.1 * dt`. -/
theorem physical_plane_update_conservation (m : libm α) (plane : physical_plane_t α) (dt : α)
    (hn : 1 ≤ plane.n_components)
    (hlen : plane.energy_state.data.length = plane.n_components) :
    ∃ p : physical_plane_t α, physical_plane_update m (some plane) dt = some p ∧
      (∑ i in Finset.range plane.n_components, p.energy_state.data.getD i 0) =
        ∑ i in Finset.range plane.n_components, plane.energy_state.data.getD i 0 ∧
      (∑ i in Finset.range plane.n_components, p.energy_state.data.getD i 0) /
          (plane.n_components : α) =
        (∑ i in Finset.range plane.n_components, plane.energy_state.data.getD i 0) /
          (plane.n_components : α) ∧
      ∀ i, i < plane.n_components →
        p.energy_state.data.getD i 0 -
            (∑ j in Finset.range plane.n_components, plane.energy_state.data.getD j 0) /
              (plane.n_components : α) =
          (1 - 0.1 * dt) *
            (plane.energy_state.data.getD i 0 -
              (∑ j in Finset.range plane.n_components, plane.energy_state.data.getD j 0) /
                (plane.n_components : α)) := by
  obtain ⟨p, hp, he⟩ := physical_update_energy m plane dt hlen
  have hpos : (plane.n_components : α) ≠ 0 := by
    have : (0 : α) < (plane.n_components : α) := by exact_mod_cast hn
    exact ne_of_gt this
  have hsum : (∑ i in Finset.range plane.n_components, p.energy_state.data.getD i 0) =
      ∑ i in Finset.range plane.n_components, plane.energy_state.data.getD i 0 := by
    rw [Finset.sum_congr rfl (fun i hi => he i (Finset.mem_range.mp hi))]
    rw [Finset.sum_add_distrib, ← Finset.sum_mul, ← Finset.sum_mul, Finset.sum_sub_distrib,
      Finset.sum_const, Finset.card_range, nsmul_eq_mul, mul_div_cancel₀ _ hpos, sub_self,
      zero_mul, zero_mul, add_zero]
  refine ⟨p, hp, hsum, by rw [hsum], ?_⟩
  intro i hi
  rw [he i hi]
  ring

end ExistentialAndCycles

section AttentionSelf

variable {α : Type} [LinearOrderedField α]

/-! ### `attention_self` and `attention_multihead` -/

theorem attention_compute_mismatch (m : libm α) (state : Option (attention_state_t α))
    (X : neural_tensor_t α) (h : X.shape.getD 1 0 ≠ X.shape.getD 0 0) :
    attention_compute m state (some X) (some X) (some X) = none := by
  cases state with
  | none => rfl
  | some s =>
    have hmm : neural_matmul (some X) (some X) = none := by
      unfold neural_matmul
      dsimp only
      split_ifs
      · rfl
      · rfl
    unfold attention_compute
    dsimp only
    rw [hmm]

theorem attention_multihead_eq (m : libm α) (state : Option (attention_state_t α))
    (X : neural_tensor_t α) :
    attention_multihead m state (some X) =
      attention_compute m state (some X) (some X) (some X) := by
  cases state with
  | none => rfl
  | some s => rfl

theorem attention_compute_state (m : libm α) (s1 s2 : attention_state_t α)
    (q k v : Option (neural_tensor_t α)) :
    attention_compute m (some s1) q k v = attention_compute m (some s2) q k v := by
  cases q <;> cases k <;> cases v <;> rfl

/-- Claim C39. For every 2-D tensor `X` of shape `[r, c]` with `r ≠ c` and every `n_heads`,
`attention_self` returns no tensor, and so does `attention_multihead` for every state: the
scores are formed as `neural_matmul(X, X)`, whose inner dimensions `c` and `r` differ. This
covers the `4 x 8` input of the demo. For every `X`, square ones included, the result of
`attention_self` does not depend on `n_heads`. -/
theorem attention_self_rectangular (m : libm α) :
    (∀ (X : neural_tensor_t α) (r c n_heads : Nat), X.n_dims = 2 → X.shape = [r, c] → r ≠ c →
      attention_self m (some X) n_heads = none ∧
        ∀ state : Option (attention_state_t α), attention_multihead m state (some X) = none) ∧
    (∀ n_heads : Nat, attention_self m (some demo_attention_input) n_heads = none) ∧
    (∀ (X : neural_tensor_t α) (n1 n2 : Nat),
      attention_self m (some X) n1 = attention_self m (some X) n2) := by
  have hrect : ∀ (X : neural_tensor_t α) (r c : Nat), X.shape = [r, c] → r ≠ c →
      ∀ state : Option (attention_state_t α), attention_multihead m state (some X) = none := by
    intro X r c hs hrc state
    rw [attention_multihead_eq]
    apply attention_compute_mismatch
    rw [hs]
    exact fun h => hrc h.symm
  have hself : ∀ (X : neural_tensor_t α) (n_heads : Nat),
      (∀ state : Option (attention_state_t α), attention_multihead m state (some X) = none) →
      attention_self m (some X) n_heads = none := by
    intro X n_heads h
    unfold attention_self
    dsimp only
    split_ifs
    · rfl
    · split
      · rfl
      · exact h _
  refine ⟨?_, ?_, ?_⟩
  · intro X r c n_heads _ hs hrc
    exact ⟨hself X n_heads (hrect X r c hs hrc), hrect X r c hs hrc⟩
  · intro n_heads
    exact hself _ n_heads (hrect _ 4 8 rfl (by decide))
  · intro X n1 n2
    unfold attention_self
    dsimp only
    split_ifs
    · rfl
    · unfold attention_create neural_tensor_create
      dsimp only
      rw [attention_multihead_eq, attention_multihead_eq]
      exact attention_compute_state m _ _ _ _ _

theorem attention_self_rectangular_witness :
    attention_self libm_rat
        (some { data := [1, 2, 3, 4, 5, 6], shape := [2, 3], n_dims := 2, total_size := 6 }) 2 =
        none ∧
      ∀ state : Option (attention_state_t ℚ),
        attention_multihead libm_rat state
          (some { data := [1, 2, 3, 4, 5, 6], shape := [2, 3], n_dims := 2, total_size := 6 }) =
          none :=
  (attention_self_rectangular libm_rat).1
    { data := [1, 2, 3, 4, 5, 6], shape := [2, 3], n_dims := 2, total_size := 6 } 2 3 2 rfl rfl
    (by decide)

end AttentionSelf

section CreativeCycles

variable {α : Type} [LinearOrderedField α]

/-! ### Creative cycles -/

theorem creative_loop_eq (dt : α) (rng : Nat → α) (d : List α) (k : Nat) :
    (List.range k).foldl
        (fun (st : List α × (Nat → α)) i =>
          let noise : α := (st.2 0 - 0.5) * 0.1
          let d := st.1.set i (st.1.getD i 0 + noise * dt)
          let d := if d.getD i 0 > 1 then d.set i 1 else d
          let d := if d.getD i 0 < 0 then d.set i 0 else d
          (d, fun k => st.2 (k + 1)))
        (d, rng) =
      ((List.range k).foldl
          (fun d i => d.set i (max 0 (min 1 (d.getD i 0 + (rng i - 0.5) * 0.1 * dt)))) d,
        fun j => rng (j + k)) := by
  induction k with
  | zero => rfl
  | succ k ih =>
    rw [List.range_succ, List.foldl_append, List.foldl_append, ih]
    simp only [List.foldl_cons, List.foldl_nil]
    rw [clamp_step]
    refine Prod.ext ?_ ?_
    · simp only [zero_add]
    · funext j
      simp only [Nat.add_assoc, Nat.add_comm 1 k]

theorem cycle_update_creative_eq (m : libm α) (cycle : cycle_state_t α) (dt : α)
    (rng : Nat → α) (hact : cycle.is_active = true)
    (hcr : cycle_is_creative cycle.type = true) :
    cycle_update m (some cycle) dt rng =
      (some { cycle with
          state := { cycle.state with
            data := (List.range cycle.state.total_size).foldl
              (fun d i => d.set i (max 0 (min 1 (d.getD i 0 + (rng i - 0.5) * 0.1 * dt))))
              cycle.state.data }
          activity_level :=
            m.tanhf
              ((List.range cycle.state.total_size).foldl
                (fun variance i =>
                  let diff : α :=
                    ((List.range cycle.state.total_size).foldl
                      (fun d i =>
                        d.set i (max 0 (min 1 (d.getD i 0 + (rng i - 0.5) * 0.1 * dt))))
                      cycle.state.data).getD i 0 - 0.5
                  variance + diff * diff)
                0 / (cycle.state.total_size : α)) },
        fun j => rng (j + cycle.state.total_size)) := by
  have hst : cycle_is_stabilizing cycle.type = false := by
    unfold cycle_is_creative at hcr
    simpa using hcr
  unfold cycle_update
  simp only [hact, hst, Bool.not_true, Bool.false_eq_true, if_false]
  rw [creative_loop_eq]

/-- Claim C35. For an active cycle of creative type whose state buffer holds `total_size`
elements, every `dt`, every initial state and every stream of random values, after
`cycle_update` every element of the state lies in `[0,1]`, and `stability`, `type`,
`is_active` and the shape of the state are unchanged. -/
theorem cycle_update_creative_bounds (m : libm α) (cycle : cycle_state_t α) (dt : α)
    (rng : Nat → α) (hact : cycle.is_active = true)
    (hcr : cycle_is_creative cycle.type = true)
    (hlen : cycle.state.data.length = cycle.state.total_size) :
    ∃ c : cycle_state_t α, (cycle_update m (some cycle) dt rng).1 = some c ∧
      c.stability = cycle.stability ∧ c.type = cycle.type ∧ c.is_active = cycle.is_active ∧
      c.state.shape = cycle.state.shape ∧ c.state.total_size = cycle.state.total_size ∧
      c.state.data.length = cycle.state.total_size ∧
      (∀ i, i < cycle.state.total_size →
        0 ≤ c.state.data.getD i 0 ∧ c.state.data.getD i 0 ≤ 1) ∧
      ∀ x, x ∈ c.state.data → 0 ≤ x ∧ x ≤ 1 := by
  rw [cycle_update_creative_eq m cycle dt rng hact hcr]
  have hl : ((List.range cycle.state.total_size).foldl
      (fun d i => d.set i (max 0 (min 1 (d.getD i 0 + (rng i - 0.5) * 0.1 * dt))))
      cycle.state.data).length = cycle.state.total_size := by
    rw [set_loop_length (fun i => i), hlen]
  have hb : ∀ i, i < cycle.state.total_size →
      0 ≤ ((List.range cycle.state.total_size).foldl
          (fun d i => d.set i (max 0 (min 1 (d.getD i 0 + (rng i - 0.5) * 0.1 * dt))))
          cycle.state.data).getD i 0 ∧
        ((List.range cycle.state.total_size).foldl
          (fun d i => d.set i (max 0 (min 1 (d.getD i 0 + (rng i - 0.5) * 0.1 * dt))))
          cycle.state.data).getD i 0 ≤ 1 := by
    intro i hi
    rw [map_loop_getD (fun i v => max 0 (min 1 (v + (rng i - 0.5) * 0.1 * dt))) _ _ i hi
      (by rw [hlen]; exact hi)]
    exact ⟨le_max_left _ _, max_le zero_le_one (min_le_left _ _)⟩
  refine ⟨_, rfl, rfl, rfl, rfl, rfl, rfl, hl, hb, ?_⟩
  intro x hx
  obtain ⟨i, hi, rfl⟩ := List.getElem_of_mem hx
  have := hb i (hl ▸ hi)
  rwa [List.getD_eq_getElem?_getD, List.getElem?_eq_getElem hi] at this

/-- Claim C36, amended. For an active cycle of creative type with state size `n ≥ 1`, after
`cycle_update` the field `activity_level` is `tanhf(variance / n)`, where `variance` is the
sum over `i` of `(state[i] - 0.5)²` on the updated state: the deviations are taken from the
constant `0.5`, not from the mean of the state. -/
theorem cycle_update_creative_activity (m : libm α) (cycle : cycle_state_t α) (dt : α)
    (rng : Nat → α) (hact : cycle.is_active = true)
    (hcr : cycle_is_creative cycle.type = true) (_hn : 1 ≤ cycle.state.total_size) :
    ∃ c : cycle_state_t α, (cycle_update m (some cycle) dt rng).1 = some c ∧
      c.activity_level =
        m.tanhf
          ((∑ i in Finset.range cycle.state.total_size, (c.state.data.getD i 0 - 0.5) ^ 2) /
            (cycle.state.total_size : α)) := by
  rw [cycle_update_creative_eq m cycle dt rng hact hcr]
  refine ⟨_, rfl, ?_⟩
  dsimp only
  rw [foldl_add_range]
  simp only [sq]

end CreativeCycles

section CreativeCounterexample

variable {α : Type} [LinearOrderedField α]

/-- Claim C36, as stated, is refuted. With the real `tanh`, the active creative cycle with
state `[1, 1]`, `dt = 0.1` and random values `0.5` (zero noise) keeps the state `[1, 1]`;
`cycle_update` stores `activity_level = tanh(((1 - 0.5)² + (1 - 0.5)²) / 2) = tanh(1/4)`,
whereas the sum of squared deviations from the mean `1` of the updated state is `0` and its
`tanh` is `0`. -/
theorem cycle_update_creative_activity_counterexample :
    ∃ m : libm ℝ, m.tanhf = Real.tanh ∧
      ∃ c : cycle_state_t ℝ,
        (cycle_update m
          (some
            { type := CYCLE_MORPHOGENESIS
              activity_level := 0.5
              stability := 0.5
              is_active := true
              state := { data := [1, 1], shape := [2], n_dims := 1, total_size := 2 } })
          0.1 (fun _ => 0.5)).1 = some c ∧
        c.state.data = [1, 1] ∧
        c.activity_level = Real.tanh (1 / 4) ∧
        Real.tanh
            ((∑ i in Finset.range 2,
                (c.state.data.getD i 0 - (∑ j in Finset.range 2, c.state.data.getD j 0) / 2) ^ 2) /
              2) = 0 ∧
        c.activity_level ≠
          Real.tanh
            ((∑ i in Finset.range 2,
                (c.state.data.getD i 0 - (∑ j in Finset.range 2, c.state.data.getD j 0) / 2) ^ 2) /
              2) := by
  have hdata : (List.range 2).foldl
      (fun d i => d.set i (max 0 (min 1 (d.getD i 0 + ((0.5 : ℝ) - 0.5) * 0.1 * 0.1))))
      [1, 1] = [1, 1] := by
    simp [List.range_succ]
  have hpos : 0 < Real.tanh (1 / 4) := by
    rw [Real.tanh_eq_sinh_div_cosh]
    exact div_pos (Real.sinh_pos_iff.mpr (by norm_num)) (Real.cosh_pos _)
  have hzero : Real.tanh
      ((∑ i in Finset.range 2,
          (([1, 1] : List ℝ).getD i 0 - (∑ j in Finset.range 2, ([1, 1] : List ℝ).getD j 0) / 2) ^ 2) /
        2) = 0 := by
    simp [Finset.sum_range_succ]
  refine ⟨{ expf := Real.exp, tanhf := Real.tanh, cosf := Real.cos, sqrtf := Real.sqrt,
            M_PI := Real.pi }, rfl, ?_⟩
  rw [cycle_update_creative_eq (α := ℝ) _
    { type := CYCLE_MORPHOGENESIS
      activity_level := 0.5
      stability := 0.5
      is_active := true
      state := { data := [1, 1], shape := [2], n_dims := 1, total_size := 2 } }
    0.1 (fun _ => 0.5) rfl (by decide)]
  refine ⟨_, rfl, hdata, ?_, ?_, ?_⟩
  · dsimp only
    rw [hdata]
    congr 1
    simp [List.range_succ]
    norm_num
  · dsimp only
    rw [hdata]
    exact hzero
  · dsimp only
    rw [hdata, hzero]
    have h14 : Real.tanh
        ((List.range 2).foldl
          (fun variance i => variance + (([1, 1] : List ℝ).getD i 0 - 0.5) * (([1, 1] : List ℝ).getD i 0 - 0.5))
          0 / ((2 : Nat) : ℝ)) = Real.tanh (1 / 4) := by
      congr 1
      simp [List.range_succ]
      norm_num
    rw [h14]
    exact ne_of_gt hpos

end CreativeCounterexample

section SetGet

variable {α : Type} [LinearOrderedField α]

/-! ### Writing and reading back one element -/

theorem drop_prod_succ (shape : List Nat) (n : Nat) (h : n < shape.length) :
    (shape.drop n).prod = shape.getD n 0 * (shape.drop (n + 1)).prod := by
  rw [List.drop_eq_getElem_cons h, List.prod_cons]
  simp [List.getD_eq_getElem?_getD, List.getElem?_eq_getElem h]

theorem drop_prod_dvd_offset (shape a : List Nat) (n : Nat) (hn : n ≤ shape.length) :
    (shape.drop n).prod ∣ ∑ d in Finset.range n, a.getD d 0 * (shape.drop (d + 1)).prod := by
  induction n with
  | zero => simp
  | succ n ih =>
    rw [Finset.sum_range_succ]
    have h1 : (shape.drop (n + 1)).prod ∣ (shape.drop n).prod := by
      rw [drop_prod_succ shape n hn]
      exact Dvd.intro_left _ rfl
    exact dvd_add (dvd_trans h1 (ih (Nat.le_of_lt hn))) (Dvd.intro_left _ rfl)

theorem drop_prod_pos (shape : List Nat) (hpos : ∀ d, d < shape.length → 0 < shape.getD d 0)
    (n : Nat) : 0 < (shape.drop n).prod := by
  apply List.prod_pos
  intro x hx
  obtain ⟨i, hi, rfl⟩ := List.getElem_of_mem (List.mem_of_mem_drop hx)
  have := hpos i hi
  simpa [List.getD_eq_getElem?_getD, List.getElem?_eq_getElem hi] using this

theorem offset_injective (shape a b : List Nat)
    (hpos : ∀ d, d < shape.length → 0 < shape.getD d 0) (n : Nat) :
    n ≤ shape.length →
    (∀ d, d < n → a.getD d 0 < shape.getD d 0) →
    (∀ d, d < n → b.getD d 0 < shape.getD d 0) →
    (∑ d in Finset.range n, a.getD d 0 * (shape.drop (d + 1)).prod) =
      ∑ d in Finset.range n, b.getD d 0 * (shape.drop (d + 1)).prod →
    ∀ d, d < n → a.getD d 0 = b.getD d 0 := by
  induction n with
  | zero => intro _ _ _ _ d hd; exact absurd hd (Nat.not_lt_zero _)
  | succ n ih =>
    intro hn ha hb hsum d hd
    obtain ⟨qa, hqa⟩ := drop_prod_dvd_offset shape a n (Nat.le_of_lt hn)
    obtain ⟨qb, hqb⟩ := drop_prod_dvd_offset shape b n (Nat.le_of_lt hn)
    have hP := drop_prod_pos shape hpos (n + 1)
    rw [Finset.sum_range_succ, Finset.sum_range_succ, hqa, hqb, drop_prod_succ shape n hn] at hsum
    have h2 : (shape.drop (n + 1)).prod * (shape.getD n 0 * qa + a.getD n 0) =
        (shape.drop (n + 1)).prod * (shape.getD n 0 * qb + b.getD n 0) := by
      calc (shape.drop (n + 1)).prod * (shape.getD n 0 * qa + a.getD n 0)
          = shape.getD n 0 * (shape.drop (n + 1)).prod * qa +
              a.getD n 0 * (shape.drop (n + 1)).prod := by ring
        _ = shape.getD n 0 * (shape.drop (n + 1)).prod * qb +
              b.getD n 0 * (shape.drop (n + 1)).prod := hsum
        _ = (shape.drop (n + 1)).prod * (shape.getD n 0 * qb + b.getD n 0) := by ring
    have h3 : shape.getD n 0 * qa + a.getD n 0 = shape.getD n 0 * qb + b.getD n 0 :=
      Nat.eq_of_mul_eq_mul_left hP h2
    have han := ha n (Nat.lt_succ_self n)
    have hbn := hb n (Nat.lt_succ_self n)
    have h4 : a.getD n 0 = b.getD n 0 := by
      have h5 := congrArg (fun x => x % shape.getD n 0) h3
      simp only [Nat.mul_add_mod, Nat.mod_eq_of_lt han, Nat.mod_eq_of_lt hbn] at h5
      exact h5
    rcases Nat.lt_succ_iff_lt_or_eq.mp hd with hlt | heq
    · apply ih (Nat.le_of_lt hn) (fun d hd => ha d (Nat.lt_succ_of_lt hd))
        (fun d hd => hb d (Nat.lt_succ_of_lt hd)) _ d hlt
      rw [h4] at h3
      have h6 : qa = qb := by
        have hs : 0 < shape.getD n 0 := Nat.lt_of_le_of_lt (Nat.zero_le _) han
        exact Nat.eq_of_mul_eq_mul_left hs (Nat.add_right_cancel h3)
      rw [hqa, hqb, h6]
    · rw [heq]; exact h4

theorem flat_index_injective (t : neural_tensor_t α) (a b : List Nat) (hwf : WellFormed t)
    (ha : ∀ d, d < t.n_dims → a.getD d 0 < t.shape.getD d 0)
    (hb : ∀ d, d < t.n_dims → b.getD d 0 < t.shape.getD d 0)
    (h : flat_index t a = flat_index t b) : ∀ d, d < t.n_dims → a.getD d 0 = b.getD d 0 := by
  have hlen : t.n_dims = t.shape.length := hwf.1
  have hpos : ∀ d, d < t.shape.length → 0 < t.shape.getD d 0 :=
    fun d hd => Nat.lt_of_le_of_lt (Nat.zero_le _) (ha d (hlen ▸ hd))
  rw [(flat_index_eq t a hwf ha).1, (flat_index_eq t b hwf hb).1] at h
  exact offset_injective t.shape a b hpos t.n_dims (Nat.le_of_eq hlen) ha hb h

/-- Claim C37. For a well-formed tensor with `n_dims ≥ 1`, a valid multi-index `idx` (each
component below its dimension) and a value `v`: `neural_tensor_set` returns a tensor with the
same `shape`, `n_dims` and `total_size`; `neural_tensor_get` of it at `idx` is `v`; and at
every valid multi-index that differs from `idx` in some component, the flat offset differs
from that of `idx` and `neural_tensor_get` returns the same value as before the set. -/
theorem neural_tensor_set_get (t : neural_tensor_t α) (idx : List Nat) (v : α)
    (hwf : WellFormed t) (hdims : 1 ≤ t.n_dims)
    (hvalid : ∀ d, d < t.n_dims → idx.getD d 0 < t.shape.getD d 0) :
    ∃ t' : neural_tensor_t α, neural_tensor_set (some t) (some idx) v = some t' ∧
      t'.shape = t.shape ∧ t'.n_dims = t.n_dims ∧ t'.total_size = t.total_size ∧
      neural_tensor_get (some t') (some idx) = v ∧
      ∀ idx' : List Nat, (∀ d, d < t.n_dims → idx'.getD d 0 < t.shape.getD d 0) →
        (∃ d, d < t.n_dims ∧ idx'.getD d 0 ≠ idx.getD d 0) →
        flat_index t idx' ≠ flat_index t idx ∧
          neural_tensor_get (some t') (some idx') = neural_tensor_get (some t) (some idx') := by
  have hlt := (flat_index_eq t idx hwf hvalid).2
  have hne : t.n_dims ≠ 0 := Nat.ne_of_gt hdims
  have hset : neural_tensor_set (some t) (some idx) v =
      some { t with data := t.data.set (flat_index t idx) v } := by
    unfold neural_tensor_set
    simp only [hne, if_false, if_pos hlt]
  have hflat : ∀ l : List Nat,
      flat_index ({ t with data := t.data.set (flat_index t idx) v } : neural_tensor_t α) l =
        flat_index t l := fun _ => rfl
  refine ⟨_, hset, rfl, rfl, rfl, ?_, ?_⟩
  · unfold neural_tensor_get
    simp only [hne, if_false, hflat, if_pos hlt]
    exact getD_set_self _ _ _ (by rw [hwf.2.2.2]; exact hlt)
  · intro idx' hvalid' hdiff
    have hlt' := (flat_index_eq t idx' hwf hvalid').2
    have hfne : flat_index t idx' ≠ flat_index t idx := by
      intro heq
      obtain ⟨d, hd, hdne⟩ := hdiff
      exact hdne (flat_index_injective t idx' idx hwf hvalid' hvalid heq d hd)
    refine ⟨hfne, ?_⟩
    unfold neural_tensor_get
    simp only [hne, if_false, hflat, if_pos hlt']
    exact getD_set_ne _ _ _ _ (Ne.symm hfne)

end SetGet

section GlobalImage

variable {α : Type} [LinearOrderedField α]

/-! ### The global image of `existential_plane_update` -/

theorem existential_update_global_image (m : libm α) (plane : existential_plane_t α) (dt : α)
    (hlen : plane.global_image.data.length = plane.self_model.total_size) :
    ∃ p : existential_plane_t α, existential_plane_update m (some plane) dt = some p ∧
      ∀ i, i < plane.self_model.total_size →
        p.global_image.data.getD i 0 =
          m.tanhf
            ((∑ j in Finset.range plane.self_model.total_size,
                plane.self_model.data.getD j 0 *
                  m.cosf (2 * m.M_PI * ((size_sub i j : Nat) : α) /
                    (plane.self_model.total_size : α))) /
              (plane.self_model.total_size : α)) := by
  unfold existential_plane_update
  dsimp only
  refine ⟨_, rfl, ?_⟩
  intro i hi
  dsimp only
  rw [map_loop_getD (fun i _ => m.tanhf (_ / (plane.self_model.total_size : α))) _ _ i hi
    (by rw [hlen]; exact hi), foldl_add_range]

/-- Claim C31, evaluated at a failing input. With the real `tanh`, `cos` and `π`, on the plane
of model size `N = 20` whose `self_model` is `0.1` at index `1` and zero elsewhere,
`existential_plane_update` stores `global_image[0] = 0`: the term `j = 1` uses the wrapped
difference `0 - 1 = 2^64 - 1`, and `cos(2π (2^64 - 1) / 20) = cos(3π/2) = 0`. The claimed
value `tanh((Σ_j self_model[j] cos(2π (0 - j) / 20)) / 20)` with the signed difference is
positive. -/
theorem existential_global_image_wraparound :
    ∃ m : libm ℝ, m.tanhf = Real.tanh ∧ m.cosf = Real.cos ∧ m.M_PI = Real.pi ∧
      ∃ p : existential_plane_t ℝ,
        existential_plane_update m (some existential_plane_wrap) 0.1 = some p ∧
        size_sub 0 1 = 2 ^ 64 - 1 ∧
        p.global_image.data.getD 0 0 = 0 ∧
        0 < Real.tanh
          ((∑ j in Finset.range 20,
              (existential_plane_wrap (α := ℝ)).self_model.data.getD j 0 *
                Real.cos (2 * Real.pi * (((0 : Int) - (j : Int) : Int) : ℝ) / 20)) / 20) := by
  obtain ⟨p, hp, hg⟩ := existential_update_global_image (α := ℝ)
    { expf := Real.exp, tanhf := Real.tanh, cosf := Real.cos, sqrtf := Real.sqrt,
      M_PI := Real.pi } existential_plane_wrap 0.1 rfl
  have hsub : size_sub 0 1 = 2 ^ 64 - 1 := by
    unfold size_sub SIZE_MOD
    norm_num
  have hcos : Real.cos (2 * Real.pi * ((size_sub 0 1 : Nat) : ℝ) / 20) = 0 := by
    have harg : 2 * Real.pi * ((size_sub 0 1 : Nat) : ℝ) / 20 =
        Real.pi / 2 + Real.pi + ((922337203685477580 : Nat) : ℝ) * (2 * Real.pi) := by
      rw [hsub]
      push_cast
      ring
    rw [harg, Real.cos_add_nat_mul_two_pi, Real.cos_add_pi, Real.cos_pi_div_two, neg_zero]
  refine ⟨_, rfl, rfl, rfl, p, hp, hsub, ?_, ?_⟩
  · rw [hg 0 (by show 0 < 20; norm_num)]
    have hsum : (∑ j in Finset.range (existential_plane_wrap (α := ℝ)).self_model.total_size,
        (existential_plane_wrap (α := ℝ)).self_model.data.getD j 0 *
          Real.cos (2 * Real.pi * ((size_sub 0 j : Nat) : ℝ) /
            ((existential_plane_wrap (α := ℝ)).self_model.total_size : ℝ))) = 0 := by
      have hN : (existential_plane_wrap (α := ℝ)).self_model.total_size = 20 := rfl
      have hd : (existential_plane_wrap (α := ℝ)).self_model.data =
          [0, 0.1, 0, 0, 0, 0, 0, 0, 0, 0, 0, 0, 0, 0, 0, 0, 0, 0, 0, 0] := rfl
      rw [hN, hd]
      simp only [Finset.sum_range_succ, Finset.sum_range_zero, List.getD_cons_zero,
        List.getD_cons_succ, zero_mul, zero_add, add_zero]
      have h20 : ((20 : Nat) : ℝ) = 20 := by norm_num
      rw [h20, hcos, mul_zero]
    show Real.tanh _ = 0
    rw [hsum, zero_div, Real.tanh_zero]
  · have hd : (existential_plane_wrap (α := ℝ)).self_model.data =
        [0, 0.1, 0, 0, 0, 0, 0, 0, 0, 0, 0, 0, 0, 0, 0, 0, 0, 0, 0, 0] := rfl
    rw [hd]
    simp only [Finset.sum_range_succ, Finset.sum_range_zero, List.getD_cons_zero,
      List.getD_cons_succ, zero_mul, zero_add, add_zero]
    have hc : 0 < Real.cos (2 * Real.pi * (((0 : Int) - ((1 : Nat) : Int) : Int) : ℝ) / 20) := by
      apply Real.cos_pos_of_mem_Ioo
      have := Real.pi_pos
      constructor <;> push_cast <;> linarith
    rw [Real.tanh_eq_sinh_div_cosh]
    apply div_pos _ (Real.cosh_pos _)
    rw [Real.sinh_pos_iff]
    apply div_pos _ (by norm_num)
    exact mul_pos (by norm_num) hc

end GlobalImage

section InstancesFourth

variable {α : Type} [LinearOrderedField α]

/-! ### Instances at concrete inputs, fourth part -/

theorem cycle_update_stabilizing_witness :
    ∃ c : cycle_state_t ℚ,
      cycle_update libm_rat (some (cycle_rat 1)) 0.1 (fun _ => 1 / 2) =
        (some c, fun _ => 1 / 2) ∧
      c.type = (cycle_rat 1).type ∧ c.activity_level = (cycle_rat 1).activity_level ∧
      c.is_active = (cycle_rat 1).is_active ∧ c.state.shape = (cycle_rat 1).state.shape ∧
      c.state.total_size = (cycle_rat 1).state.total_size ∧
      c.state.data.length = (cycle_rat 1).state.total_size ∧
      (∀ i, i < (cycle_rat 1).state.total_size →
        c.state.data.getD i 0 =
          (cycle_rat 1).state.data.getD i 0 -
            ((cycle_rat 1).state.data.getD i 0 -
              (∑ j in Finset.range (cycle_rat 1).state.total_size,
                  (cycle_rat 1).state.data.getD j 0) /
                ((cycle_rat 1).state.total_size : ℚ)) * 0.1 * 0.2) ∧
      c.stability =
        1 - |(∑ j in Finset.range (cycle_rat 1).state.total_size,
                (cycle_rat 1).state.data.getD j 0) /
              ((cycle_rat 1).state.total_size : ℚ) - 0.5| :=
  cycle_update_stabilizing libm_rat (cycle_rat 1) 0.1 (fun _ => 1 / 2) rfl (by decide)
    (by decide) rfl

theorem cycle_update_creative_bounds_witness :
    ∃ c : cycle_state_t ℚ,
      (cycle_update libm_rat (some (cycle_rat 2)) 0.1 (fun _ => 1 / 2)).1 = some c ∧
      c.stability = (cycle_rat 2).stability ∧ c.type = (cycle_rat 2).type ∧
      c.is_active = (cycle_rat 2).is_active ∧ c.state.shape = (cycle_rat 2).state.shape ∧
      c.state.total_size = (cycle_rat 2).state.total_size ∧
      c.state.data.length = (cycle_rat 2).state.total_size ∧
      (∀ i, i < (cycle_rat 2).state.total_size →
        0 ≤ c.state.data.getD i 0 ∧ c.state.data.getD i 0 ≤ 1) ∧
      ∀ x, x ∈ c.state.data → 0 ≤ x ∧ x ≤ 1 :=
  cycle_update_creative_bounds libm_rat (cycle_rat 2) 0.1 (fun _ => 1 / 2) rfl (by decide) rfl

theorem cycle_update_creative_activity_witness :
    ∃ c : cycle_state_t ℚ,
      (cycle_update libm_rat (some (cycle_rat 4)) 0.1 (fun _ => 1 / 2)).1 = some c ∧
      c.activity_level =
        libm_rat.tanhf
          ((∑ i in Finset.range (cycle_rat 4).state.total_size,
              (c.state.data.getD i 0 - 0.5) ^ 2) /
            ((cycle_rat 4).state.total_size : ℚ)) :=
  cycle_update_creative_activity libm_rat (cycle_rat 4) 0.1 (fun _ => 1 / 2) rfl (by decide)
    (by decide)

theorem neural_tensor_set_get_witness :
    ∃ t' : neural_tensor_t ℚ,
      neural_tensor_set (α := ℚ)
          (some { data := [1, 2, 3, 4, 5, 6], shape := [2, 3], n_dims := 2, total_size := 6 })
          (some [1, 2]) 9 = some t' ∧
      t'.shape = [2, 3] ∧ t'.n_dims = 2 ∧ t'.total_size = 6 ∧
      neural_tensor_get (some t') (some [1, 2]) = 9 ∧
      ∀ idx' : List Nat, (∀ d, d < 2 → idx'.getD d 0 < ([2, 3] : List Nat).getD d 0) →
        (∃ d, d < 2 ∧ idx'.getD d 0 ≠ ([1, 2] : List Nat).getD d 0) →
        flat_index (α := ℚ)
            { data := [1, 2, 3, 4, 5, 6], shape := [2, 3], n_dims := 2, total_size := 6 } idx' ≠
          flat_index (α := ℚ)
            { data := [1, 2, 3, 4, 5, 6], shape := [2, 3], n_dims := 2, total_size := 6 }
            [1, 2] ∧
          neural_tensor_get (some t') (some idx') =
            neural_tensor_get (α := ℚ)
              (some { data := [1, 2, 3, 4, 5, 6], shape := [2, 3], n_dims := 2, total_size := 6 })
              (some idx') :=
  neural_tensor_set_get (α := ℚ)
    { data := [1, 2, 3, 4, 5, 6], shape := [2, 3], n_dims := 2, total_size := 6 } [1, 2] 9
    (by simp [WellFormed, SIZE_MOD]) (by decide)
    (by
      intro d hd
      have hd : d < 2 := hd
      interval_cases d <;> simp)

theorem physical_plane_update_conservation_witness :
    ∃ p : physical_plane_t ℚ,
      physical_plane_update libm_rat (some physical_plane_rat) 0.1 = some p ∧
      (∑ i in Finset.range physical_plane_rat.n_components, p.energy_state.data.getD i 0) =
        ∑ i in Finset.range physical_plane_rat.n_components,
          physical_plane_rat.energy_state.data.getD i 0 ∧
      (∑ i in Finset.range physical_plane_rat.n_components, p.energy_state.data.getD i 0) /
          (physical_plane_rat.n_components : ℚ) =
        (∑ i in Finset.range physical_plane_rat.n_components,
            physical_plane_rat.energy_state.data.getD i 0) /
          (physical_plane_rat.n_components : ℚ) ∧
      ∀ i, i < physical_plane_rat.n_components →
        p.energy_state.data.getD i 0 -
            (∑ j in Finset.range physical_plane_rat.n_components,
                physical_plane_rat.energy_state.data.getD j 0) /
              (physical_plane_rat.n_components : ℚ) =
          (1 - 0.1 * 0.1) *
            (physical_plane_rat.energy_state.data.getD i 0 -
              (∑ j in Finset.range physical_plane_rat.n_components,
                  physical_plane_rat.energy_state.data.getD j 0) /
                (physical_plane_rat.n_components : ℚ)) :=
  physical_plane_update_conservation libm_rat physical_plane_rat 0.1 (by decide) rfl

end InstancesFourth

section IeeeArithmetic

variable {α : Type} [LinearOrderedField α]

/-! ### Arithmetic of `IEEE.float` -/

open IEEE

theorem float_zero : (0 : float α) = float.finite 0 := rfl

theorem float_one : (1 : float α) = float.finite 1 := rfl

theorem float_natCast (n : Nat) : ((n : Nat) : float α) = overflow (n : α) := rfl

theorem float_ofNat (n : Nat) [n.AtLeastTwo] :
    (OfNat.ofNat n : float α) = overflow (OfNat.ofNat n : α) := by
  show overflow ((OfNat.ofNat n : Nat) : α) = _
  simp

theorem float_ofScientific (m : Nat) (s : Bool) (e : Nat) :
    (OfScientific.ofScientific m s e : float α) =
      overflow (OfScientific.ofScientific m s e : α) := rfl

theorem finite_add_finite (x y : α) :
    float.finite x + float.finite y = overflow (x + y) := rfl

theorem finite_sub_finite (x y : α) :
    float.finite x - float.finite y = overflow (x - y) := by
  show overflow (x + -y) = _
  rw [sub_eq_add_neg]

theorem finite_mul_finite (x y : α) :
    float.finite x * float.finite y = overflow (x * y) := rfl

theorem neg_finite (x : α) : -(float.finite x) = float.finite (-x) := rfl

theorem float_lt_iff (a b : float α) : a < b ↔ float.blt a b = true := Iff.rfl

theorem float_le_iff (a b : float α) : a ≤ b ↔ float.ble a b = true := Iff.rfl

theorem flt_max_pos : (0 : α) < FLT_MAX := by
  unfold FLT_MAX
  norm_num

theorem overflow_finite (x : α) (h1 : -FLT_MAX ≤ x) (h2 : x ≤ FLT_MAX) :
    overflow x = float.finite x := by
  unfold overflow
  rw [if_neg (not_lt.mpr h2), if_neg (not_lt.mpr h1)]

theorem overflow_pos_inf (x : α) (h : FLT_MAX < x) : overflow x = float.pos_inf := by
  unfold overflow
  rw [if_pos h]

theorem overflow_neg_inf (x : α) (h : x < -FLT_MAX) : overflow x = float.neg_inf := by
  have hm := flt_max_pos (α := α)
  unfold overflow
  rw [if_neg (by linarith), if_pos h]

theorem overflow_cases (x : α) :
    (overflow x = float.finite x ∧ -FLT_MAX ≤ x ∧ x ≤ FLT_MAX) ∨
      (overflow x = float.pos_inf ∧ FLT_MAX < x) ∨
      (overflow x = float.neg_inf ∧ x < -FLT_MAX) := by
  by_cases h1 : FLT_MAX < x
  · exact Or.inr (Or.inl ⟨overflow_pos_inf x h1, h1⟩)
  · by_cases h2 : x < -FLT_MAX
    · exact Or.inr (Or.inr ⟨overflow_neg_inf x h2, h2⟩)
    · exact Or.inl ⟨overflow_finite x (not_lt.mp h2) (not_lt.mp h1), not_lt.mp h2,
        not_lt.mp h1⟩

theorem overflow_ne_nan (x : α) : overflow x ≠ float.nan := by
  rcases overflow_cases x with h | h | h <;> rw [h.1] <;> exact fun e => float.noConfusion e

theorem nan_add (x : float α) : float.nan + x = float.nan := by cases x <;> rfl

theorem add_nan (x : float α) : x + float.nan = float.nan := by cases x <;> rfl

theorem nan_sub (x : float α) : float.nan - x = float.nan := by cases x <;> rfl

theorem sub_nan (x : float α) : x - float.nan = float.nan := by cases x <;> rfl

theorem nan_mul (x : float α) : float.nan * x = float.nan := by cases x <;> rfl

theorem mul_nan (x : float α) : x * float.nan = float.nan := by cases x <;> rfl

theorem nan_div (x : float α) : float.nan / x = float.nan := by cases x <;> rfl

theorem div_nan (x : float α) : x / float.nan = float.nan := by cases x <;> rfl

theorem neg_nan : -(float.nan : float α) = float.nan := rfl

theorem not_nan_lt (x : float α) : ¬ (float.nan < x) := by
  intro h
  cases x <;> exact Bool.false_ne_true h

theorem not_lt_nan (x : float α) : ¬ (x < float.nan) := by
  intro h
  cases x <;> exact Bool.false_ne_true h

theorem not_nan_le (x : float α) : ¬ (float.nan ≤ x) := by
  intro h
  cases x <;> exact Bool.false_ne_true h

theorem not_le_nan (x : float α) : ¬ (x ≤ float.nan) := by
  intro h
  cases x <;> exact Bool.false_ne_true h

theorem finite_lt_finite (x y : α) : float.finite x < float.finite y ↔ x < y := by
  rw [float_lt_iff]
  simp [float.blt]

theorem finite_le_finite (x y : α) : float.finite x ≤ float.finite y ↔ x ≤ y := by
  rw [float_le_iff]
  simp [float.ble]

/-- A `float` is `≥ 0` exactly when it is `+inf` or a finite value `≥ 0`. -/
theorem float_nonneg_iff (x : float α) :
    0 ≤ x ↔ x = float.pos_inf ∨ ∃ r : α, x = float.finite r ∧ 0 ≤ r := by
  rw [float_zero]
  cases x with
  | finite r =>
    rw [finite_le_finite]
    constructor
    · intro h; exact Or.inr ⟨r, rfl, h⟩
    · rintro (h | ⟨r', h, h'⟩)
      · exact float.noConfusion h
      · cases h; exact h'
  | pos_inf => exact ⟨fun _ => Or.inl rfl, fun _ => rfl⟩
  | neg_inf =>
    constructor
    · intro h; exact absurd h Bool.false_ne_true
    · rintro (h | ⟨r', h, -⟩) <;> exact float.noConfusion h
  | nan =>
    constructor
    · intro h; exact absurd h Bool.false_ne_true
    · rintro (h | ⟨r', h, -⟩) <;> exact float.noConfusion h

/-- A `float` lies in `[0,1]` exactly when it is a finite value in `[0,1]`. -/
theorem float_unit_iff (x : float α) :
    0 ≤ x ∧ x ≤ 1 ↔ ∃ r : α, x = float.finite r ∧ 0 ≤ r ∧ r ≤ 1 := by
  rw [float_zero, float_one]
  cases x with
  | finite r =>
    rw [finite_le_finite, finite_le_finite]
    constructor
    · intro h; exact ⟨r, rfl, h⟩
    · rintro ⟨r', h, h'⟩
      cases h; exact h'
  | pos_inf =>
    constructor
    · intro h; exact absurd h.2 Bool.false_ne_true
    · rintro ⟨r', h, -⟩; exact float.noConfusion h
  | neg_inf =>
    constructor
    · intro h; exact absurd h.1 Bool.false_ne_true
    · rintro ⟨r', h, -⟩; exact float.noConfusion h
  | nan =>
    constructor
    · intro h; exact absurd h.1 Bool.false_ne_true
    · rintro ⟨r', h, -⟩; exact float.noConfusion h

end IeeeArithmetic

section IeeeSpiral

variable {α : Type} [LinearOrderedField α]

/-! ### Reachable spiral states in IEEE arithmetic -/

open IEEE

theorem float_not_ge_one (t : float α) (h : ¬ (1 ≤ t)) : t = float.nan ∨ t < 1 := by
  rw [float_one] at h ⊢
  cases t with
  | finite r =>
    rw [finite_le_finite] at h
    exact Or.inr ((finite_lt_finite r 1).mpr (not_le.mp h))
  | pos_inf => exact absurd rfl h
  | neg_inf => exact Or.inr rfl
  | nan => exact Or.inl rfl

theorem float_add_nonneg (c p : float α) (hc : 0 ≤ c) (hp : 0 ≤ p) : 0 ≤ c + p := by
  rw [float_nonneg_iff] at hc hp ⊢
  rcases hc with rfl | ⟨x, rfl, hx⟩ <;> rcases hp with rfl | ⟨y, rfl, hy⟩
  · exact Or.inl rfl
  · exact Or.inl rfl
  · exact Or.inl rfl
  · rw [finite_add_finite]
    rcases overflow_cases (x + y) with h | h | h
    · exact Or.inr ⟨x + y, h.1, add_nonneg hx hy⟩
    · exact Or.inl h.1
    · have := flt_max_pos (α := α)
      have h2 := h.2
      have := add_nonneg hx hy
      linarith

theorem float_lt_one_add_finite (c : float α) (y : α) (hc : c < 1) :
    c + float.finite y ≠ float.nan := by
  cases c with
  | finite x => rw [finite_add_finite]; exact overflow_ne_nan _
  | pos_inf => exact absurd hc Bool.false_ne_true
  | neg_inf => exact fun e => float.noConfusion e
  | nan => exact absurd hc (not_nan_lt _)

theorem ieee_spiral_advance_inv (s : spiral_state_t (float α)) (progress : float α)
    (h2 : 0 ≤ s.current_phase) (h3 : s.current_phase ≤ 6) :
    ∃ s' : spiral_state_t (float α), IEEE.spiral_advance (some s) progress = some s' ∧
      0 ≤ s'.current_phase ∧ s'.current_phase ≤ 6 ∧
      (s'.phase_completion = float.nan ∨ s'.phase_completion < 1) ∧
      (s.phase_completion < 1 → (∃ r : α, progress = float.finite r) →
        s'.phase_completion < 1) ∧
      (0 ≤ s.phase_completion → 0 ≤ progress → 0 ≤ s'.phase_completion) := by
  have h01 : (0 : float α) < 1 := by
    rw [float_zero, float_one, finite_lt_finite]; exact zero_lt_one
  have h00 : (0 : float α) ≤ 0 := by
    rw [float_zero, finite_le_finite]
  unfold IEEE.spiral_advance PHASE_AUTONOMY PHASE_ENTROPIC_DRIFT
  by_cases hc : s.phase_completion + progress ≥ 1
  · simp only [hc, if_true]
    by_cases ha : s.ascending = true
    · simp only [ha, if_true]
      by_cases hp : s.current_phase < 6
      · rw [if_pos hp]
        refine ⟨_, rfl, ?_, ?_, Or.inr h01, fun _ _ => h01, fun _ _ => h00⟩
        · exact Int.add_nonneg h2 (by decide)
        · exact Int.add_one_le_of_lt hp
      · rw [if_neg hp]
        refine ⟨_, rfl, ?_, ?_, Or.inr h01, fun _ _ => h01, fun _ _ => h00⟩
        · exact le_refl (0 : Int)
        · exact (by decide : (0 : Int) ≤ 6)
    · simp only [ha]
      exact ⟨_, rfl, h2, h3, Or.inr h01, fun _ _ => h01, fun _ _ => h00⟩
  · simp only [hc, if_false]
    refine ⟨_, rfl, h2, h3, float_not_ge_one _ hc, ?_, fun a b => float_add_nonneg _ _ a b⟩
    rintro hlt ⟨r, rfl⟩
    rcases float_not_ge_one _ hc with h | h
    · exact absurd h (float_lt_one_add_finite _ r hlt)
    · exact h

theorem ieee_spiral_run_inv (progress : List (float α)) :
    ∀ s : spiral_state_t (float α), 0 ≤ s.current_phase → s.current_phase ≤ 6 →
      (s.phase_completion = float.nan ∨ s.phase_completion < 1) →
      ∃ s' : spiral_state_t (float α), IEEE.spiral_run (some s) progress = some s' ∧
        0 ≤ s'.current_phase ∧ s'.current_phase ≤ 6 ∧
        (s'.phase_completion = float.nan ∨ s'.phase_completion < 1) ∧
        (s.phase_completion < 1 → (∀ p ∈ progress, ∃ r : α, p = float.finite r) →
          s'.phase_completion < 1) ∧
        (0 ≤ s.phase_completion → (∀ p ∈ progress, 0 ≤ p) → 0 ≤ s'.phase_completion) := by
  induction progress with
  | nil =>
    intro s h2 h3 h1
    exact ⟨s, rfl, h2, h3, h1, fun h _ => h, fun h _ => h⟩
  | cons p ps ih =>
    intro s h2 h3 _
    obtain ⟨s1, e1, a2, a3, a1, a4, a5⟩ := ieee_spiral_advance_inv s p h2 h3
    obtain ⟨s2, e2, b2, b3, b1, b4, b5⟩ := ih s1 a2 a3 a1
    refine ⟨s2, ?_, b2, b3, b1, ?_, ?_⟩
    · unfold IEEE.spiral_run at e2 ⊢
      rw [List.foldl_cons, e1]
      exact e2
    · intro hlt hall
      exact b4 (a4 hlt (hall p (List.mem_cons_self _ _)))
        (fun q hq => hall q (List.mem_cons_of_mem _ hq))
    · intro h0 hall
      exact b5 (a5 h0 (hall p (List.mem_cons_self _ _)))
        (fun q hq => hall q (List.mem_cons_of_mem _ hq))

/-- Claim C12, as stated, is refuted. One call of `spiral_advance` with the progress `-0.5`
on the state returned by `spiral_create` leaves `phase_completion = -0.5`, which is not
`≥ 0`; one call with the progress NaN leaves `phase_completion = NaN` (the test
`phase_completion >= 1.0f` is false for NaN), which is not `< 1`. -/
theorem ieee_spiral_reachable_counterexample :
    (∃ s : spiral_state_t (float ℚ),
      IEEE.spiral_run IEEE.spiral_create [-0.5] = some s ∧
      s.phase_completion = float.finite (-1 / 2) ∧ ¬ (0 ≤ s.phase_completion)) ∧
    (∃ s : spiral_state_t (float ℚ),
      IEEE.spiral_run IEEE.spiral_create [float.nan] = some s ∧
      s.phase_completion = float.nan ∧ ¬ (s.phase_completion < 1)) := by
  have hv : ((0 : float ℚ) + -0.5) = float.finite (-1 / 2) := by
    simp only [float_zero, float_ofScientific]
    norm_num [overflow, FLT_MAX, neg_finite, finite_add_finite]
  have hge : ¬ ((float.finite (-1 / 2) : float ℚ) ≥ 1) := by
    rw [ge_iff_le, float_one, finite_le_finite]
    norm_num
  have hn : ((0 : float ℚ) + float.nan) = float.nan := add_nan _
  have hgn : ¬ ((float.nan : float ℚ) ≥ 1) := not_le_nan _
  refine ⟨⟨⟨0, float.finite (-1 / 2), 0, true⟩, ?_, rfl, ?_⟩,
    ⟨⟨0, float.nan, 0, true⟩, ?_, rfl, not_nan_lt _⟩⟩
  · unfold IEEE.spiral_run IEEE.spiral_create IEEE.spiral_advance
    simp only [List.foldl_cons, List.foldl_nil, hv, hge, if_false]
    rfl
  · rw [float_zero, finite_le_finite]
    norm_num
  · unfold IEEE.spiral_run IEEE.spiral_create IEEE.spiral_advance
    simp only [List.foldl_cons, List.foldl_nil, hn, hgn, if_false]
    rfl

/-- Claim C12, amended. Every state reached from `spiral_create` by a sequence of
`spiral_advance` calls, whatever the progress values (infinities and NaN included), has
`current_phase` among `0..6` and a `phase_completion` that is NaN or `< 1`; if every
progress value is finite, `phase_completion < 1`; if every progress value is `≥ 0`,
`0 ≤ phase_completion < 1`. -/
theorem ieee_spiral_reachable_inv (progress : List (float α)) :
    ∃ s : spiral_state_t (float α), IEEE.spiral_run IEEE.spiral_create progress = some s ∧
      0 ≤ s.current_phase ∧ s.current_phase ≤ 6 ∧
      (s.phase_completion = float.nan ∨ s.phase_completion < 1) ∧
      ((∀ p ∈ progress, ∃ r : α, p = float.finite r) → s.phase_completion < 1) ∧
      ((∀ p ∈ progress, 0 ≤ p) → 0 ≤ s.phase_completion ∧ s.phase_completion < 1) := by
  have h01 : (0 : float α) < 1 := by
    rw [float_zero, float_one, finite_lt_finite]; exact zero_lt_one
  have h00 : (0 : float α) ≤ 0 := by
    rw [float_zero, finite_le_finite]
  obtain ⟨s, e, h2, h3, h1, h4, h5⟩ := ieee_spiral_run_inv progress
    { current_phase := PHASE_ENTROPIC_DRIFT, phase_completion := 0, cycle_count := 0,
      ascending := true }
    (le_refl (0 : Int)) (by decide : (0 : Int) ≤ 6) (Or.inr h01)
  refine ⟨s, e, h2, h3, h1, h4 h01, ?_⟩
  intro hall
  have hn := h5 h00 hall
  refine ⟨hn, ?_⟩
  rcases h1 with h | h
  · rw [h] at hn
    exact absurd hn (not_le_nan _)
  · exact h

theorem ieee_spiral_reachable_inv_witness :
    (∀ p ∈ ([0.5, 0.75, 0.25] : List (float ℚ)), 0 ≤ p) ∧
      ∃ s : spiral_state_t (float ℚ),
        IEEE.spiral_run IEEE.spiral_create [0.5, 0.75, 0.25] = some s ∧
        0 ≤ s.current_phase ∧ s.current_phase ≤ 6 ∧
        0 ≤ s.phase_completion ∧ s.phase_completion < 1 :=
  have hall : ∀ p ∈ ([0.5, 0.75, 0.25] : List (float ℚ)), 0 ≤ p := by
    intro p hp
    simp only [List.mem_cons, List.mem_singleton, List.not_mem_nil, or_false] at hp
    rcases hp with rfl | rfl | rfl <;>
      · simp only [float_zero, float_ofScientific]
        norm_num [overflow, FLT_MAX, finite_le_finite]
  ⟨hall, by
    obtain ⟨s, e, h2, h3, -, -, h5⟩ :=
      ieee_spiral_reachable_inv ([0.5, 0.75, 0.25] : List (float ℚ))
    exact ⟨s, e, h2, h3, h5 hall⟩⟩

end IeeeSpiral

section IeeeInformation

variable {α : Type} [LinearOrderedField α]

/-! ### `information_plane_update` in IEEE arithmetic -/

open IEEE

theorem pos_inf_add_neg_inf : (float.pos_inf + float.neg_inf : float α) = float.nan := rfl

theorem neg_inf_add_pos_inf : (float.neg_inf + float.pos_inf : float α) = float.nan := rfl

theorem foldl_range_congr {β : Type} (f g : β → Nat → β) (n : Nat) (b : β)
    (h : ∀ c j, j < n → f c j = g c j) :
    (List.range n).foldl f b = (List.range n).foldl g b := by
  induction n with
  | zero => rfl
  | succ n ih =>
    rw [List.range_succ, List.foldl_append, List.foldl_append,
      ih (fun c j hj => h c j (Nat.lt_succ_of_lt hj))]
    exact h _ n (Nat.lt_succ_self n)

theorem ieee_clamp_step (d : List (float α)) (i : Nat) (x : float α) :
    (if (if (d.set i x).getD i 0 > 1 then (d.set i x).set i 1 else d.set i x).getD i 0 < 0 then
        (if (d.set i x).getD i 0 > 1 then (d.set i x).set i 1 else d.set i x).set i 0
      else (if (d.set i x).getD i 0 > 1 then (d.set i x).set i 1 else d.set i x)) =
      d.set i (if x > 1 then 1 else if x < 0 then 0 else x) := by
  have h10 : ¬ ((1 : float α) < 0) := by
    rw [float_zero, float_one, finite_lt_finite]; exact not_lt.mpr (zero_le_one (α := α))
  have h01 : ¬ ((0 : float α) > 1) := h10
  have h00 : ¬ ((0 : float α) < 0) := by
    rw [float_zero, finite_lt_finite]; exact lt_irrefl (0 : α)
  by_cases hi : i < d.length
  · rw [getD_set_self d i x hi]
    by_cases h1 : x > 1
    · rw [if_pos h1, if_pos h1, List.set_set, getD_set_self d i 1 hi, if_neg h10]
    · rw [if_neg h1, if_neg h1, getD_set_self d i x hi]
      by_cases h0 : x < 0
      · rw [if_pos h0, if_pos h0, List.set_set]
      · rw [if_neg h0, if_neg h0]
  · have hle : d.length ≤ i := not_lt.mp hi
    have hs : ∀ y : float α, d.set i y = d := fun y => List.set_eq_of_length_le hle
    have hg : d.getD i 0 = 0 := by
      rw [List.getD_eq_getElem?_getD, List.getElem?_eq_none hle]; rfl
    simp only [hs, hg, if_neg h01, if_neg h00]

theorem ieee_clamp_range (x : float α) (hx : x ≠ float.nan) :
    0 ≤ (if x > 1 then 1 else if x < 0 then 0 else x) ∧
      (if x > 1 then 1 else if x < 0 then 0 else x) ≤ 1 := by
  have h0 : (0 : float α) ≤ 0 ∧ (0 : float α) ≤ 1 := by
    rw [float_zero, float_one, finite_le_finite, finite_le_finite]
    exact ⟨le_refl _, zero_le_one⟩
  have h1 : (0 : float α) ≤ 1 ∧ (1 : float α) ≤ 1 := by
    rw [float_zero, float_one, finite_le_finite, finite_le_finite]
    exact ⟨zero_le_one, le_refl _⟩
  by_cases hgt : x > 1
  · rw [if_pos hgt]; exact h1
  · rw [if_neg hgt]
    by_cases hlt : x < 0
    · rw [if_pos hlt]; exact h0
    · rw [if_neg hlt]
      rw [gt_iff_lt, float_one] at hgt
      rw [float_zero] at hlt
      rw [float_zero, float_one]
      cases x with
      | finite r =>
        rw [finite_lt_finite] at hgt hlt
        rw [finite_le_finite, finite_le_finite]
        exact ⟨not_lt.mp hlt, not_lt.mp hgt⟩
      | pos_inf => exact absurd rfl hgt
      | neg_inf => exact absurd rfl hlt
      | nan => exact absurd rfl hx

theorem ieee_clamp_nan (x : float α) :
    (if x > 1 then 1 else if x < 0 then 0 else x) = float.nan ↔ x = float.nan := by
  constructor
  · intro h
    by_cases hgt : x > 1
    · rw [if_pos hgt, float_one] at h; exact float.noConfusion h
    · rw [if_neg hgt] at h
      by_cases hlt : x < 0
      · rw [if_pos hlt, float_zero] at h; exact float.noConfusion h
      · rw [if_neg hlt] at h; exact h
  · intro h
    rw [h, if_neg (not_lt_nan _), if_neg (not_nan_lt _)]

theorem ieee_information_plane_update_eq (plane : information_plane_t (float α))
    (dt : float α) (hnn : plane.n_relations * plane.n_relations < SIZE_MOD) :
    IEEE.information_plane_update (some plane) dt =
      some { plane with
        information_flow := { plane.information_flow with
          data := (List.range plane.n_relations).foldl
            (fun d i =>
              d.set i
                (if ((List.range plane.n_relations).foldl
                      (fun nf i =>
                        nf.set i
                          (plane.information_flow.data.getD i 0 * (1 - dt) +
                            (List.range plane.n_relations).foldl
                              (fun incoming j =>
                                incoming +
                                  plane.connectivity.data.getD (j * plane.n_relations + i) 0 *
                                    plane.information_flow.data.getD j 0)
                              0 * dt))
                      (List.replicate plane.n_relations 0)).getD i 0 > 1 then 1
                else if ((List.range plane.n_relations).foldl
                      (fun nf i =>
                        nf.set i
                          (plane.information_flow.data.getD i 0 * (1 - dt) +
                            (List.range plane.n_relations).foldl
                              (fun incoming j =>
                                incoming +
                                  plane.connectivity.data.getD (j * plane.n_relations + i) 0 *
                                    plane.information_flow.data.getD j 0)
                              0 * dt))
                      (List.replicate plane.n_relations 0)).getD i 0 < 0 then 0
                else ((List.range plane.n_relations).foldl
                      (fun nf i =>
                        nf.set i
                          (plane.information_flow.data.getD i 0 * (1 - dt) +
                            (List.range plane.n_relations).foldl
                              (fun incoming j =>
                                incoming +
                                  plane.connectivity.data.getD (j * plane.n_relations + i) 0 *
                                    plane.information_flow.data.getD j 0)
                              0 * dt))
                      (List.replicate plane.n_relations 0)).getD i 0))
            plane.information_flow.data }
        complexity :=
          (List.range ((plane.n_relations * plane.n_relations) % SIZE_MOD)).foldl
            (fun sum_connections i =>
              sum_connections + fabsf (plane.connectivity.data.getD i 0)) 0 /
            (plane.n_relations : float α) } := by
  have hnew : (List.range plane.n_relations).foldl
      (fun new_flow i =>
        let incoming : float α := (List.range plane.n_relations).foldl
          (fun incoming j =>
            incoming +
              plane.connectivity.data.getD ((j * plane.n_relations + i) % SIZE_MOD) 0 *
                plane.information_flow.data.getD j 0)
          0
        new_flow.set i (plane.information_flow.data.getD i 0 * (1 - dt) + incoming * dt))
      (List.replicate plane.n_relations 0) =
      (List.range plane.n_relations).foldl
        (fun nf i =>
          nf.set i
            (plane.information_flow.data.getD i 0 * (1 - dt) +
              (List.range plane.n_relations).foldl
                (fun incoming j =>
                  incoming +
                    plane.connectivity.data.getD (j * plane.n_relations + i) 0 *
                      plane.information_flow.data.getD j 0)
                0 * dt))
        (List.replicate plane.n_relations 0) := by
    apply foldl_range_congr
    intro c i hi
    dsimp only
    congr 3
    apply foldl_range_congr
    intro c' j hj
    have hlt : j * plane.n_relations + i < SIZE_MOD := by
      have : j * plane.n_relations + i < plane.n_relations * plane.n_relations := by
        nlinarith
      omega
    rw [Nat.mod_eq_of_lt hlt]
  unfold IEEE.information_plane_update
  dsimp only
  rw [hnew]
  simp only [ieee_clamp_step]

/-- Claim C29, as stated, is refuted. For the plane with one relation, `connectivity = [1]`
and `flow = [3e38]`, and `dt = 10`: `flow * (1 - dt)` overflows to `-inf` and
`incoming * dt` to `+inf`, their sum is NaN, NaN passes both tests `> 1.0f` and `< 0.0f`,
and the stored `flow[0]` is NaN, which is not in `[0,1]`. -/
theorem ieee_information_flow_counterexample :
    ∃ p : information_plane_t (float ℚ),
      IEEE.information_plane_update
          (some
            { connectivity := { data := [1], shape := [1, 1], n_dims := 2, total_size := 1 }
              information_flow := { data := [3e38], shape := [1], n_dims := 1, total_size := 1 }
              complexity := 1
              n_relations := 1 })
          10 = some p ∧
      p.information_flow.data = [float.nan] ∧
      ¬ (0 ≤ p.information_flow.data.getD 0 0 ∧ p.information_flow.data.getD 0 0 ≤ 1) := by
  refine ⟨_, rfl, ?_, ?_⟩
  · simp only [List.range_succ, List.range_zero, List.nil_append, List.foldl_cons,
      List.foldl_nil, SIZE_MOD, List.replicate, Nat.zero_mul, Nat.zero_add, Nat.zero_mod,
      List.getD_cons_zero, List.set_cons_zero, float_zero, float_one, float_ofNat,
      float_ofScientific]
    norm_num [finite_sub_finite, finite_mul_finite, finite_add_finite, overflow, FLT_MAX,
      neg_inf_add_pos_inf, float_lt_iff, float.blt]
  · simp only [List.range_succ, List.range_zero, List.nil_append, List.foldl_cons,
      List.foldl_nil, SIZE_MOD, List.replicate, Nat.zero_mul, Nat.zero_add, Nat.zero_mod,
      List.getD_cons_zero, List.set_cons_zero, float_zero, float_one, float_ofNat,
      float_ofScientific]
    norm_num [finite_sub_finite, finite_mul_finite, finite_add_finite, overflow, FLT_MAX,
      neg_inf_add_pos_inf, float_lt_iff, float_le_iff, float.blt, float.ble]

/-- Claim C29, amended. For an information plane with `n ≥ 1` relations whose flow buffer
holds `n` elements and whose `n * n` fits a `size_t`, and every `dt`: after
`information_plane_update`, `flow[i]` is the result of the two tests `> 1.0f` (then `1`)
and `< 0.0f` (then `0`) applied to
`v = old_flow[i] * (1 - dt) + (Σ_j connectivity[j,i] * old_flow[j]) * dt`, with all sums over
the flow before the update. It is NaN exactly when `v` is NaN, and lies in `[0,1]`
otherwise; `connectivity` and `n_relations` are unchanged. -/
theorem ieee_information_plane_update_spec (plane : information_plane_t (float α))
    (dt : float α) (_hn : 1 ≤ plane.n_relations)
    (hlen : plane.information_flow.data.length = plane.n_relations)
    (hnn : plane.n_relations * plane.n_relations < SIZE_MOD) :
    ∃ p : information_plane_t (float α),
      IEEE.information_plane_update (some plane) dt = some p ∧
      p.connectivity = plane.connectivity ∧ p.n_relations = plane.n_relations ∧
      p.information_flow.data.length = plane.n_relations ∧
      ∀ i, i < plane.n_relations →
        ∃ v : float α,
          v = plane.information_flow.data.getD i 0 * (1 - dt) +
            (List.range plane.n_relations).foldl
              (fun incoming j =>
                incoming +
                  plane.connectivity.data.getD (j * plane.n_relations + i) 0 *
                    plane.information_flow.data.getD j 0)
              0 * dt ∧
          p.information_flow.data.getD i 0 = (if v > 1 then 1 else if v < 0 then 0 else v) ∧
          (p.information_flow.data.getD i 0 = float.nan ↔ v = float.nan) ∧
          (v ≠ float.nan →
            0 ≤ p.information_flow.data.getD i 0 ∧ p.information_flow.data.getD i 0 ≤ 1) := by
  refine ⟨_, ieee_information_plane_update_eq plane dt hnn, rfl, rfl, ?_, ?_⟩
  · dsimp only
    rw [set_loop_length (fun i => i), hlen]
  · intro i hi
    refine ⟨_, rfl, ?_, ?_, ?_⟩
    · dsimp only
      rw [set_loop_getD (fun i => i) _ _ _ i hi (by rw [hlen]; exact hi)
        (fun j _ hj => hj)]
      rw [set_loop_getD (fun i => i) _ _ _ i hi (by rw [List.length_replicate]; exact hi)
        (fun j _ hj => hj)]
    · dsimp only
      rw [set_loop_getD (fun i => i) _ _ _ i hi (by rw [hlen]; exact hi)
        (fun j _ hj => hj)]
      rw [set_loop_getD (fun i => i) _ _ _ i hi (by rw [List.length_replicate]; exact hi)
        (fun j _ hj => hj)]
      exact ieee_clamp_nan _
    · intro hv
      dsimp only
      rw [set_loop_getD (fun i => i) _ _ _ i hi (by rw [hlen]; exact hi)
        (fun j _ hj => hj)]
      rw [set_loop_getD (fun i => i) _ _ _ i hi (by rw [List.length_replicate]; exact hi)
        (fun j _ hj => hj)]
      exact ieee_clamp_range _ hv

end IeeeInformation

section IeeeExistential

variable {α : Type} [LinearOrderedField α]

/-! ### `existential_plane_update` in IEEE arithmetic -/

open IEEE

theorem size_lt_flt_max (n : Nat) (h : n < SIZE_MOD) : ((n : Nat) : α) ≤ FLT_MAX := by
  have h1 : ((n : Nat) : α) ≤ ((SIZE_MOD : Nat) : α) := by exact_mod_cast le_of_lt h
  have h2 : ((SIZE_MOD : Nat) : α) ≤ FLT_MAX := by
    unfold SIZE_MOD FLT_MAX
    norm_num
  exact le_trans h1 h2

theorem float_natCast_finite (n : Nat) (h : n < SIZE_MOD) :
    ((n : Nat) : float α) = float.finite (n : α) := by
  rw [float_natCast]
  apply overflow_finite
  · have := flt_max_pos (α := α)
    have h0 : (0 : α) ≤ (n : α) := Nat.cast_nonneg n
    linarith
  · exact size_lt_flt_max n h

/-- A sum that contains a NaN term is NaN. -/
theorem ieee_sum_nan (f : Nat → float α) (n : Nat) (b : float α) (j0 : Nat) (hj0 : j0 < n)
    (h : f j0 = float.nan) :
    (List.range n).foldl (fun s j => s + f j) b = float.nan := by
  induction n with
  | zero => exact absurd hj0 (Nat.not_lt_zero _)
  | succ n ih =>
    rw [List.range_succ, List.foldl_append]
    simp only [List.foldl_cons, List.foldl_nil]
    rcases Nat.lt_succ_iff_lt_or_eq.mp hj0 with hlt | heq
    · rw [ih hlt, nan_add]
    · rw [← heq, h, add_nan]

/-- A sum of terms that are NaN or in `[0,1]`, of a length below `FLT_MAX`, is NaN or a
finite value between `0` and the number of terms. -/
theorem ieee_sum_unit (f : Nat → float α) (n : Nat) (hn : ((n : Nat) : α) ≤ FLT_MAX)
    (h : ∀ i, f i = float.nan ∨ (0 ≤ f i ∧ f i ≤ 1)) :
    (List.range n).foldl (fun s j => s + f j) 0 = float.nan ∨
      ∃ r : α, (List.range n).foldl (fun s j => s + f j) 0 = float.finite r ∧ 0 ≤ r ∧
        r ≤ (n : α) := by
  induction n with
  | zero => exact Or.inr ⟨0, rfl, le_refl _, by simp⟩
  | succ n ih =>
    have hn' : ((n : Nat) : α) ≤ FLT_MAX := by
      have : ((n : Nat) : α) ≤ ((n + 1 : Nat) : α) := by exact_mod_cast Nat.le_succ n
      exact le_trans this hn
    rw [List.range_succ, List.foldl_append]
    simp only [List.foldl_cons, List.foldl_nil]
    rcases ih hn' with h1 | ⟨r, h1, h2, h3⟩
    · rw [h1, nan_add]; exact Or.inl rfl
    · rw [h1]
      rcases h n with h4 | h4
      · rw [h4, add_nan]; exact Or.inl rfl
      · obtain ⟨t, h5, h6, h7⟩ := (float_unit_iff _).mp h4
        rw [h5, finite_add_finite]
        have hle : r + t ≤ ((n + 1 : Nat) : α) := by push_cast; linarith
        have hm := flt_max_pos (α := α)
        rw [overflow_finite (r + t) (by linarith) (le_trans hle hn)]
        exact Or.inr ⟨r + t, rfl, by linarith, hle⟩

/-- A sum of terms that are NaN or `≥ 0` is NaN or `≥ 0`. -/
theorem ieee_sum_nonneg (f : Nat → float α) (n : Nat) (h : ∀ i, f i = float.nan ∨ 0 ≤ f i) :
    (List.range n).foldl (fun s j => s + f j) 0 = float.nan ∨
      0 ≤ (List.range n).foldl (fun s j => s + f j) 0 := by
  induction n with
  | zero =>
    refine Or.inr ?_
    show (0 : float α) ≤ 0
    rw [float_zero, finite_le_finite]
  | succ n ih =>
    rw [List.range_succ, List.foldl_append]
    simp only [List.foldl_cons, List.foldl_nil]
    rcases ih with h1 | h1
    · rw [h1, nan_add]; exact Or.inl rfl
    · rcases h n with h4 | h4
      · rw [h4, add_nan]; exact Or.inl rfl
      · exact Or.inr (float_add_nonneg _ _ h1 h4)

theorem fabsf_nonneg (x : float α) : fabsf x = float.nan ∨ 0 ≤ fabsf x := by
  cases x with
  | finite r =>
    refine Or.inr ?_
    show (0 : float α) ≤ float.finite |r|
    rw [float_zero, finite_le_finite]
    exact abs_nonneg r
  | pos_inf => exact Or.inr rfl
  | neg_inf => exact Or.inr rfl
  | nan => exact Or.inl rfl

theorem float_div_nonneg (x : float α) (n : Nat) (hx : x = float.nan ∨ 0 ≤ x) :
    x / ((n : Nat) : float α) = float.nan ∨ 0 ≤ x / ((n : Nat) : float α) := by
  have hn0 : (0 : α) ≤ (n : α) := Nat.cast_nonneg n
  have hm := flt_max_pos (α := α)
  rcases hx with rfl | hx
  · exact Or.inl (nan_div _)
  · rw [float_natCast]
    rcases (float_nonneg_iff x).mp hx with rfl | ⟨r, rfl, hr⟩
    · rcases overflow_cases (n : α) with h | h | h
      · rw [h.1]
        refine Or.inr ?_
        show (0 : float α) ≤ float.div float.pos_inf (float.finite (n : α))
        simp only [float.div, if_neg (not_lt.mpr hn0)]
        rfl
      · rw [h.1]; exact Or.inl rfl
      · have := h.2; linarith
    · rcases overflow_cases (n : α) with h | h | h
      · rw [h.1]
        show float.div (float.finite r) (float.finite (n : α)) = float.nan ∨
          (0 : float α) ≤ float.div (float.finite r) (float.finite (n : α))
        simp only [float.div]
        by_cases hz : (n : α) = 0
        · rw [if_pos hz]
          unfold signed_inf
          by_cases hr0 : r > 0
          · rw [if_pos hr0]; exact Or.inr rfl
          · rw [if_neg hr0, if_neg (not_lt.mpr hr)]; exact Or.inl rfl
        · rw [if_neg hz]
          have hq : 0 ≤ r / (n : α) := div_nonneg hr hn0
          rcases overflow_cases (r / (n : α)) with h' | h' | h'
          · rw [h'.1]
            refine Or.inr ?_
            rw [float_zero, finite_le_finite]; exact hq
          · rw [h'.1]; exact Or.inr rfl
          · have := h'.2; linarith
      · rw [h.1]
        refine Or.inr ?_
        show (0 : float α) ≤ float.finite 0
        rw [float_zero, finite_le_finite]
      · have := h.2; linarith

theorem float_unit_div (r : α) (n : Nat) (h1 : 1 ≤ n) (hn : ((n : Nat) : α) ≤ FLT_MAX)
    (hr0 : 0 ≤ r) (hrn : r ≤ (n : α)) :
    0 ≤ float.finite r / ((n : Nat) : float α) ∧ float.finite r / ((n : Nat) : float α) ≤ 1 := by
  have hpos : (0 : α) < (n : α) := by exact_mod_cast h1
  have hm := flt_max_pos (α := α)
  rw [float_natCast, overflow_finite (n : α) (by linarith) hn]
  show (0 : float α) ≤ float.div (float.finite r) (float.finite (n : α)) ∧
    float.div (float.finite r) (float.finite (n : α)) ≤ 1
  simp only [float.div, if_neg (ne_of_gt hpos)]
  have hq0 : 0 ≤ r / (n : α) := div_nonneg hr0 (le_of_lt hpos)
  have hq1 : r / (n : α) ≤ 1 := (div_le_one hpos).mpr hrn
  have h1m : (1 : α) ≤ FLT_MAX := by unfold FLT_MAX; norm_num
  rw [overflow_finite _ (by linarith) (by linarith)]
  exact (float_unit_iff _).mpr ⟨_, rfl, hq0, hq1⟩

theorem neg_mul_self_nonpos (d : float α) : -d * d = float.nan ∨ -d * d ≤ 0 := by
  cases d with
  | finite r =>
    refine Or.inr ?_
    rw [neg_finite, finite_mul_finite]
    have hle : -r * r ≤ 0 := by nlinarith [mul_self_nonneg r]
    have hm := flt_max_pos (α := α)
    rcases overflow_cases (-r * r) with h | h | h
    · rw [h.1, float_zero, finite_le_finite]; exact hle
    · have := h.2; linarith
    · rw [h.1]; rfl
  | pos_inf => exact Or.inr rfl
  | neg_inf => exact Or.inr rfl
  | nan => exact Or.inl rfl

/-- The results of `existential_plane_update`, each field in terms of the fields computed
before it. -/
theorem ieee_existential_update_shape (M : libm (float α))
    (plane : existential_plane_t (float α)) (dt : float α) :
    ∃ p : existential_plane_t (float α),
      IEEE.existential_plane_update M (some plane) dt = some p ∧
      p.self_model.total_size = plane.self_model.total_size ∧
      p.image_convergence =
        (List.range plane.self_model.total_size).foldl
          (fun convergence_sum i =>
            convergence_sum +
              M.expf (-(p.local_image.data.getD i 0 - p.global_image.data.getD i 0) *
                (p.local_image.data.getD i 0 - p.global_image.data.getD i 0)))
          0 / (plane.self_model.total_size : float α) ∧
      p.self_reference_degree = p.image_convergence ∧
      p.operational_closure = decide (p.self_reference_degree > 0.7) ∧
      p.autonomy_level =
        (if p.operational_closure = true then
          fminf 1
            (M.tanhf
              ((List.range plane.self_model.total_size).foldl
                (fun identity_strength i =>
                  identity_strength + fabsf (p.identity_state.data.getD i 0))
                0 / (plane.self_model.total_size : float α)) * 1.2)
        else
          M.tanhf
            ((List.range plane.self_model.total_size).foldl
              (fun identity_strength i =>
                identity_strength + fabsf (p.identity_state.data.getD i 0))
              0 / (plane.self_model.total_size : float α))) ∧
      p.self_aware =
        (decide (p.autonomy_level > 0.6) && decide (p.self_reference_degree > 0.5)) := by
  unfold IEEE.existential_plane_update
  dsimp only
  exact ⟨_, rfl, rfl, rfl, rfl, rfl, rfl, rfl⟩

/-- Claim C15, amended. For an `expf` with values in `[0,1]` on arguments `≤ 0` (`-inf`
included) and NaN on NaN, an existential plane of model size `1 ≤ N < 2^64` and every `dt`:
the `image_convergence` stored by `existential_plane_update` is NaN or lies in `[0,1]`. -/
theorem ieee_image_convergence_bounds (M : libm (float α))
    (hexp : ∀ v : float α, v ≤ 0 → 0 ≤ M.expf v ∧ M.expf v ≤ 1)
    (hnan : M.expf float.nan = float.nan)
    (plane : existential_plane_t (float α)) (dt : float α)
    (hN : 1 ≤ plane.self_model.total_size) (hsz : plane.self_model.total_size < SIZE_MOD) :
    ∃ p : existential_plane_t (float α),
      IEEE.existential_plane_update M (some plane) dt = some p ∧
      (p.image_convergence = float.nan ∨
        (0 ≤ p.image_convergence ∧ p.image_convergence ≤ 1)) := by
  obtain ⟨p, hp, -, hc, -⟩ := ieee_existential_update_shape M plane dt
  refine ⟨p, hp, ?_⟩
  rw [hc]
  have hterm : ∀ i,
      M.expf (-(p.local_image.data.getD i 0 - p.global_image.data.getD i 0) *
          (p.local_image.data.getD i 0 - p.global_image.data.getD i 0)) = float.nan ∨
        (0 ≤ M.expf (-(p.local_image.data.getD i 0 - p.global_image.data.getD i 0) *
            (p.local_image.data.getD i 0 - p.global_image.data.getD i 0)) ∧
          M.expf (-(p.local_image.data.getD i 0 - p.global_image.data.getD i 0) *
            (p.local_image.data.getD i 0 - p.global_image.data.getD i 0)) ≤ 1) := by
    intro i
    rcases neg_mul_self_nonpos
      (p.local_image.data.getD i 0 - p.global_image.data.getD i 0) with h | h
    · rw [h, hnan]; exact Or.inl rfl
    · exact Or.inr (hexp _ h)
  rcases ieee_sum_unit _ plane.self_model.total_size (size_lt_flt_max _ hsz) hterm with
    h | ⟨r, h, h0, h1⟩
  · rw [h, nan_div]; exact Or.inl rfl
  · rw [h]
    exact Or.inr (float_unit_div r _ hN (size_lt_flt_max _ hsz) h0 h1)

theorem fminf_one_unit (t : α) (h0 : 0 ≤ t) (_h1 : t ≤ 1) :
    0 ≤ fminf (1 : float α) (float.finite t * 1.2) ∧
      fminf (1 : float α) (float.finite t * 1.2) ≤ 1 := by
  have hm : (2 : α) ≤ FLT_MAX := by unfold FLT_MAX; norm_num
  have h12 : (1.2 : float α) = float.finite 1.2 := by
    rw [float_ofScientific]
    apply overflow_finite <;> norm_num <;> linarith
  have hb : t * 1.2 ≤ 2 := by norm_num; linarith
  have hb0 : 0 ≤ t * 1.2 := by norm_num; linarith
  rw [h12, finite_mul_finite, overflow_finite _ (by linarith) (by linarith), float_one]
  show (0 : float α) ≤ (if float.blt (float.finite 1) (float.finite (t * 1.2)) then
      float.finite 1 else float.finite (t * 1.2)) ∧
    (if float.blt (float.finite 1) (float.finite (t * 1.2)) then
      float.finite 1 else float.finite (t * 1.2)) ≤ float.finite 1
  by_cases hlt : (1 : α) < t * 1.2
  · have hb : float.blt (float.finite (1 : α)) (float.finite (t * 1.2)) = true := by
      simp [float.blt, hlt]
    rw [hb, if_pos rfl, float_zero, finite_le_finite, finite_le_finite]
    exact ⟨zero_le_one, le_refl _⟩
  · have hb : float.blt (float.finite (1 : α)) (float.finite (t * 1.2)) = false := by
      simp only [float.blt, decide_eq_false_iff_not]; exact hlt
    rw [hb, if_neg Bool.false_ne_true, float_zero, finite_le_finite, finite_le_finite]
    exact ⟨hb0, not_lt.mp hlt⟩

/-- Claim C32, amended. For a `tanhf` with values in `[0,1]` on arguments `≥ 0` (`+inf`
included) and NaN on NaN, and an existential plane of model size `N ≥ 1`: after
`existential_plane_update`, `autonomy_level` is `tanhf` of the mean of `|identity_state[i]|`
over the just-updated identity state, replaced by `fminf(1, that value * 1.2)` exactly when
`operational_closure` is true; the stored value is NaN or lies in `[0,1]`. -/
theorem ieee_autonomy_spec (M : libm (float α))
    (ht : ∀ v : float α, 0 ≤ v → 0 ≤ M.tanhf v ∧ M.tanhf v ≤ 1)
    (htn : M.tanhf float.nan = float.nan)
    (plane : existential_plane_t (float α)) (dt : float α)
    (_hN : 1 ≤ plane.self_model.total_size) :
    ∃ p : existential_plane_t (float α),
      IEEE.existential_plane_update M (some plane) dt = some p ∧
      (p.operational_closure = true →
        p.autonomy_level =
          fminf 1
            (M.tanhf
              ((List.range plane.self_model.total_size).foldl
                (fun identity_strength i =>
                  identity_strength + fabsf (p.identity_state.data.getD i 0))
                0 / (plane.self_model.total_size : float α)) * 1.2)) ∧
      (p.operational_closure = false →
        p.autonomy_level =
          M.tanhf
            ((List.range plane.self_model.total_size).foldl
              (fun identity_strength i =>
                identity_strength + fabsf (p.identity_state.data.getD i 0))
              0 / (plane.self_model.total_size : float α))) ∧
      (p.autonomy_level = float.nan ∨ (0 ≤ p.autonomy_level ∧ p.autonomy_level ≤ 1)) := by
  obtain ⟨p, hp, -, -, -, -, ha, -⟩ := ieee_existential_update_shape M plane dt
  have hT : M.tanhf
        ((List.range plane.self_model.total_size).foldl
          (fun identity_strength i =>
            identity_strength + fabsf (p.identity_state.data.getD i 0))
          0 / (plane.self_model.total_size : float α)) = float.nan ∨
      (0 ≤ M.tanhf
          ((List.range plane.self_model.total_size).foldl
            (fun identity_strength i =>
              identity_strength + fabsf (p.identity_state.data.getD i 0))
            0 / (plane.self_model.total_size : float α)) ∧
        M.tanhf
          ((List.range plane.self_model.total_size).foldl
            (fun identity_strength i =>
              identity_strength + fabsf (p.identity_state.data.getD i 0))
            0 / (plane.self_model.total_size : float α)) ≤ 1) := by
    rcases float_div_nonneg _ plane.self_model.total_size
      (ieee_sum_nonneg (fun i => fabsf (p.identity_state.data.getD i 0))
        plane.self_model.total_size (fun i => fabsf_nonneg _)) with h | h
    · rw [h, htn]; exact Or.inl rfl
    · exact Or.inr (ht _ h)
  refine ⟨p, hp, ?_, ?_, ?_⟩
  · intro hc
    rw [ha, if_pos hc]
  · intro hc
    rw [ha, if_neg (by rw [hc]; exact Bool.false_ne_true)]
  · rw [ha]
    by_cases hc : p.operational_closure = true
    · rw [if_pos hc]
      rcases hT with h | h
      · rw [h, nan_mul]
        refine Or.inr ?_
        show (0 : float α) ≤ 1 ∧ (1 : float α) ≤ 1
        rw [float_zero, float_one, finite_le_finite, finite_le_finite]
        exact ⟨zero_le_one, le_refl _⟩
      · obtain ⟨t, h5, h6, h7⟩ := (float_unit_iff _).mp h
        rw [h5]
        exact Or.inr (fminf_one_unit t h6 h7)
    · rw [if_neg hc]
      exact hT

end IeeeExistential

section IeeeNanPropagation

variable {α : Type} [LinearOrderedField α]

/-! ### Propagation of NaN through `existential_plane_update` -/

open IEEE

/-- The buffers written by `existential_plane_update`, each in terms of the buffers written
before it. -/
theorem ieee_existential_update_data (M : libm (float α))
    (plane : existential_plane_t (float α)) (dt : float α) :
    ∃ p : existential_plane_t (float α),
      IEEE.existential_plane_update M (some plane) dt = some p ∧
      p.self_model.total_size = plane.self_model.total_size ∧
      p.local_image.data =
        (List.range plane.self_model.total_size).foldl
          (fun d i =>
            d.set i
              (M.tanhf
                ((List.range plane.self_model.total_size).foldl
                  (fun local_perception j =>
                    local_perception +
                      plane.identity_state.data.getD j 0 *
                        M.expf
                          (-(fabsf (((i : Nat) : float α) - ((j : Nat) : float α)) /
                                (plane.self_model.total_size : float α)) *
                              (fabsf (((i : Nat) : float α) - ((j : Nat) : float α)) /
                                (plane.self_model.total_size : float α)) * 2))
                  0 / M.sqrtf (plane.self_model.total_size : float α))))
          plane.local_image.data ∧
      p.self_model.data =
        (List.range plane.self_model.total_size).foldl
          (fun d i =>
            d.set i (d.getD i 0 + (p.local_image.data.getD i 0 - d.getD i 0) * dt * 0.2))
          plane.self_model.data ∧
      p.identity_state.data =
        (List.range plane.self_model.total_size).foldl
          (fun d i =>
            d.set i
              (0.6 * p.global_image.data.getD i 0 +
                0.4 * M.tanhf
                  ((List.range plane.self_model.total_size).foldl
                    (fun coherence j =>
                      coherence +
                        p.self_model.data.getD j 0 *
                          M.cosf (2 * M.M_PI * ((size_sub i j : Nat) : float α) /
                            (plane.self_model.total_size : float α)))
                    0 / (plane.self_model.total_size : float α))))
          plane.identity_state.data := by
  unfold IEEE.existential_plane_update
  dsimp only
  exact ⟨_, rfl, rfl, rfl, rfl, rfl⟩

theorem ieee_existential_update_unique (M : libm (float α))
    (plane : existential_plane_t (float α)) (dt : float α)
    (p q : existential_plane_t (float α))
    (hp : IEEE.existential_plane_update M (some plane) dt = some p)
    (hq : IEEE.existential_plane_update M (some plane) dt = some q) : p = q :=
  Option.some.inj (hp.symm.trans hq)

/-- A plane whose identity state holds a NaN is updated to a plane whose
`image_convergence` and `autonomy_level` are NaN. -/
theorem ieee_existential_nan (M : libm (float α)) (hte : M.tanhf float.nan = float.nan)
    (hex : M.expf float.nan = float.nan) (plane : existential_plane_t (float α))
    (dt : float α) (hN : 1 ≤ plane.self_model.total_size)
    (hl : plane.local_image.data.length = plane.self_model.total_size)
    (hs : plane.self_model.data.length = plane.self_model.total_size)
    (hi : plane.identity_state.data.length = plane.self_model.total_size)
    (j0 : Nat) (hj0 : j0 < plane.self_model.total_size)
    (hnan : plane.identity_state.data.getD j0 0 = float.nan) :
    ∃ p : existential_plane_t (float α),
      IEEE.existential_plane_update M (some plane) dt = some p ∧
      p.image_convergence = float.nan ∧ p.operational_closure = false ∧
      p.autonomy_level = float.nan := by
  obtain ⟨p, hp, -, hloc, hsm, hid⟩ := ieee_existential_update_data M plane dt
  obtain ⟨q, hq, -, hc, hr, hcl, ha, -⟩ := ieee_existential_update_shape M plane dt
  have hpq : q = p := ieee_existential_update_unique M plane dt q p hq hp
  subst hpq
  have hL : ∀ i, i < plane.self_model.total_size → q.local_image.data.getD i 0 = float.nan := by
    intro i hi'
    rw [hloc, set_loop_getD (fun i => i) _ _ _ i hi' (by rw [hl]; exact hi')
      (fun j _ hj => hj)]
    rw [ieee_sum_nan _ _ _ j0 hj0 (by rw [hnan, nan_mul]), nan_div, hte]
  have hconv : q.image_convergence = float.nan := by
    rw [hc, ieee_sum_nan _ _ _ 0 hN (by rw [hL 0 hN, nan_sub, neg_nan, nan_mul, hex]), nan_div]
  have hS : ∀ i, i < plane.self_model.total_size → q.self_model.data.getD i 0 = float.nan := by
    intro i hi'
    rw [hsm, map_loop_getD (fun i v => v + (q.local_image.data.getD i 0 - v) * dt * 0.2) _ _ i
      hi' (by rw [hs]; exact hi')]
    rw [hL i hi', nan_sub, nan_mul, nan_mul, add_nan]
  have hI : ∀ i, i < plane.self_model.total_size →
      q.identity_state.data.getD i 0 = float.nan := by
    intro i hi'
    rw [hid, set_loop_getD (fun i => i) _ _ _ i hi' (by rw [hi]; exact hi')
      (fun j _ hj => hj)]
    rw [ieee_sum_nan _ _ _ 0 hN (by rw [hS 0 hN, nan_mul]), nan_div, hte, mul_nan, add_nan]
  have hclf : q.operational_closure = false := by
    rw [hcl, hr, hconv]
    exact decide_eq_false (not_lt_nan _)
  refine ⟨q, hp, hconv, hclf, ?_⟩
  rw [ha, if_neg (by rw [hclf]; exact Bool.false_ne_true)]
  rw [ieee_sum_nan _ _ _ 0 hN (by rw [hI 0 hN]; rfl), nan_div, hte]

end IeeeNanPropagation

section IeeeOverflowStep

variable {α : Type} [LinearOrderedField α]

/-! ### An update that overflows -/

open IEEE

theorem real_tanh_bounds (x : ℝ) : -1 ≤ Real.tanh x ∧ Real.tanh x ≤ 1 := by
  have hc : 0 < Real.cosh x := Real.cosh_pos x
  have h1 : Real.sinh x < Real.cosh x := Real.sinh_lt_cosh x
  have h2 : 0 < Real.cosh x + Real.sinh x := by
    rw [Real.cosh_add_sinh]; exact Real.exp_pos x
  rw [Real.tanh_eq_sinh_div_cosh]
  constructor
  · rw [le_div_iff₀ hc]; linarith
  · rw [div_le_one hc]; linarith

theorem libm_ieee_tanhf_nan (m : libm α) : (libm_ieee m).tanhf float.nan = float.nan := rfl

theorem libm_ieee_expf_nan (m : libm α) : (libm_ieee m).expf float.nan = float.nan := rfl

theorem libm_ieee_tanhf_cases (m : libm α) (hb : ∀ x, -1 ≤ m.tanhf x ∧ m.tanhf x ≤ 1)
    (v : float α) :
    (libm_ieee m).tanhf v = float.nan ∨
      ∃ t : α, (libm_ieee m).tanhf v = float.finite t ∧ -1 ≤ t ∧ t ≤ 1 := by
  have h1m : (1 : α) ≤ FLT_MAX := by unfold FLT_MAX; norm_num
  cases v with
  | finite x =>
    refine Or.inr ⟨m.tanhf x, ?_, hb x⟩
    show overflow (m.tanhf x) = _
    exact overflow_finite _ (by linarith [(hb x).1]) (by linarith [(hb x).2])
  | pos_inf => exact Or.inr ⟨1, rfl, by norm_num, le_refl _⟩
  | neg_inf => exact Or.inr ⟨-1, rfl, le_refl _, by norm_num⟩
  | nan => exact Or.inl rfl

theorem float_ten : (10 : float α) = float.finite 10 := by
  rw [float_ofNat]
  apply overflow_finite <;> norm_num [FLT_MAX]

/-- With `dt = 3e38`, a self-model element `10` and a local image in `[-1,1]`, the update
`self_model[i] += (local_image[i] - self_model[i]) * dt * 0.2f` overflows to `-inf`. -/
theorem overflow_step (t : α) (h1 : -1 ≤ t) (h2 : t ≤ 1) :
    (10 : float α) + (float.finite t - 10) * 3e38 * 0.2 = float.neg_inf := by
  have hm : (340282346638528859811704183484516925440 : α) = FLT_MAX := rfl
  have h3 : (3e38 : float α) = float.finite 3e38 := by
    rw [float_ofScientific]
    apply overflow_finite <;> norm_num [FLT_MAX]
  have h4 : (0.2 : float α) = float.finite 0.2 := by
    rw [float_ofScientific]
    apply overflow_finite <;> norm_num [FLT_MAX]
  rw [float_ten, h3, h4, finite_sub_finite,
    overflow_finite (t - 10) (by rw [← hm]; linarith) (by rw [← hm]; linarith),
    finite_mul_finite, overflow_neg_inf ((t - 10) * 3e38) (by rw [← hm]; norm_num; linarith)]
  have h5 : (float.neg_inf : float α) * float.finite 0.2 = float.neg_inf := by
    show signed_inf (-(0.2 : α)) = float.neg_inf
    unfold signed_inf
    norm_num
  rw [h5]
  rfl

theorem size_sub_one_zero : size_sub 1 0 = 1 := by
  unfold size_sub SIZE_MOD
  norm_num

theorem size_sub_one_one : size_sub 1 1 = 0 := by
  unfold size_sub SIZE_MOD
  norm_num

/-- The cosine factors of the coherence sum for `i = 1` and model size 2, with the real
cosine and `π`: `cos(2π * 1 / 2) = -1` and `cos(2π * 0 / 2) = 1`. -/
theorem ieee_cos_phase (m : libm ℝ) (hc : m.cosf = Real.cos) (hpi : m.M_PI = Real.pi) :
    (libm_ieee m).cosf (2 * (libm_ieee m).M_PI * ((1 : Nat) : float ℝ) / ((2 : Nat) : float ℝ)) =
        float.finite (-1) ∧
      (libm_ieee m).cosf (2 * (libm_ieee m).M_PI * ((0 : Nat) : float ℝ) / ((2 : Nat) : float ℝ)) =
        float.finite 1 := by
  have hm : (340282346638528859811704183484516925440 : ℝ) = FLT_MAX := rfl
  have hp0 := Real.pi_pos
  have hp4 := Real.pi_le_four
  have hM : (libm_ieee m).M_PI = float.finite Real.pi := by
    show overflow m.M_PI = _
    rw [hpi]
    exact overflow_finite _ (by rw [← hm]; linarith) (by rw [← hm]; linarith)
  have h2 : (2 : float ℝ) = float.finite 2 := by
    rw [float_ofNat]
    apply overflow_finite <;> norm_num [FLT_MAX]
  have hn2 : ((2 : Nat) : float ℝ) = float.finite 2 := by
    rw [float_natCast]
    apply overflow_finite <;> norm_num [FLT_MAX]
  have hn1 : ((1 : Nat) : float ℝ) = float.finite 1 := by
    rw [float_natCast_finite 1 (by norm_num [SIZE_MOD]), Nat.cast_one]
  have hn0 : ((0 : Nat) : float ℝ) = float.finite 0 := by
    rw [float_natCast_finite 0 (by norm_num [SIZE_MOD]), Nat.cast_zero]
  have h2pi : (2 : float ℝ) * (libm_ieee m).M_PI = float.finite (2 * Real.pi) := by
    rw [h2, hM, finite_mul_finite]
    exact overflow_finite _ (by rw [← hm]; linarith) (by rw [← hm]; linarith)
  have hdiv : ∀ a : ℝ, -8 ≤ a → a ≤ 8 →
      (float.finite a : float ℝ) / float.finite 2 = float.finite (a / 2) := by
    intro a ha1 ha2
    show float.div (float.finite a) (float.finite 2) = _
    simp only [float.div, if_neg (two_ne_zero (α := ℝ))]
    exact overflow_finite _ (by rw [← hm]; linarith) (by rw [← hm]; linarith)
  constructor
  · rw [h2pi, hn1, hn2, finite_mul_finite,
      overflow_finite (2 * Real.pi * 1) (by rw [← hm]; linarith) (by rw [← hm]; linarith),
      hdiv _ (by linarith) (by linarith)]
    show overflow (m.cosf (2 * Real.pi * 1 / 2)) = _
    have : 2 * Real.pi * 1 / 2 = Real.pi := by ring
    rw [hc, this, Real.cos_pi]
    apply overflow_finite <;> norm_num [FLT_MAX]
  · rw [h2pi, hn0, hn2, finite_mul_finite,
      overflow_finite (2 * Real.pi * 0) (by rw [← hm]; linarith) (by rw [← hm]; linarith),
      hdiv _ (by linarith) (by linarith)]
    show overflow (m.cosf (2 * Real.pi * 0 / 2)) = _
    have : 2 * Real.pi * 0 / 2 = 0 := by ring
    rw [hc, this, Real.cos_zero]
    apply overflow_finite <;> norm_num [FLT_MAX]

/-- The coherence sum `s0 * cos(π) + s1 * cos(0)` of two self-model elements that are NaN or
`-inf` is NaN: `-inf * -1 = +inf` and `+inf + -inf` is NaN. -/
theorem coherence_nan (s0 s1 : float α) (h0 : s0 = float.nan ∨ s0 = float.neg_inf)
    (h1 : s1 = float.nan ∨ s1 = float.neg_inf) :
    (0 : float α) + s0 * float.finite (-1) + s1 * float.finite 1 = float.nan := by
  rcases h0 with rfl | rfl
  · rw [nan_mul, add_nan, nan_add]
  · have ha : (float.neg_inf : float α) * float.finite (-1) = float.pos_inf := by
      show signed_inf (-(-1 : α)) = float.pos_inf
      unfold signed_inf
      norm_num
    have hb : (0 : float α) + float.pos_inf = float.pos_inf := rfl
    rw [ha, hb]
    rcases h1 with rfl | rfl
    · rw [nan_mul, add_nan]
    · have hc : (float.neg_inf : float α) * float.finite 1 = float.neg_inf := by
        show signed_inf (-(1 : α)) = float.neg_inf
        unfold signed_inf
        norm_num
      rw [hc]
      rfl

/-- Updating the finite plane `existential_plane_overflow` with `dt = 3e38` leaves a NaN
in `identity_state[1]`. -/
theorem ieee_existential_overflow_step (m : libm ℝ) (ht : m.tanhf = Real.tanh)
    (hc : m.cosf = Real.cos) (hpi : m.M_PI = Real.pi) :
    ∃ p : existential_plane_t (float ℝ),
      IEEE.existential_plane_update (libm_ieee m) (some existential_plane_overflow) 3e38 =
        some p ∧
      p.self_model.total_size = 2 ∧ p.local_image.data.length = 2 ∧
      p.self_model.data.length = 2 ∧ p.identity_state.data.length = 2 ∧
      p.identity_state.data.getD 1 0 = float.nan := by
  obtain ⟨p, hp, hts, hloc, hsm, hid⟩ :=
    ieee_existential_update_data (libm_ieee m) (existential_plane_overflow (α := ℝ)) 3e38
  have hN : (existential_plane_overflow (α := ℝ)).self_model.total_size = 2 := rfl
  rw [hN] at hts hloc hsm hid
  have hb : ∀ x, -1 ≤ m.tanhf x ∧ m.tanhf x ≤ 1 := by
    intro x; rw [ht]; exact real_tanh_bounds x
  have hll : p.local_image.data.length = 2 := by
    rw [hloc, set_loop_length (fun i => i)]; rfl
  have hsl : p.self_model.data.length = 2 := by
    rw [hsm, set_loop_length (fun i => i)]; rfl
  have hil : p.identity_state.data.length = 2 := by
    rw [hid, set_loop_length (fun i => i)]; rfl
  have hL : ∀ i, i < 2 → p.local_image.data.getD i 0 = float.nan ∨
      ∃ t : ℝ, p.local_image.data.getD i 0 = float.finite t ∧ -1 ≤ t ∧ t ≤ 1 := by
    intro i hi
    rw [hloc, set_loop_getD (fun i => i) _ _ _ i hi (by show i < 2; exact hi)
      (fun j _ hj => hj)]
    exact libm_ieee_tanhf_cases m hb _
  have hS : ∀ i, i < 2 → p.self_model.data.getD i 0 = float.nan ∨
      p.self_model.data.getD i 0 = float.neg_inf := by
    intro i hi
    rw [hsm, map_loop_getD (fun i v => v + (p.local_image.data.getD i 0 - v) * 3e38 * 0.2) _ _ i
      hi (by show i < 2; exact hi)]
    have hsmi : (existential_plane_overflow (α := ℝ)).self_model.data.getD i 0 = 10 := by
      interval_cases i <;> rfl
    rw [hsmi]
    rcases hL i hi with h | ⟨t, h, h1, h2⟩
    · rw [h, nan_sub, nan_mul, nan_mul, add_nan]; exact Or.inl rfl
    · rw [h, overflow_step t h1 h2]; exact Or.inr rfl
  refine ⟨p, hp, hts, hll, hsl, hil, ?_⟩
  rw [hid, set_loop_getD (fun i => i) _ _ _ 1 (by norm_num) (by show 1 < 2; norm_num)
    (fun j _ hj => hj)]
  have hcoh : (List.range 2).foldl
      (fun coherence j =>
        coherence +
          p.self_model.data.getD j 0 *
            (libm_ieee m).cosf (2 * (libm_ieee m).M_PI * ((size_sub 1 j : Nat) : float ℝ) /
              ((2 : Nat) : float ℝ)))
      0 = float.nan := by
    simp only [List.range_succ, List.range_zero, List.nil_append, List.foldl_cons,
      List.foldl_nil, List.singleton_append, size_sub_one_zero, size_sub_one_one]
    rw [(ieee_cos_phase m hc hpi).1, (ieee_cos_phase m hc hpi).2]
    exact coherence_nan _ _ (hS 0 (by norm_num)) (hS 1 (by norm_num))
  rw [hcoh, nan_div, libm_ieee_tanhf_nan, mul_nan, add_nan]

end IeeeOverflowStep

section IeeeExistentialInstances

variable {α : Type} [LinearOrderedField α]

/-! ### Counterexamples and instances for the existential plane -/

open IEEE

/-- Claim C15, as stated, is refuted. With the real libm functions, updating the finite plane
`existential_plane_overflow` (model size 2, `self_model = [10, 10]`) with the finite
`dt = 3e38` overflows the self-model to `-inf` and leaves a NaN in `identity_state`; the next
update, with `dt = 0.1`, stores `image_convergence = NaN`, which is not in `[0,1]`. -/
theorem ieee_image_convergence_counterexample :
    ∃ m : libm ℝ, m.expf = Real.exp ∧ m.tanhf = Real.tanh ∧ m.cosf = Real.cos ∧
      m.sqrtf = Real.sqrt ∧ m.M_PI = Real.pi ∧
      ∃ p1 p2 : existential_plane_t (float ℝ),
        IEEE.existential_plane_update (libm_ieee m) (some existential_plane_overflow) 3e38 =
          some p1 ∧
        IEEE.existential_plane_update (libm_ieee m) (some p1) 0.1 = some p2 ∧
        p2.image_convergence = float.nan ∧
        ¬ (0 ≤ p2.image_convergence ∧ p2.image_convergence ≤ 1) := by
  refine ⟨⟨Real.exp, Real.tanh, Real.cos, Real.sqrt, Real.pi⟩, rfl, rfl, rfl, rfl, rfl, ?_⟩
  obtain ⟨p1, hp1, hts, hll, hsl, hil, hnan⟩ := ieee_existential_overflow_step
    ⟨Real.exp, Real.tanh, Real.cos, Real.sqrt, Real.pi⟩ rfl rfl rfl
  obtain ⟨p2, hp2, hconv, -, -⟩ := ieee_existential_nan
    (libm_ieee ⟨Real.exp, Real.tanh, Real.cos, Real.sqrt, Real.pi⟩) rfl rfl p1 0.1 (by rw [hts]; norm_num) (by rw [hts]; exact hll)
    (by rw [hts]; exact hsl) (by rw [hts]; exact hil) 1 (by rw [hts]; norm_num) hnan
  refine ⟨p1, p2, hp1, hp2, hconv, ?_⟩
  rw [hconv]
  exact fun h => not_nan_le _ h.2

/-- Claim C32, as stated, is refuted. With the real libm functions, updating the finite plane
`existential_plane_overflow` (model size 2, `self_model = [10, 10]`) with the finite
`dt = 3e38` overflows the self-model to `-inf` and leaves a NaN in `identity_state`; the next
update, with `dt = 0.1`, stores `autonomy_level = NaN`, which is not in `[0,1]`. -/
theorem ieee_autonomy_counterexample :
    ∃ m : libm ℝ, m.expf = Real.exp ∧ m.tanhf = Real.tanh ∧ m.cosf = Real.cos ∧
      m.sqrtf = Real.sqrt ∧ m.M_PI = Real.pi ∧
      ∃ p1 p2 : existential_plane_t (float ℝ),
        IEEE.existential_plane_update (libm_ieee m) (some existential_plane_overflow) 3e38 =
          some p1 ∧
        IEEE.existential_plane_update (libm_ieee m) (some p1) 0.1 = some p2 ∧
        p2.autonomy_level = float.nan ∧
        ¬ (0 ≤ p2.autonomy_level ∧ p2.autonomy_level ≤ 1) := by
  refine ⟨⟨Real.exp, Real.tanh, Real.cos, Real.sqrt, Real.pi⟩, rfl, rfl, rfl, rfl, rfl, ?_⟩
  obtain ⟨p1, hp1, hts, hll, hsl, hil, hnan⟩ := ieee_existential_overflow_step
    ⟨Real.exp, Real.tanh, Real.cos, Real.sqrt, Real.pi⟩ rfl rfl rfl
  obtain ⟨p2, hp2, -, -, ha⟩ := ieee_existential_nan
    (libm_ieee ⟨Real.exp, Real.tanh, Real.cos, Real.sqrt, Real.pi⟩) rfl rfl p1 0.1 (by rw [hts]; norm_num) (by rw [hts]; exact hll)
    (by rw [hts]; exact hsl) (by rw [hts]; exact hil) 1 (by rw [hts]; norm_num) hnan
  refine ⟨p1, p2, hp1, hp2, ha, ?_⟩
  rw [ha]
  exact fun h => not_nan_le _ h.2

theorem libm_ieee_expf_unit (m : libm α) (h : ∀ x, x ≤ 0 → 0 ≤ m.expf x ∧ m.expf x ≤ 1) :
    ∀ v : float α, v ≤ 0 → 0 ≤ (libm_ieee m).expf v ∧ (libm_ieee m).expf v ≤ 1 := by
  have h1m : (1 : α) ≤ FLT_MAX := by unfold FLT_MAX; norm_num
  intro v hv
  rw [float_zero] at hv
  cases v with
  | finite x =>
    rw [finite_le_finite] at hv
    obtain ⟨h0, h1⟩ := h x hv
    show (0 : float α) ≤ overflow (m.expf x) ∧ overflow (m.expf x) ≤ 1
    rw [overflow_finite _ (by linarith) (by linarith)]
    exact (float_unit_iff _).mpr ⟨_, rfl, h0, h1⟩
  | pos_inf => exact absurd hv Bool.false_ne_true
  | neg_inf =>
    show (0 : float α) ≤ float.finite 0 ∧ float.finite 0 ≤ (1 : float α)
    exact (float_unit_iff _).mpr ⟨0, rfl, le_refl _, zero_le_one⟩
  | nan => exact absurd hv (not_nan_le _)

theorem libm_ieee_tanhf_unit (m : libm α) (hb : ∀ x, -1 ≤ m.tanhf x ∧ m.tanhf x ≤ 1)
    (hn : ∀ x, 0 ≤ x → 0 ≤ m.tanhf x) :
    ∀ v : float α, 0 ≤ v → 0 ≤ (libm_ieee m).tanhf v ∧ (libm_ieee m).tanhf v ≤ 1 := by
  have h1m : (1 : α) ≤ FLT_MAX := by unfold FLT_MAX; norm_num
  intro v hv
  rcases (float_nonneg_iff v).mp hv with rfl | ⟨x, rfl, hx⟩
  · show (0 : float α) ≤ float.finite 1 ∧ float.finite 1 ≤ (1 : float α)
    exact (float_unit_iff _).mpr ⟨1, rfl, zero_le_one, le_refl _⟩
  · show (0 : float α) ≤ overflow (m.tanhf x) ∧ overflow (m.tanhf x) ≤ 1
    rw [overflow_finite _ (by linarith [hn x hx]) (by linarith [(hb x).2])]
    exact (float_unit_iff _).mpr ⟨_, rfl, hn x hx, (hb x).2⟩

theorem ieee_image_convergence_bounds_witness :
    ∃ p : existential_plane_t (float ℚ),
      IEEE.existential_plane_update (libm_ieee libm_rat) (some existential_plane_overflow)
        0.1 = some p ∧
      (p.image_convergence = float.nan ∨
        (0 ≤ p.image_convergence ∧ p.image_convergence ≤ 1)) :=
  ieee_image_convergence_bounds (libm_ieee libm_rat)
    (libm_ieee_expf_unit libm_rat libm_rat_expf_bounds) rfl existential_plane_overflow 0.1
    (by decide) (by norm_num [existential_plane_overflow, SIZE_MOD])

theorem ieee_autonomy_spec_witness :
    ∃ p : existential_plane_t (float ℚ),
      IEEE.existential_plane_update (libm_ieee libm_rat) (some existential_plane_overflow)
        0.1 = some p ∧
      (p.operational_closure = true →
        p.autonomy_level =
          fminf 1
            ((libm_ieee libm_rat).tanhf
              ((List.range (existential_plane_overflow (α := ℚ)).self_model.total_size).foldl
                (fun identity_strength i =>
                  identity_strength + fabsf (p.identity_state.data.getD i 0))
                0 / ((existential_plane_overflow (α := ℚ)).self_model.total_size : float ℚ)) *
              1.2)) ∧
      (p.operational_closure = false →
        p.autonomy_level =
          (libm_ieee libm_rat).tanhf
            ((List.range (existential_plane_overflow (α := ℚ)).self_model.total_size).foldl
              (fun identity_strength i =>
                identity_strength + fabsf (p.identity_state.data.getD i 0))
              0 / ((existential_plane_overflow (α := ℚ)).self_model.total_size : float ℚ))) ∧
      (p.autonomy_level = float.nan ∨ (0 ≤ p.autonomy_level ∧ p.autonomy_level ≤ 1)) :=
  ieee_autonomy_spec (libm_ieee libm_rat)
    (libm_ieee_tanhf_unit libm_rat libm_rat_tanhf_bounds libm_rat_tanhf_nonneg) rfl
    existential_plane_overflow 0.1 (by decide)

theorem ieee_information_plane_update_spec_witness :
    ∃ p : information_plane_t (float ℚ),
      IEEE.information_plane_update
          (some
            { connectivity := { data := [0, 0.5, 0.25, 0], shape := [2, 2], n_dims := 2,
                                total_size := 4 }
              information_flow := { data := [0.5, 0.5], shape := [2], n_dims := 1,
                                    total_size := 2 }
              complexity := 2
              n_relations := 2 })
          0.1 = some p ∧
      p.connectivity =
        { data := [0, 0.5, 0.25, 0], shape := [2, 2], n_dims := 2, total_size := 4 } ∧
      p.n_relations = 2 ∧ p.information_flow.data.length = 2 ∧
      ∀ i, i < 2 →
        ∃ v : float ℚ,
          v = ([0.5, 0.5] : List (float ℚ)).getD i 0 * (1 - 0.1) +
            (List.range 2).foldl
              (fun incoming j =>
                incoming +
                  ([0, 0.5, 0.25, 0] : List (float ℚ)).getD (j * 2 + i) 0 *
                    ([0.5, 0.5] : List (float ℚ)).getD j 0)
              0 * 0.1 ∧
          p.information_flow.data.getD i 0 = (if v > 1 then 1 else if v < 0 then 0 else v) ∧
          (p.information_flow.data.getD i 0 = float.nan ↔ v = float.nan) ∧
          (v ≠ float.nan →
            0 ≤ p.information_flow.data.getD i 0 ∧ p.information_flow.data.getD i 0 ≤ 1) :=
  ieee_information_plane_update_spec
    { connectivity := { data := [0, 0.5, 0.25, 0], shape := [2, 2], n_dims := 2,
                        total_size := 4 }
      information_flow := { data := [0.5, 0.5], shape := [2], n_dims := 1, total_size := 2 }
      complexity := 2
      n_relations := 2 }
    0.1 (by decide) rfl (by decide)

end IeeeExistentialInstances

section IeeeViability

variable {α : Type} [LinearOrderedField α]

/-! ### Viability in IEEE arithmetic -/

open IEEE

theorem float_half : (0.5 : float α) = float.finite 0.5 := by
  rw [float_ofScientific]
  apply overflow_finite <;> norm_num [FLT_MAX]

theorem float_fifth : (0.2 : float α) = float.finite 0.2 := by
  rw [float_ofScientific]
  apply overflow_finite <;> norm_num [FLT_MAX]

theorem float_three_tenths : (0.3 : float α) = float.finite 0.3 := by
  rw [float_ofScientific]
  apply overflow_finite <;> norm_num [FLT_MAX]

theorem finite_add_small (x y u v : α) (hx : 0 ≤ x) (hxu : x ≤ u) (hy : 0 ≤ y) (hyv : y ≤ v)
    (huv : u + v ≤ 4) :
    float.finite x + float.finite y = float.finite (x + y) ∧ 0 ≤ x + y ∧ x + y ≤ u + v := by
  have hm : (8 : α) ≤ FLT_MAX := by unfold FLT_MAX; norm_num
  rw [finite_add_finite]
  exact ⟨overflow_finite _ (by linarith) (by linarith), by linarith, by linarith⟩

theorem finite_mul_small (x k : α) (hx : 0 ≤ x ∧ x ≤ 1) (hk : 0 ≤ k ∧ k ≤ 1) :
    float.finite x * float.finite k = float.finite (x * k) ∧ 0 ≤ x * k ∧ x * k ≤ k := by
  have hm : (1 : α) ≤ FLT_MAX := by unfold FLT_MAX; norm_num
  rw [finite_mul_finite]
  have h0 : 0 ≤ x * k := mul_nonneg hx.1 hk.1
  have h1 : x * k ≤ k := by nlinarith [hx.1, hx.2, hk.1, hk.2]
  exact ⟨overflow_finite _ (by linarith) (by linarith [hk.2]), h0, h1⟩

/-- The value `0.5f + 0.5f * t` for `t` NaN or in `[-1,1]` is NaN or in `[0,1]`. -/
theorem ieee_entropy_range (T : float α)
    (h : T = float.nan ∨ ∃ t : α, T = float.finite t ∧ -1 ≤ t ∧ t ≤ 1) :
    0.5 + 0.5 * T = float.nan ∨ (0 ≤ 0.5 + 0.5 * T ∧ 0.5 + 0.5 * T ≤ 1) := by
  have hm : (2 : α) ≤ FLT_MAX := by unfold FLT_MAX; norm_num
  rcases h with rfl | ⟨t, rfl, h1, h2⟩
  · rw [mul_nan, add_nan]; exact Or.inl rfl
  · refine Or.inr ?_
    have e1 : (0.5 : α) * t ≤ 2 := by norm_num; linarith
    have e2 : -2 ≤ (0.5 : α) * t := by norm_num; linarith
    have e3 : (0.5 : α) + 0.5 * t ≤ 2 := by norm_num; linarith
    have e4 : -2 ≤ (0.5 : α) + 0.5 * t := by norm_num; linarith
    rw [float_half, finite_mul_finite, overflow_finite _ (by linarith) (by linarith),
      finite_add_finite, overflow_finite _ (by linarith) (by linarith), float_zero, float_one,
      finite_le_finite, finite_le_finite]
    constructor <;> norm_num <;> linarith

theorem ieee_one_sub_unit (x : float α) (h : x = float.nan ∨ (0 ≤ x ∧ x ≤ 1)) :
    1 - x = float.nan ∨ (0 ≤ 1 - x ∧ 1 - x ≤ 1) := by
  have hm : (2 : α) ≤ FLT_MAX := by unfold FLT_MAX; norm_num
  rcases h with rfl | h
  · rw [sub_nan]; exact Or.inl rfl
  · obtain ⟨r, rfl, h0, h1⟩ := (float_unit_iff x).mp h
    refine Or.inr ?_
    rw [float_one, finite_sub_finite, overflow_finite _ (by linarith) (by linarith), float_zero,
      finite_le_finite, finite_le_finite]
    constructor <;> linarith

theorem ieee_weighted_finite (a b c d : α) (a0 : 0 ≤ a) (a1 : a ≤ 1) (b0 : 0 ≤ b) (b1 : b ≤ 1)
    (c0 : 0 ≤ c) (c1 : c ≤ 1) (d0 : 0 ≤ d) (d1 : d ≤ 1) :
    ∃ r : α, float.finite a * 0.2 + float.finite b * 0.3 + float.finite c * 0.3 +
        float.finite d * 0.2 = float.finite r ∧ 0 ≤ r ∧ r ≤ 1 := by
  have k2 : (0 : α) ≤ 0.2 ∧ (0.2 : α) ≤ 1 := by constructor <;> norm_num
  have k3 : (0 : α) ≤ 0.3 ∧ (0.3 : α) ≤ 1 := by constructor <;> norm_num
  obtain ⟨ea, pa0, pa1⟩ := finite_mul_small a 0.2 ⟨a0, a1⟩ k2
  obtain ⟨eb, pb0, pb1⟩ := finite_mul_small b 0.3 ⟨b0, b1⟩ k3
  obtain ⟨ec, pc0, pc1⟩ := finite_mul_small c 0.3 ⟨c0, c1⟩ k3
  obtain ⟨ed, pd0, pd1⟩ := finite_mul_small d 0.2 ⟨d0, d1⟩ k2
  obtain ⟨s1, u0, u1⟩ := finite_add_small (a * 0.2) (b * 0.3) 0.2 0.3 pa0 pa1 pb0 pb1
    (by norm_num)
  obtain ⟨s2, v0, v1⟩ := finite_add_small (a * 0.2 + b * 0.3) (c * 0.3) (0.2 + 0.3) 0.3
    u0 u1 pc0 pc1 (by norm_num)
  obtain ⟨s3, w0, w1⟩ := finite_add_small (a * 0.2 + b * 0.3 + c * 0.3) (d * 0.2)
    (0.2 + 0.3 + 0.3) 0.2 v0 v1 pd0 pd1 (by norm_num)
  refine ⟨a * 0.2 + b * 0.3 + c * 0.3 + d * 0.2, ?_, w0, ?_⟩
  · rw [float_fifth, float_three_tenths, ea, eb, ec, ed, s1, s2, s3]
  · have s : (0.2 : α) + 0.3 + 0.3 + 0.2 = 1 := by norm_num
    rw [s] at w1
    exact w1

/-- The weighted sum of `cybernetic_system_calculate_viability`, for four scores that are NaN
or in `[0,1]`, is NaN or in `[0,1]`. -/
theorem ieee_weighted (a b c d : float α) (ha : a = float.nan ∨ (0 ≤ a ∧ a ≤ 1))
    (hb : b = float.nan ∨ (0 ≤ b ∧ b ≤ 1)) (hc : c = float.nan ∨ (0 ≤ c ∧ c ≤ 1))
    (hd : d = float.nan ∨ (0 ≤ d ∧ d ≤ 1)) :
    a * 0.2 + b * 0.3 + c * 0.3 + d * 0.2 = float.nan ∨
      (0 ≤ a * 0.2 + b * 0.3 + c * 0.3 + d * 0.2 ∧ a * 0.2 + b * 0.3 + c * 0.3 + d * 0.2 ≤ 1) := by
  rcases ha with rfl | ha
  · rw [nan_mul, nan_add, nan_add, nan_add]; exact Or.inl rfl
  rcases hb with rfl | hb
  · rw [nan_mul, add_nan, nan_add, nan_add]; exact Or.inl rfl
  rcases hc with rfl | hc
  · rw [nan_mul, add_nan, nan_add]; exact Or.inl rfl
  rcases hd with rfl | hd
  · rw [nan_mul, add_nan]; exact Or.inl rfl
  obtain ⟨a, rfl, a0, a1⟩ := (float_unit_iff a).mp ha
  obtain ⟨b, rfl, b0, b1⟩ := (float_unit_iff b).mp hb
  obtain ⟨c, rfl, c0, c1⟩ := (float_unit_iff c).mp hc
  obtain ⟨d, rfl, d0, d1⟩ := (float_unit_iff d).mp hd
  obtain ⟨r, hr, r0, r1⟩ := ieee_weighted_finite a b c d a0 a1 b0 b1 c0 c1 d0 d1
  rw [hr]
  exact Or.inr ((float_unit_iff _).mpr ⟨r, rfl, r0, r1⟩)

theorem ieee_physical_update_entropy (M : libm (float α))
    (hc : ∀ v : float α, M.tanhf v = float.nan ∨
      ∃ t : α, M.tanhf v = float.finite t ∧ -1 ≤ t ∧ t ≤ 1)
    (p : physical_plane_t (float α)) (dt : float α) :
    ((IEEE.physical_plane_update M (some p) dt).getD p).entropy_level = float.nan ∨
      (0 ≤ ((IEEE.physical_plane_update M (some p) dt).getD p).entropy_level ∧
        ((IEEE.physical_plane_update M (some p) dt).getD p).entropy_level ≤ 1) :=
  ieee_entropy_range _ (hc _)

theorem ieee_information_update_complexity (p : information_plane_t (float α))
    (dt : float α) :
    ((IEEE.information_plane_update (some p) dt).getD p).complexity = float.nan ∨
      0 ≤ ((IEEE.information_plane_update (some p) dt).getD p).complexity :=
  float_div_nonneg _ p.n_relations
    (ieee_sum_nonneg (fun i => fabsf (p.connectivity.data.getD i 0)) _
      (fun _ => fabsf_nonneg _))

theorem ieee_existential_update_autonomy (M : libm (float α))
    (ht : ∀ v : float α, 0 ≤ v → 0 ≤ M.tanhf v ∧ M.tanhf v ≤ 1)
    (htn : M.tanhf float.nan = float.nan)
    (plane : existential_plane_t (float α)) (dt : float α) :
    ((IEEE.existential_plane_update M (some plane) dt).getD plane).autonomy_level = float.nan ∨
      (0 ≤ ((IEEE.existential_plane_update M (some plane) dt).getD plane).autonomy_level ∧
        ((IEEE.existential_plane_update M (some plane) dt).getD plane).autonomy_level ≤ 1) := by
  obtain ⟨p, hp, -, -, -, -, ha, -⟩ := ieee_existential_update_shape M plane dt
  rw [hp]
  show p.autonomy_level = float.nan ∨ (0 ≤ p.autonomy_level ∧ p.autonomy_level ≤ 1)
  have hT : M.tanhf
        ((List.range plane.self_model.total_size).foldl
          (fun identity_strength i =>
            identity_strength + fabsf (p.identity_state.data.getD i 0))
          0 / (plane.self_model.total_size : float α)) = float.nan ∨
      (0 ≤ M.tanhf
          ((List.range plane.self_model.total_size).foldl
            (fun identity_strength i =>
              identity_strength + fabsf (p.identity_state.data.getD i 0))
            0 / (plane.self_model.total_size : float α)) ∧
        M.tanhf
          ((List.range plane.self_model.total_size).foldl
            (fun identity_strength i =>
              identity_strength + fabsf (p.identity_state.data.getD i 0))
            0 / (plane.self_model.total_size : float α)) ≤ 1) := by
    rcases float_div_nonneg _ plane.self_model.total_size
      (ieee_sum_nonneg (fun i => fabsf (p.identity_state.data.getD i 0))
        plane.self_model.total_size (fun i => fabsf_nonneg _)) with h | h
    · rw [h, htn]; exact Or.inl rfl
    · exact Or.inr (ht _ h)
  rw [ha]
  by_cases hc : p.operational_closure = true
  · rw [if_pos hc]
    rcases hT with h | h
    · rw [h, nan_mul]
      refine Or.inr ?_
      show (0 : float α) ≤ 1 ∧ (1 : float α) ≤ 1
      rw [float_zero, float_one, finite_le_finite, finite_le_finite]
      exact ⟨zero_le_one, le_refl _⟩
    · obtain ⟨t, h5, h6, h7⟩ := (float_unit_iff _).mp h
      rw [h5]
      exact Or.inr (fminf_one_unit t h6 h7)
  · rw [if_neg hc]
    exact hT

theorem ieee_viability_range (M : libm (float α))
    (ht : ∀ v : float α, 0 ≤ v → 0 ≤ M.tanhf v ∧ M.tanhf v ≤ 1)
    (htn : M.tanhf float.nan = float.nan) (sys : cybernetic_system_t (float α))
    (he : sys.physical.entropy_level = float.nan ∨
      (0 ≤ sys.physical.entropy_level ∧ sys.physical.entropy_level ≤ 1))
    (hc : sys.information.complexity = float.nan ∨ 0 ≤ sys.information.complexity)
    (ha : sys.existential.autonomy_level = float.nan ∨
      (0 ≤ sys.existential.autonomy_level ∧ sys.existential.autonomy_level ≤ 1)) :
    IEEE.cybernetic_system_calculate_viability M (some sys) = float.nan ∨
      (0 ≤ IEEE.cybernetic_system_calculate_viability M (some sys) ∧
        IEEE.cybernetic_system_calculate_viability M (some sys) ≤ 1) := by
  unfold IEEE.cybernetic_system_calculate_viability
  dsimp only
  apply ieee_weighted
  · exact ieee_one_sub_unit _ he
  · rcases float_div_nonneg _ 5 hc with h | h
    · left
      exact (congrArg M.tanhf h).trans htn
    · right
      exact ht _ h
  · exact ha
  · apply ieee_one_sub_unit
    rcases fabsf_nonneg (α := α) _ with h | h
    · left
      rw [h, htn]
    · right
      exact ht _ h

theorem ieee_viability_nan (M : libm (float α)) (sys : cybernetic_system_t (float α))
    (h : sys.physical.entropy_level = float.nan) :
    IEEE.cybernetic_system_calculate_viability M (some sys) = float.nan := by
  unfold IEEE.cybernetic_system_calculate_viability
  dsimp only
  rw [h, sub_nan, nan_mul, nan_add, nan_add, nan_add]

theorem ieee_system_step_spec (M : libm (float α))
    (hc : ∀ v : float α, M.tanhf v = float.nan ∨
      ∃ t : α, M.tanhf v = float.finite t ∧ -1 ≤ t ∧ t ≤ 1)
    (ht : ∀ v : float α, 0 ≤ v → 0 ≤ M.tanhf v ∧ M.tanhf v ≤ 1)
    (htn : M.tanhf float.nan = float.nan) (sys : cybernetic_system_t (float α))
    (dt : float α) (rng : Nat → float α) :
    ∃ sys' : cybernetic_system_t (float α),
      (IEEE.cybernetic_system_step M (some sys) dt rng).1 = some sys' ∧
      (sys'.viability = float.nan ∨ (0 ≤ sys'.viability ∧ sys'.viability ≤ 1)) :=
  ⟨_, rfl,
    ieee_viability_range M ht htn _ (ieee_physical_update_entropy M hc _ _)
      (ieee_information_update_complexity _ _) (ieee_existential_update_autonomy M ht htn _ _)⟩

theorem ieee_system_step_nan (M : libm (float α)) (sys : cybernetic_system_t (float α))
    (dt : float α) (rng : Nat → float α)
    (h : ((IEEE.physical_plane_update M (some sys.physical)
      (dt * sys.evolution_rate)).getD sys.physical).entropy_level = float.nan) :
    ∃ sys' : cybernetic_system_t (float α),
      (IEEE.cybernetic_system_step M (some sys) dt rng).1 = some sys' ∧
      sys'.viability = float.nan :=
  ⟨_, rfl, ieee_viability_nan M _ h⟩

theorem ieee_system_intervene_frame (sys : cybernetic_system_t (float α))
    (point : leverage_point_t) (magnitude : float α) :
    ∃ sys' : cybernetic_system_t (float α),
      IEEE.cybernetic_system_intervene (some sys) point magnitude = some sys' ∧
      sys'.viability = sys.viability := by
  unfold IEEE.cybernetic_system_intervene
  simp only
  split_ifs <;> exact ⟨_, rfl, rfl⟩

theorem ieee_system_self_organize_frame (sys : cybernetic_system_t (float α)) :
    ∃ sys' : cybernetic_system_t (float α),
      IEEE.cybernetic_system_self_organize (some sys) = some sys' ∧
      sys'.viability = sys.viability :=
  ⟨_, rfl, rfl⟩

theorem ieee_cycle_create_fst (type : cycle_type_t) (state_size : Nat)
    (rng : Nat → float α) :
    ∃ c : cycle_state_t (float α), (IEEE.cycle_create type state_size rng).1 = some c :=
  ⟨_, rfl⟩

theorem ieee_create_cycles_loop (system_size : Nat) (k : Nat) (rng : Nat → float α) :
    ∃ cycles : List (cycle_state_t (float α)),
      ((List.range k).foldl
        (fun (st : Option (List (cycle_state_t (float α))) × (Nat → float α)) i =>
          match st.1 with
          | none => st
          | some cycles =>
            let c := IEEE.cycle_create (((i : Nat) : Int) + 1) system_size st.2
            match c.1 with
            | none => (none, c.2)
            | some cycle => (some (cycles ++ [cycle]), c.2))
        (some [], rng)).1 = some cycles := by
  induction k with
  | zero => exact ⟨[], rfl⟩
  | succ k ih =>
    obtain ⟨cycles, h⟩ := ih
    rw [List.range_succ, List.foldl_append]
    simp only [List.foldl_cons, List.foldl_nil, h]
    exact ⟨_, rfl⟩

theorem ieee_system_create_fst (n_nodes system_size : Nat) (rng : Nat → float α) :
    ∃ sys : cybernetic_system_t (float α),
      (IEEE.cybernetic_system_create n_nodes system_size rng).1 = some sys ∧
      sys.viability = 0.5 ∧ sys.evolution_rate = 1 ∧
      (IEEE.physical_plane_create n_nodes rng).1 = some sys.physical := by
  obtain ⟨p, hp⟩ : ∃ p, (IEEE.physical_plane_create n_nodes rng).1 = some p := ⟨_, rfl⟩
  obtain ⟨i, hi⟩ : ∃ i, (IEEE.information_plane_create n_nodes
      (IEEE.physical_plane_create n_nodes rng).2).1 = some i := ⟨_, rfl⟩
  obtain ⟨e, he⟩ : ∃ e, (IEEE.existential_plane_create system_size
      (IEEE.information_plane_create n_nodes (IEEE.physical_plane_create n_nodes rng).2).2).1 =
        some e := ⟨_, rfl⟩
  obtain ⟨cycles, h⟩ := ieee_create_cycles_loop (α := α) system_size 6
    (IEEE.existential_plane_create system_size
      (IEEE.information_plane_create n_nodes (IEEE.physical_plane_create n_nodes rng).2).2).2
  unfold IEEE.cybernetic_system_create
  simp only [hp, hi, he, h, IEEE.spiral_create]
  exact ⟨_, rfl, rfl, rfl, rfl⟩

theorem ieee_system_call_apply_step (M : libm (float α))
    (st : Option (cybernetic_system_t (float α)) × (Nat → float α)) (dt : float α) :
    IEEE.system_call_apply M st (system_call.step dt) =
      IEEE.cybernetic_system_step M st.1 dt st.2 :=
  rfl

theorem ieee_system_call_apply_intervene (M : libm (float α))
    (st : Option (cybernetic_system_t (float α)) × (Nat → float α)) (point : leverage_point_t)
    (magnitude : float α) :
    IEEE.system_call_apply M st (system_call.intervene point magnitude) =
      (IEEE.cybernetic_system_intervene st.1 point magnitude, st.2) :=
  rfl

theorem ieee_system_call_apply_self_organize (M : libm (float α))
    (st : Option (cybernetic_system_t (float α)) × (Nat → float α)) :
    IEEE.system_call_apply M st system_call.self_organize =
      (IEEE.cybernetic_system_self_organize st.1, st.2) :=
  rfl

theorem ieee_system_run_viability (M : libm (float α))
    (hc : ∀ v : float α, M.tanhf v = float.nan ∨
      ∃ t : α, M.tanhf v = float.finite t ∧ -1 ≤ t ∧ t ≤ 1)
    (ht : ∀ v : float α, 0 ≤ v → 0 ≤ M.tanhf v ∧ M.tanhf v ≤ 1)
    (htn : M.tanhf float.nan = float.nan) (calls : List (system_call (float α))) :
    ∀ (sys : cybernetic_system_t (float α)) (rng : Nat → float α),
      (sys.viability = float.nan ∨ (0 ≤ sys.viability ∧ sys.viability ≤ 1)) →
      ∃ sys' : cybernetic_system_t (float α),
        (IEEE.system_run M (some sys, rng) calls).1 = some sys' ∧
        (sys'.viability = float.nan ∨ (0 ≤ sys'.viability ∧ sys'.viability ≤ 1)) := by
  induction calls with
  | nil =>
    intro sys rng h0
    exact ⟨sys, rfl, h0⟩
  | cons c cs ih =>
    intro sys rng h0
    unfold IEEE.system_run at ih ⊢
    rw [List.foldl_cons]
    cases c with
    | step dt =>
      obtain ⟨sys', e, a0⟩ := ieee_system_step_spec M hc ht htn sys dt rng
      rw [ieee_system_call_apply_step, pair_eq_of_fst _ _ e]
      exact ih sys' _ a0
    | intervene point magnitude =>
      obtain ⟨sys', e, a⟩ := ieee_system_intervene_frame sys point magnitude
      rw [ieee_system_call_apply_intervene]
      simp only [e]
      exact ih sys' rng (a ▸ h0)
    | self_organize =>
      obtain ⟨sys', e, a⟩ := ieee_system_self_organize_frame sys
      rw [ieee_system_call_apply_self_organize]
      simp only [e]
      exact ih sys' rng (a ▸ h0)

/-- Claim C13, amended. In IEEE arithmetic, for a `tanhf` with values in `[-1,1]` that is
non-negative on non-negative arguments (extended by `tanhf(±inf) = ±1` and
`tanhf(NaN) = NaN`), every system created by `cybernetic_system_create` with `n_nodes ≥ 1`
and `system_size ≥ 1`, and every sequence of `cybernetic_system_step`,
`cybernetic_system_intervene` and `cybernetic_system_self_organize` calls (any `dt`, any
magnitude, any stream of random values, infinities and NaN included): the stored `viability`
of the resulting system is NaN or lies in `[0,1]`. -/
theorem ieee_system_viability_bounds (m : libm α) (hb : ∀ x, -1 ≤ m.tanhf x ∧ m.tanhf x ≤ 1)
    (hn : ∀ x, 0 ≤ x → 0 ≤ m.tanhf x) (n_nodes system_size : Nat) (_h1 : 1 ≤ n_nodes)
    (_h2 : 1 ≤ system_size) (rng : Nat → float α) (calls : List (system_call (float α))) :
    ∃ sys : cybernetic_system_t (float α),
      (IEEE.system_run (libm_ieee m) (IEEE.cybernetic_system_create n_nodes system_size rng)
        calls).1 = some sys ∧
      (sys.viability = float.nan ∨ (0 ≤ sys.viability ∧ sys.viability ≤ 1)) := by
  obtain ⟨sys0, e, hv, -⟩ := ieee_system_create_fst (α := α) n_nodes system_size rng
  rw [pair_eq_of_fst _ _ e]
  apply ieee_system_run_viability (libm_ieee m) (libm_ieee_tanhf_cases m hb)
    (libm_ieee_tanhf_unit m hb hn) (libm_ieee_tanhf_nan m) calls sys0 _
  refine Or.inr ?_
  rw [hv, float_half, float_zero, float_one, finite_le_finite, finite_le_finite]
  constructor <;> norm_num

end IeeeViability

section IeeeViabilityInstances

variable {α : Type} [LinearOrderedField α]

/-! ### An intervention that overflows the total energy -/

open IEEE

theorem ieee_intervene_constants (sys : cybernetic_system_t (float α)) (magnitude : float α) :
    ∃ sys' : cybernetic_system_t (float α),
      IEEE.cybernetic_system_intervene (some sys) LEVERAGE_CONSTANTS magnitude = some sys' ∧
      sys'.physical.n_components = sys.physical.n_components ∧
      sys'.physical.energy_state.data =
        (List.range sys.physical.n_components).foldl
          (fun d i => d.set i (d.getD i 0 + magnitude * 0.1))
          sys.physical.energy_state.data ∧
      sys'.evolution_rate = sys.evolution_rate := by
  unfold IEEE.cybernetic_system_intervene
  simp only
  rw [if_pos (by decide)]
  exact ⟨_, rfl, rfl, rfl, rfl⟩

theorem getD_replicate_zero (n i : Nat) (h : i < n) :
    (List.replicate n (0 : float α)).getD i 0 = 0 := by
  simp [List.getD_eq_getElem?_getD, List.getElem?_replicate, h]

theorem float_tenth : (0.1 : float α) = float.finite 0.1 := by
  rw [float_ofScientific]
  apply overflow_finite <;> norm_num [FLT_MAX]

/-- The increment `3e38f * 0.1f` of `cybernetic_system_intervene` is the finite value
`3e37`. -/
theorem intervene_increment : (0 : float α) + 3e38 * 0.1 = float.finite 3e37 := by
  have h3 : (3e38 : float α) = float.finite 3e38 := by
    rw [float_ofScientific]
    apply overflow_finite <;> norm_num [FLT_MAX]
  rw [h3, float_tenth, float_zero, finite_mul_finite,
    overflow_finite _ (by norm_num [FLT_MAX]) (by norm_num [FLT_MAX]), finite_add_finite,
    overflow_finite _ (by norm_num [FLT_MAX]) (by norm_num [FLT_MAX])]
  norm_num

/-- Twelve energies `3e37` add up to more than `FLT_MAX`: the total is `+inf`. -/
theorem total_energy_overflow (d : List (float α))
    (hd : ∀ i, i < 12 → d.getD i 0 = float.finite 3e37) :
    (List.range 12).foldl (fun total_energy i => total_energy + d.getD i 0) (0 : float α) =
      float.pos_inf := by
  simp only [List.range_succ, List.range_zero, List.nil_append, List.cons_append,
    List.foldl_cons, List.foldl_nil, List.foldl_append, hd 0 (by norm_num), hd 1 (by norm_num), hd 2 (by norm_num), hd 3 (by norm_num), hd 4 (by norm_num), hd 5 (by norm_num), hd 6 (by norm_num), hd 7 (by norm_num), hd 8 (by norm_num), hd 9 (by norm_num), hd 10 (by norm_num), hd 11 (by norm_num)]
  rw [float_zero]
  norm_num [finite_add_finite, overflow, FLT_MAX]

/-- An element `3e37` moved towards the average `+inf` becomes `+inf`, and its difference
with the average is NaN. -/
theorem energy_diff_nan :
    (float.finite (3e37 : α) + (float.pos_inf - float.finite 3e37) * (0.1 * 1) * 0.1 -
        float.pos_inf) *
      (float.finite (3e37 : α) + (float.pos_inf - float.finite 3e37) * (0.1 * 1) * 0.1 -
        float.pos_inf) = float.nan := by
  have h1 : (0.1 : float α) * 1 = float.finite 0.1 := by
    rw [float_tenth, float_one, finite_mul_finite,
      overflow_finite _ (by norm_num [FLT_MAX]) (by norm_num [FLT_MAX]), mul_one]
  have h2 : (float.pos_inf : float α) - float.finite 3e37 = float.pos_inf := rfl
  have h3 : (float.pos_inf : float α) * float.finite 0.1 = float.pos_inf := by
    show signed_inf (0.1 : α) = float.pos_inf
    unfold signed_inf
    norm_num
  have h4 : float.finite (3e37 : α) + float.pos_inf = float.pos_inf := rfl
  have h5 : (float.pos_inf : float α) - float.pos_inf = float.nan := rfl
  rw [h1, h2, h3, float_tenth, h3, h4, h5, nan_mul]

theorem ieee_physical_update_nan (M : libm (float α)) (htn : M.tanhf float.nan = float.nan)
    (p : physical_plane_t (float α)) (hn : p.n_components = 12)
    (hlen : p.energy_state.data.length = 12)
    (hd : ∀ i, i < 12 → p.energy_state.data.getD i 0 = float.finite 3e37) :
    ((IEEE.physical_plane_update M (some p) (0.1 * 1)).getD p).entropy_level = float.nan := by
  have key : ∀ V : float α, V = float.nan →
      0.5 + 0.5 * M.tanhf (V / ((12 : Nat) : float α) - 1) = float.nan := by
    intro V hV
    rw [hV, nan_div, nan_sub, htn, mul_nan, add_nan]
  have havg : (float.pos_inf : float α) / ((12 : Nat) : float α) = float.pos_inf := by
    rw [float_natCast_finite 12 (by norm_num [SIZE_MOD])]
    show float.div float.pos_inf (float.finite ((12 : Nat) : α)) = float.pos_inf
    simp only [float.div]
    norm_num
  unfold IEEE.physical_plane_update
  dsimp only
  rw [hn, total_energy_overflow _ hd, havg]
  apply key
  apply ieee_sum_nan _ 12 0 0 (by norm_num)
  rw [map_loop_getD (fun _ x => x + (float.pos_inf - x) * (0.1 * 1) * 0.1) 12 _ 0
    (by norm_num) (by rw [hlen]; norm_num), hd 0 (by norm_num)]
  exact energy_diff_nan

/-- A system created with twelve nodes, after `intervene(LEVERAGE_CONSTANTS, 3e38f)` and
`step(0.1f)`, stores the viability NaN. -/
theorem ieee_viability_overflow (M : libm (float α)) (htn : M.tanhf float.nan = float.nan) :
    ∃ sys : cybernetic_system_t (float α),
      (IEEE.system_run M (IEEE.cybernetic_system_create 12 1 (fun _ => 0))
        [system_call.intervene LEVERAGE_CONSTANTS 3e38, system_call.step 0.1]).1 = some sys ∧
      sys.viability = float.nan := by
  obtain ⟨sys0, e0, -, hev, hp⟩ := ieee_system_create_fst (α := α) 12 1 (fun _ => 0)
  obtain ⟨sys1, e1, hn1, hd1, hev1⟩ := ieee_intervene_constants sys0 3e38
  have hpn : sys0.physical.n_components = 12 :=
    (congrArg (fun q : physical_plane_t (float α) => q.n_components)
      (Option.some.inj hp)).symm
  have hpd : sys0.physical.energy_state.data = List.replicate 12 0 :=
    (congrArg (fun q : physical_plane_t (float α) => q.energy_state.data)
      (Option.some.inj hp)).symm
  have hlen : sys1.physical.energy_state.data.length = 12 := by
    rw [hd1, set_loop_length (fun j => j) (fun i d => d.getD i 0 + 3e38 * 0.1), hpd]
    rfl
  have hval : ∀ i, i < 12 → sys1.physical.energy_state.data.getD i 0 = float.finite 3e37 := by
    intro i hi
    rw [hd1, hpn, map_loop_getD (fun _ x => x + 3e38 * 0.1) 12 _ i hi
      (by rw [hpd]; exact hi), hpd]
    rw [getD_replicate_zero 12 i hi]
    exact intervene_increment
  rw [pair_eq_of_fst _ _ e0]
  unfold IEEE.system_run
  simp only [List.foldl_cons, List.foldl_nil, ieee_system_call_apply_intervene,
    ieee_system_call_apply_step, e1]
  have hent : ((IEEE.physical_plane_update M (some sys1.physical)
      (0.1 * sys1.evolution_rate)).getD sys1.physical).entropy_level = float.nan := by
    rw [hev1, hev]
    exact ieee_physical_update_nan M htn sys1.physical (by rw [hn1, hpn]) hlen hval
  exact ieee_system_step_nan M sys1 0.1 _ hent

/-- Claim C13, as stated, is refuted. With the real libm functions, the system created by
`cybernetic_system_create(12, 1)` (random stream constantly `0`), after
`cybernetic_system_intervene(LEVERAGE_CONSTANTS, 3e38f)` and `cybernetic_system_step(0.1f)`,
has `viability = NaN`, which is not in `[0,1]`: each of the twelve energies is `3e37`,
their sum exceeds `FLT_MAX` and is `+inf`, the average is `+inf`, every energy becomes
`+inf`, the variance term `inf - inf` is NaN, and so are the entropy and the viability. -/
theorem ieee_system_viability_counterexample :
    ∃ m : libm ℝ, m.expf = Real.exp ∧ m.tanhf = Real.tanh ∧ m.cosf = Real.cos ∧
      m.sqrtf = Real.sqrt ∧ m.M_PI = Real.pi ∧
      ∃ sys : cybernetic_system_t (float ℝ),
        (IEEE.system_run (libm_ieee m) (IEEE.cybernetic_system_create 12 1 (fun _ => 0))
          [system_call.intervene LEVERAGE_CONSTANTS 3e38, system_call.step 0.1]).1 =
            some sys ∧
        sys.viability = float.nan ∧ ¬ (0 ≤ sys.viability ∧ sys.viability ≤ 1) := by
  refine ⟨⟨Real.exp, Real.tanh, Real.cos, Real.sqrt, Real.pi⟩, rfl, rfl, rfl, rfl, rfl, ?_⟩
  obtain ⟨sys, h1, h2⟩ := ieee_viability_overflow
    (libm_ieee ⟨Real.exp, Real.tanh, Real.cos, Real.sqrt, Real.pi⟩) rfl
  refine ⟨sys, h1, h2, ?_⟩
  rw [h2]
  exact fun h => not_nan_le _ h.2

theorem ieee_system_viability_bounds_witness :
    ∃ sys : cybernetic_system_t (float ℚ),
      (IEEE.system_run (libm_ieee libm_rat)
        (IEEE.cybernetic_system_create 10 20 (fun _ => 0.5))
        [system_call.step 0.1, system_call.intervene LEVERAGE_PARADIGMS 1,
          system_call.self_organize, system_call.step 0.1]).1 = some sys ∧
      (sys.viability = float.nan ∨ (0 ≤ sys.viability ∧ sys.viability ≤ 1)) :=
  ieee_system_viability_bounds libm_rat libm_rat_tanhf_bounds libm_rat_tanhf_nonneg 10 20
    (by decide) (by decide) (fun _ => 0.5) _

end IeeeViabilityInstances

end ML99
